import Mathlib

/-!
# TAZA SU backend: a shallow embedding of the request handlers

The Express application of `src/server.js` is modelled as a transition system
over a relational store (tables `users`, `complaints`, `updates` of
`src/scripts/init-database.js`).  Every SQL statement issued through `query`
becomes a function on the store; every middleware and route handler becomes a
function from the request and the store to a response and a new store.

Scope.  A request is taken where it reaches the route table: `helmet`, the
rate limiter, `cors` and the body parsers have let it through, and no
statement fails for a reason outside the schema (lost connection and the
like).  A statement fails, and the enclosing `catch` answers 500, exactly when
a parameter does not fit the declared type of its column or a declared
constraint is violated.  Requests are served one at a time.

External capabilities (`jsonwebtoken`, `bcryptjs`, the clock, the database's
text input and pattern matching, locale-independent case mapping, float
parsing, `path.extname`) are fields of `Env`.

Next to the effect of each statement on the store, the query texts and
parameter lists that the listing routes and the complaint update build are
rendered as the handlers build them (`publicQuery`, `myQuery`, `adminQuery`,
`complaintUpdateBuild`).  `transaction` of `src/config/database.js` is
modelled over an abstract client, and the stack of `server.js` by the layers
whose path matches a request.
-/

namespace Taza

/-! ## JavaScript values and string primitives -/

/-- A primitive JSON value of a request body; `undefined` is a missing field.
Arrays and objects are not represented. -/
inductive JsVal where
  | undefined
  | null
  | bool (b : Bool)
  | num (n : Int)
  | str (s : String)
  deriving DecidableEq, Repr

/-- JavaScript truthiness (`!!v`). -/
def JsVal.truthy : JsVal → Bool
  | .undefined => false
  | .null => false
  | .bool b => b
  | .num n => n != 0
  | .str s => s != ""

/-- White space and line terminators of ECMAScript: what `trim`, `parseInt`
and the regular expression class `\s` recognise. -/
def isJsWhiteSpace (c : Char) : Bool :=
  let n := c.toNat
  n = 9 || n = 10 || n = 11 || n = 12 || n = 13 || n = 32 || n = 160 ||
  n = 0x1680 || (0x2000 ≤ n && n ≤ 0x200A) || n = 0x2028 || n = 0x2029 ||
  n = 0x202F || n = 0x205F || n = 0x3000 || n = 0xFEFF

/-- The characters of `s.trim()`. -/
def trimChars (cs : List Char) : List Char :=
  ((cs.dropWhile isJsWhiteSpace).reverse.dropWhile isJsWhiteSpace).reverse

/-- `String.prototype.trim`. -/
def jsTrim (s : String) : String :=
  String.mk (trimChars s.toList)

/-- Value of `c` as a digit in the given radix, if it is one. -/
def digitVal (radix : Nat) (c : Char) : Option Nat :=
  let n := c.toNat
  let v : Option Nat :=
    if 48 ≤ n ∧ n ≤ 57 then some (n - 48)
    else if 97 ≤ n ∧ n ≤ 122 then some (n - 87)
    else if 65 ≤ n ∧ n ≤ 90 then some (n - 55)
    else none
  match v with
  | some d => if d < radix then some d else none
  | none => none

/-- The longest run of leading digits of `cs` in the given radix. -/
def takeDigits (radix : Nat) : List Char → List Nat
  | [] => []
  | c :: cs =>
    match digitVal radix c with
    | some d => d :: takeDigits radix cs
    | none => []

/-- Sign of a numeral: the flag is true after a leading minus. -/
def stripSign : List Char → Bool × List Char
  | c :: cs =>
    if c.toNat = 45 then (true, cs)
    else if c.toNat = 43 then (false, cs)
    else (false, c :: cs)
  | [] => (false, [])

/-- Radix chosen by `parseInt` without a radix argument: 16 after `0x` or
`0X`, else 10. -/
def stripRadix : List Char → Nat × List Char
  | c :: d :: cs =>
    if c.toNat = 48 ∧ (d.toNat = 120 ∨ d.toNat = 88) then (16, cs) else (10, c :: d :: cs)
  | cs => (10, cs)

/-- The number of binary digits of `n` (`fuel` bounds the recursion; `n`
itself is enough). -/
def bitLengthAux : Nat → Nat → Nat
  | 0, _ => 0
  | fuel + 1, n => if n = 0 then 0 else bitLengthAux fuel (n / 2) + 1

/-- The number of binary digits of `n`: `0` for `0`, and `k + 1` when
`2 ^ k ≤ n < 2 ^ (k + 1)`. -/
def bitLength (n : Nat) : Nat := bitLengthAux n n

/-- The double nearest to a natural number, ties to the even significand: a
number below `2 ^ 53` is a double; a larger one keeps its 53 leading binary
digits, rounded.  A number that rounds to `2 ^ 1024` or beyond becomes
`Infinity`, which is represented by `2 ^ 1024`: like `Infinity`, it fits no
integer column and no `LIMIT`.  (Beyond 20 significant digits ECMAScript lets
an implementation round less exactly; every such number is beyond the 64-bit
range as well, so no route tells the difference.) -/
def roundToDouble (n : Nat) : Nat :=
  if n < 2 ^ 53 then n
  else
    let e := bitLength n - 53
    let q := n / 2 ^ e
    let r := n % 2 ^ e
    let half := 2 ^ (e - 1)
    let q1 := if half < r ∨ (r = half ∧ q % 2 = 1) then q + 1 else q
    if 1024 < bitLength (q1 * 2 ^ e) then 2 ^ 1024 else q1 * 2 ^ e

/-- `Number.parseInt(s)` on a string; `none` is `NaN`.  The result is a
JavaScript number: the double nearest to the integer the digits denote. -/
def parseInt (s : String) : Option Int :=
  let cs := s.toList.dropWhile isJsWhiteSpace
  let (neg, cs) := stripSign cs
  let (radix, cs) := stripRadix cs
  let ds := takeDigits radix cs
  if ds.isEmpty then none
  else
    let v : Nat := roundToDouble (ds.foldl (fun acc d => acc * radix + d) 0)
    some (if neg then -(v : Int) else (v : Int))

/-- `s.split(" ")`, on the characters of `s`; `cur` is the current piece,
reversed. -/
def splitSpaceAux : List Char → List Char → List (List Char)
  | [], cur => [cur.reverse]
  | c :: cs, cur =>
    if c.toNat = 32 then cur.reverse :: splitSpaceAux cs []
    else splitSpaceAux cs (c :: cur)

/-- `s.split(" ")`. -/
def splitSpace (s : String) : List String :=
  (splitSpaceAux s.toList []).map String.mk

/-- `s.length`: the number of UTF-16 code units. -/
def utf16Length (s : String) : Nat :=
  (s.toList.map (fun c => if c.toNat < 0x10000 then 1 else 2)).sum

/-- A decimal number `mant / 10 ^ scale`. -/
structure Decimal where
  mant : Int
  scale : Nat
  deriving DecidableEq, Repr

/-- A JavaScript number as returned by `parseFloat`: a finite number is
represented by the decimal it prints as (which is also what the database
driver sends). -/
inductive JsNum where
  | nan
  | inf (negative : Bool)
  | fin (d : Decimal)
  deriving DecidableEq, Repr

/-- `isNaN(x)`. -/
def JsNum.isNaN : JsNum → Bool
  | .nan => true
  | _ => false

/-- `x < k` for an integer constant `k`. -/
def JsNum.ltInt : JsNum → Int → Bool
  | .nan, _ => false
  | .inf negative, _ => negative
  | .fin d, k => decide (d.mant < k * 10 ^ d.scale)

/-- `x > k` for an integer constant `k`. -/
def JsNum.gtInt : JsNum → Int → Bool
  | .nan, _ => false
  | .inf negative, _ => !negative
  | .fin d, k => decide (d.mant > k * 10 ^ d.scale)

/-! ## Data model (`src/scripts/init-database.js`) -/

/-- A row of table `users`. -/
structure User where
  id : Int
  name : String
  email : String
  password : String
  phone : Option String
  avatar_url : Option String
  role : String
  created_at : Nat
  updated_at : Nat
  deriving DecidableEq, Repr

/-- A row of table `complaints`.  Coordinates are `DECIMAL(_, 8)` values, kept
as integers in units of `10⁻⁸` degree. -/
structure Complaint where
  id : Int
  user_id : Int
  name : String
  location_lat : Int
  location_lng : Int
  location_address : Option String
  description : String
  photo_url : Option String
  status : String
  created_at : Nat
  updated_at : Nat
  deriving DecidableEq, Repr

/-- A row of table `updates`. -/
structure Update where
  id : Int
  title : String
  description : String
  created_at : Nat
  deriving DecidableEq, Repr

/-- The database: the three tables and the two `SERIAL` sequences the routes
draw from. -/
structure Store where
  users : List User
  complaints : List Complaint
  updates : List Update
  nextUserId : Int
  nextComplaintId : Int
  deriving DecidableEq, Repr

/-- The payload signed into a token by `jwt.sign` in `routes/auth.js`:
`userId` is the `id` of a row of `users` at the time of signing.  A token
signed elsewhere with the same secret verifies as well and can carry any
integer.  Payloads whose `userId` is an integer are the ones modelled. -/
structure Claims where
  userId : Int
  email : String
  role : String
  deriving DecidableEq, Repr

/-- What a request handler gets from outside the repository at the time of the
request: clock, process environment and library functions. -/
structure Env where
  /-- `CURRENT_TIMESTAMP`. -/
  now : Nat
  /-- `CURRENT_DATE`, as a timestamp. -/
  currentDate : Nat
  /-- `process.env.JWT_SECRET`. -/
  envJwtSecret : Option String
  /-- `process.env.NODE_ENV`. -/
  envNodeEnv : Option String
  /-- `jwt.sign(payload, secret, expiresIn 7d)`. -/
  jwtSign : Claims → String → String
  /-- `jwt.verify(token, secret)`: the decoded payload, or the `name` of the
  error thrown. -/
  jwtVerify : String → String → Except String Claims
  /-- `bcrypt.hash(password, 12)`. -/
  bcryptHash : String → String
  /-- `bcrypt.compare(password, hash)`. -/
  bcryptCompare : String → String → Bool
  /-- `String.prototype.toLowerCase`. -/
  toLowerCase : String → String
  /-- `Number.parseFloat` on a string. -/
  parseFloat : String → JsNum
  /-- The database reading a text parameter as an `integer`; `none` is an
  error. -/
  int4in : String → Option Int
  /-- The database operator `text ILIKE pattern`. -/
  ilike : String → String → Bool
  /-- `path.extname`. -/
  extname : String → String

/-! ## Responses -/

/-- The user columns selected by `authenticateToken` and returned by register
and login: no password. -/
structure AuthUser where
  id : Int
  name : String
  email : String
  phone : Option String
  avatar_url : Option String
  role : String
  created_at : Nat
  deriving DecidableEq, Repr

/-- Projection `id, name, email, phone, avatar_url, role, created_at`. -/
def User.toAuthUser (u : User) : AuthUser :=
  { id := u.id, name := u.name, email := u.email, phone := u.phone,
    avatar_url := u.avatar_url, role := u.role, created_at := u.created_at }

/-- Columns returned by the profile update: `toAuthUser` and `updated_at`. -/
structure ProfileUser where
  id : Int
  name : String
  email : String
  phone : Option String
  avatar_url : Option String
  role : String
  created_at : Nat
  updated_at : Nat
  deriving DecidableEq, Repr

/-- A row of `GET /complaints/public`: complaint columns and the owner name. -/
structure PublicRow where
  id : Int
  name : String
  location_lat : Int
  location_lng : Int
  location_address : Option String
  description : String
  photo_url : Option String
  status : String
  created_at : Nat
  user_name : String
  deriving DecidableEq, Repr

/-- A row of `GET /complaints/:id`: `c.*` with the owner name and email. -/
structure DetailRow where
  complaint : Complaint
  user_name : String
  user_email : String
  deriving DecidableEq, Repr

/-- A row of `GET /admin/complaints`: `c.*` with the owner name, email and
phone. -/
structure AdminRow where
  complaint : Complaint
  user_name : String
  user_email : String
  user_phone : Option String
  deriving DecidableEq, Repr

/-- A row of `GET /admin/users`. -/
structure AdminUserRow where
  id : Int
  name : String
  email : String
  phone : Option String
  role : String
  avatar_url : Option String
  created_at : Nat
  complaints_count : Nat
  deriving DecidableEq, Repr

/-- The aggregate `COUNT(*)`, `COUNT(CASE WHEN status = ...)` row. -/
structure Stats where
  total : Nat
  pending : Nat
  in_progress : Nat
  resolved : Nat
  deriving DecidableEq, Repr

/-- The aggregate row of the admin routes: `Stats` with the two recency
counts. -/
structure AdminStats where
  total : Nat
  pending : Nat
  in_progress : Nat
  resolved : Nat
  this_week : Nat
  this_month : Nat
  deriving DecidableEq, Repr

/-- The user aggregate row of the dashboard. -/
structure UserStats where
  total_users : Nat
  admins : Nat
  new_this_week : Nat
  new_this_month : Nat
  deriving DecidableEq, Repr

/-- The `pagination` object of a listing. -/
structure Pagination where
  limit : Int
  offset : Int
  total : Nat
  deriving DecidableEq, Repr

/-- The `file` object of the upload responses. -/
structure FileMeta where
  url : String
  filename : String
  originalName : String
  size : Nat
  mimetype : String
  deriving DecidableEq, Repr

/-- JSON bodies sent by the application, one constructor per shape. -/
inductive Body where
  /-- `{ error }`. -/
  | error (msg : String)
  /-- `{ error, details? }` of the final error handler. -/
  | serverError (msg : String) (details : Option String)
  /-- `{ error, path, method }` of the unknown-endpoint handler. -/
  | noEndpoint (msg path method : String)
  /-- `{ success, message }`. -/
  | ok (message : String)
  /-- `{ success, message, token, user }` of register and login. -/
  | session (message token : String) (user : AuthUser)
  /-- `{ user }` of `/auth/me`. -/
  | me (user : AuthUser)
  /-- `{ success, message, user }` of the profile update. -/
  | profile (message : String) (user : ProfileUser)
  /-- `{ success, message, complaint: { id, created_at } }`. -/
  | created (message : String) (id : Int) (created_at : Nat)
  /-- `{ success, complaints, stats, pagination }` of the public listing. -/
  | publicList (complaints : List PublicRow) (stats : Stats) (pagination : Pagination)
  /-- The same for `/complaints/my`. -/
  | myList (complaints : List Complaint) (stats : Stats) (pagination : Pagination)
  /-- The same for `/admin/complaints`. -/
  | adminList (complaints : List AdminRow) (stats : AdminStats) (pagination : Pagination)
  /-- `{ success, complaint }` of `GET /complaints/:id`. -/
  | detail (complaint : DetailRow)
  /-- `{ success, message, complaint }` of the two complaint updates;
  `complaint` is `result[0]`, absent when no row was updated. -/
  | updated (message : String) (complaint : Option Complaint)
  /-- `{ success, dashboard: { complaints, users, daily_stats, top_regions } }`;
  the count `total` of `complaints` is sent as `total_complaints`. -/
  | dashboard (complaints : AdminStats) (users : UserStats)
      (daily_stats : List (Nat × Nat)) (top_regions : List (String × Nat))
  /-- `{ success, users, pagination }`. -/
  | userList (users : List AdminUserRow) (pagination : Pagination)
  /-- `{ success, message, file }`. -/
  | file (message : String) (file : FileMeta)
  /-- `{ success, message, files }`. -/
  | files (message : String) (files : List FileMeta)
  /-- `{ message, status, timestamp, endpoints }` of `GET /api`. -/
  | apiInfo (timestamp : Nat)
  /-- `{ status, timestamp, uptime }` of `GET /api/health`; the uptime of the
  process is not represented. -/
  | health (timestamp : Nat)
  deriving DecidableEq, Repr

/-- An HTTP response: `res.status(status).json(body)`. -/
structure Response where
  status : Nat
  body : Body
  deriving DecidableEq, Repr

/-- `res.status(code).json({ error: msg })`. -/
def errorResponse (code : Nat) (msg : String) : Response :=
  { status := code, body := .error msg }

/-- What a middleware did, as the route that follows it sees it: either it sent
a response and returned, or it called `next()` with `req.user` as given.  The
single effects of each middleware, in program order, are listed by
`authenticateTokenEffects`, `requireAdminEffects` and
`requireOwnershipEffects`. -/
inductive MwOut where
  | respond (r : Response)
  | next (user : AuthUser)
  deriving DecidableEq, Repr

/-- Whether the middleware called `next()`. -/
def MwOut.nextCalled : MwOut → Bool
  | .respond _ => false
  | .next _ => true

/-- The response the middleware sent, if any. -/
def MwOut.sent : MwOut → Option Response
  | .respond r => some r
  | .next _ => none

/-- The `req.user` handed to the next handler, if `next()` was called. -/
def MwOut.user : MwOut → Option AuthUser
  | .respond _ => none
  | .next u => some u

/-! ## Middleware (`src/middleware/auth.js`) -/

/-- The constant `JWT_SECRET` of `middleware/auth.js`. -/
def JWT_SECRET : String := "1234"

/-- The expression `authHeader && authHeader.split(" ")[1]` followed by the
test `!token`: the token when it is a non-empty string. -/
def bearerToken (authHeader : Option String) : Option String :=
  match authHeader with
  | none => none
  | some h =>
    if h = "" then none
    else
      match (splitSpace h).get? 1 with
      | none => none
      | some t => if t = "" then none else some t

/-- A numeric parameter bound to an `integer` column: out of range is an
error. -/
def pgInt4 (n : Int) : Option Int :=
  if -2147483648 ≤ n ∧ n ≤ 2147483647 then some n else none

/-- `SELECT id, name, email, phone, avatar_url, role, created_at FROM users
WHERE id = $1` with the numeric parameter `id`, or `none` when the statement
fails: the parameter does not fit the `integer` column. -/
def selectAuthUser (st : Store) (id : Int) : Option (List AuthUser) :=
  match pgInt4 id with
  | none => none
  | some k => some ((st.users.filter (fun u => u.id = k)).map User.toAuthUser)

/-- `authenticateToken`.  An error thrown by the query is not a JWT error, so
the `catch` answers it with 500. -/
def authenticateToken (E : Env) (st : Store) (authHeader : Option String) : MwOut :=
  match bearerToken authHeader with
  | none => .respond (errorResponse 401 "Токен доступа не предоставлен")
  | some token =>
    match E.jwtVerify token JWT_SECRET with
    | .error name =>
      if name = "JsonWebTokenError" then .respond (errorResponse 403 "Недействительный токен")
      else if name = "TokenExpiredError" then .respond (errorResponse 403 "Токен истек")
      else .respond (errorResponse 500 "Ошибка авторизации")
    | .ok decoded =>
      match selectAuthUser st decoded.userId with
      | none => .respond (errorResponse 500 "Ошибка авторизации")
      | some [] => .respond (errorResponse 401 "Пользователь не найден")
      | some (u :: _) => .next u

/-- `requireAdmin`, run with `req.user` attached. -/
def requireAdmin (user : AuthUser) : MwOut :=
  if user.role ≠ "admin" then .respond (errorResponse 403 "Требуются права администратора")
  else .next user

/-- `SELECT user_id FROM complaints WHERE id = $1`. -/
def selectComplaintOwner (st : Store) (id : Int) : List Int :=
  (st.complaints.filter (fun c => c.id = id)).map (fun c => c.user_id)

/-- `requireOwnership(resourceIdField)`, run with `req.user` attached;
`resourceId` is `req.params[resourceIdField]`, which the database reads as an
integer. -/
def requireOwnership (E : Env) (st : Store) (user : AuthUser) (resourceId : String) : MwOut :=
  if user.role = "admin" then .next user
  else
    match E.int4in resourceId with
    | none => .respond (errorResponse 500 "Ошибка проверки прав доступа")
    | some id =>
      match selectComplaintOwner st id with
      | [] => .respond (errorResponse 404 "Ресурс не найден")
      | owner :: _ =>
        if owner ≠ user.id then .respond (errorResponse 403 "Нет прав доступа к этому ресурсу")
        else .next user

/-- One effect of a middleware on the request cycle. -/
inductive MwEffect where
  /-- `res.status(...).json(...)`. -/
  | send (r : Response)
  /-- `req.user = ...`. -/
  | setUser (u : AuthUser)
  /-- `next()`. -/
  | next
  deriving DecidableEq, Repr

/-- The effects of `authenticateToken`, in the order the source performs them:
each `return res.status(...).json(...)` is one `send` that ends the function,
also inside `catch`; the one remaining path assigns `req.user` and calls
`next()`. -/
def authenticateTokenEffects (E : Env) (st : Store) (authHeader : Option String) :
    List MwEffect :=
  match bearerToken authHeader with
  | none => [.send (errorResponse 401 "Токен доступа не предоставлен")]
  | some token =>
    match E.jwtVerify token JWT_SECRET with
    | .error name =>
      if name = "JsonWebTokenError" then [.send (errorResponse 403 "Недействительный токен")]
      else if name = "TokenExpiredError" then [.send (errorResponse 403 "Токен истек")]
      else [.send (errorResponse 500 "Ошибка авторизации")]
    | .ok decoded =>
      match selectAuthUser st decoded.userId with
      | none => [.send (errorResponse 500 "Ошибка авторизации")]
      | some [] => [.send (errorResponse 401 "Пользователь не найден")]
      | some (u :: _) => [.setUser u, .next]

/-- The effects of `requireAdmin`, in the order the source performs them. -/
def requireAdminEffects (user : AuthUser) : List MwEffect :=
  if user.role ≠ "admin" then [.send (errorResponse 403 "Требуются права администратора")]
  else [.next]

/-- The effects of `requireOwnership(resourceIdField)`, in the order the source
performs them: for an admin `return next()` comes before any query. -/
def requireOwnershipEffects (E : Env) (st : Store) (user : AuthUser) (resourceId : String) :
    List MwEffect :=
  if user.role = "admin" then [.next]
  else
    match E.int4in resourceId with
    | none => [.send (errorResponse 500 "Ошибка проверки прав доступа")]
    | some id =>
      match selectComplaintOwner st id with
      | [] => [.send (errorResponse 404 "Ресурс не найден")]
      | owner :: _ =>
        if owner ≠ user.id then [.send (errorResponse 403 "Нет прав доступа к этому ресурсу")]
        else [.next]

/-! ## Final error handler (`src/server.js`) and `multer` -/

/-- An error value passed to `next(err)`: its `name`, `code` and `message`. -/
structure JsError where
  name : String
  code : Option String
  message : String
  deriving DecidableEq, Repr

/-- The four-argument error handler registered last in `server.js`. -/
def errorHandler (E : Env) (err : JsError) : Response :=
  if err.code = some "LIMIT_FILE_SIZE" then
    errorResponse 400 "Файл слишком большой. Максимальный размер: 10MB"
  else if err.code = some "LIMIT_UNEXPECTED_FILE" then
    errorResponse 400 "Неожиданный файл в запросе"
  else if err.name = "JsonWebTokenError" then
    errorResponse 401 "Недействительный токен"
  else if err.name = "TokenExpiredError" then
    errorResponse 401 "Токен истек"
  else if err.code = some "23505" then
    errorResponse 400 "Данные уже существуют"
  else
    { status := 500,
      body := .serverError "Внутренняя ошибка сервера"
        (if E.envNodeEnv = some "development" then some err.message else none) }

/-- A file part of a multipart request, with the random suffix the storage
engine draws for it (`Date.now() + "-" + Math.round(Math.random() * 1e9)`). -/
structure UploadFile where
  fieldname : String
  originalname : String
  mimetype : String
  size : Nat
  uniqueSuffix : String
  deriving DecidableEq, Repr

/-- The `allowedTypes` array, the same in the three `multer` configurations. -/
def allowedTypes : List String :=
  ["image/jpeg", "image/jpg", "image/png", "image/gif"]

/-- The `fileFilter` callback, the same in the three configurations: whether
the file is accepted. -/
def fileFilter (file : UploadFile) : Bool :=
  allowedTypes.contains file.mimetype

/-- A `multer` instance as used by a route: its limits and the field and
maximal count given to `single` or `array`. -/
structure Multer where
  fileSize : Nat
  files : Option Nat
  field : String
  maxCount : Nat
  deriving DecidableEq, Repr

/-- A `MulterError` with the given code. -/
def multerError (code : String) : JsError :=
  { name := "MulterError", code := some code, message := code }

/-- The file parts of a request handled in order by `multer`; `seen` counts the
parts so far and `left` the files the field may still take.  The result is the
accepted files or the first error. -/
def multerFiles (m : Multer) : List UploadFile → Nat → Nat → Except JsError (List UploadFile)
  | [], _, _ => .ok []
  | f :: rest, seen, left =>
    if (match m.files with | some k => decide (k ≤ seen) | none => false) then
      .error (multerError "LIMIT_FILE_COUNT")
    else if f.fieldname ≠ m.field ∨ left = 0 then
      .error (multerError "LIMIT_UNEXPECTED_FILE")
    else if !fileFilter f then
      .error { name := "Error", code := none,
               message := "Разрешены только изображения (JPEG, PNG, GIF)" }
    else if m.fileSize < f.size then
      .error (multerError "LIMIT_FILE_SIZE")
    else
      match multerFiles m rest (seen + 1) (left - 1) with
      | .ok fs => .ok (f :: fs)
      | .error e => .error e

/-- The middleware `upload.single(field)` or `upload.array(field, maxCount)`:
`req.files`, or the error passed to `next`. -/
def Multer.run (m : Multer) (files : List UploadFile) : Except JsError (List UploadFile) :=
  multerFiles m files 0 m.maxCount

/-- The `upload` of `routes/auth.js` with `single("avatar")`. -/
def avatarUpload : Multer :=
  { fileSize := 5 * 1024 * 1024, files := none, field := "avatar", maxCount := 1 }

/-- The `upload` of `routes/complaints.js` with `single("photo")`. -/
def photoUpload : Multer :=
  { fileSize := 10 * 1024 * 1024, files := none, field := "photo", maxCount := 1 }

/-- The `upload` of `routes/upload.js` with `single("file")`. -/
def generalUpload : Multer :=
  { fileSize := 10 * 1024 * 1024, files := some 1, field := "file", maxCount := 1 }

/-- The `upload` of `routes/upload.js` with `array("files", 5)`. -/
def generalUploadArray : Multer :=
  { fileSize := 10 * 1024 * 1024, files := some 1, field := "files", maxCount := 5 }

/-- The file name drawn by the storage engines of `routes/auth.js` and
`routes/complaints.js`: `kind + "-" + uniqueSuffix + path.extname(originalname)`. -/
def storedName (E : Env) (kind : String) (f : UploadFile) : String :=
  kind ++ "-" ++ f.uniqueSuffix ++ E.extname f.originalname

/-! ## Database constraints -/

/-- Storing `s` in a `VARCHAR(n)` column: an over-long value is an error unless
the excess is spaces, which are cut. -/
def varchar (n : Nat) (s : String) : Option String :=
  if s.length ≤ n then some s
  else if (s.toList.drop n).all (fun c => c.toNat = 32) then some (String.mk (s.toList.take n))
  else none

/-- Storing an optional text in a nullable `VARCHAR(n)` column. -/
def varcharNull (n : Nat) : Option String → Option (Option String)
  | none => some none
  | some s => (varchar n s).map some

/-- A numeric parameter bound to `LIMIT` or `OFFSET`: `NaN`, a negative count
and a value outside `bigint` are errors.  (A double above `2 ^ 53` is sent in
its shortest decimal form, which may differ from it in the last digits; either
count is beyond the size of any table.) -/
def pgCount (n : Option Int) : Option Nat :=
  match n with
  | none => none
  | some k => if 0 ≤ k ∧ k ≤ 9223372036854775807 then some k.toNat else none

/-- A decimal rounded to 8 fractional digits, half away from zero, in units of
`10⁻⁸`: the value a `DECIMAL(_, 8)` column keeps. -/
def round8 (d : Decimal) : Int :=
  let num := d.mant.natAbs * 10 ^ 8
  let den := 10 ^ d.scale
  let q : Nat := (2 * num + den) / (2 * den)
  if d.mant < 0 then -(q : Int) else (q : Int)

/-- The statuses of the `CHECK` constraint on `complaints.status`, which is
also the array the routes test against. -/
def validStatuses : List String := ["pending", "in_progress", "resolved"]

/-! ## Statements on table `users` -/

/-- The `CHECK (role IN ('user', 'admin'))` constraint. -/
def validRoles : List String := ["user", "admin"]

/-- An assignment of the `SET` list of an `UPDATE users`. -/
inductive UserAssign where
  | name (v : String)
  | phone (v : Option String)
  | avatar_url (v : String)
  | password (v : String)
  | updated_at
  deriving DecidableEq, Repr

/-- One assignment applied to a row at time `now`; `none` when the value does
not fit the column. -/
def UserAssign.apply (now : Nat) (u : User) : UserAssign → Option User
  | .name v => (varchar 255 v).map (fun x => { u with name := x })
  | .phone v => (varcharNull 20 v).map (fun x => { u with phone := x })
  | .avatar_url v => some { u with avatar_url := some v }
  | .password v => (varchar 255 v).map (fun x => { u with password := x })
  | .updated_at => some { u with updated_at := now }

/-- A `SET` list applied to a row, left to right. -/
def applyUserAssigns (now : Nat) (u : User) : List UserAssign → Option User
  | [] => some u
  | a :: rest =>
    match a.apply now u with
    | some u1 => applyUserAssigns now u1 rest
    | none => none

/-- The rows of `users` after an `UPDATE ... WHERE id = $k`, `none` when a row
violates a constraint. -/
def updateUserRows (now : Nat) (id : Int) (set : List UserAssign) : List User → Option (List User)
  | [] => some []
  | u :: rest =>
    match updateUserRows now id set rest with
    | none => none
    | some rest1 =>
      if u.id = id then
        match applyUserAssigns now u set with
        | some u1 => some (u1 :: rest1)
        | none => none
      else some (u :: rest1)

/-- `UPDATE users SET ... WHERE id = $k RETURNING ...`: the new store and the
rows updated, or `none` when the statement fails.  The trigger
`update_users_updated_at` sets `updated_at` on every updated row. -/
def updateUser (E : Env) (st : Store) (id : Int) (set : List UserAssign) :
    Option (Store × List User) :=
  match pgInt4 id with
  | none => none
  | some k =>
    match updateUserRows E.now k (set ++ [.updated_at]) st.users with
    | none => none
    | some rows => some ({ st with users := rows }, rows.filter (fun u => u.id = k))

/-- `SELECT ... FROM users WHERE email = $1`. -/
def selectUserByEmail (st : Store) (email : String) : List User :=
  st.users.filter (fun u => u.email = email)

/-- `SELECT ... FROM users WHERE id = $1`. -/
def selectUserById (st : Store) (id : Int) : List User :=
  st.users.filter (fun u => u.id = id)

/-- `INSERT INTO users (name, email, password, phone, avatar_url, role) VALUES
(...) RETURNING ...`: the new store and the inserted row, or no row when a
constraint fails.  The sequence value is drawn in either case. -/
def insertUser (E : Env) (st : Store) (name email password : String)
    (phone avatar_url : Option String) (role : String) : Store × Option User :=
  let st1 := { st with nextUserId := st.nextUserId + 1 }
  match varchar 255 name, varchar 255 email, varchar 255 password, varcharNull 20 phone with
  | some n, some e, some p, some ph =>
    if validRoles.contains role ∧ (selectUserByEmail st e).isEmpty ∧
        (selectUserById st st.nextUserId).isEmpty then
      let u : User :=
        { id := st.nextUserId, name := n, email := e, password := p, phone := ph,
          avatar_url := avatar_url, role := role, created_at := E.now, updated_at := E.now }
      ({ st1 with users := st.users ++ [u] }, some u)
    else (st1, none)
  | _, _, _, _ => (st1, none)

/-! ## Routes of `src/routes/auth.js` -/

/-- The constant `JWT_SECRET` of `routes/auth.js`:
`process.env.JWT_SECRET || "1234"`. -/
def routeJwtSecret (E : Env) : String :=
  match E.envJwtSecret with
  | some s => if s = "" then "1234" else s
  | none => "1234"

/-- Whether `c` is in the class `[^\s@]`. -/
def emailChar (c : Char) : Bool :=
  !isJsWhiteSpace c && c.toNat != 64

/-- The test `/^[^\s@]+@[^\s@]+\.[^\s@]+$/` on a string: a non-empty run of
class characters, an at sign, and a run of class characters with a dot that is
neither its first nor its last character. -/
def emailRegexTest (s : String) : Bool :=
  let cs := s.toList
  let local_ := cs.takeWhile emailChar
  match cs.dropWhile emailChar with
  | [] => false
  | c :: domain =>
    !local_.isEmpty && c.toNat = 64 && domain.all emailChar &&
      ((domain.drop 1).dropLast.any (fun d => d.toNat = 46))

/-- `emailRegex.test(v)`: the string form of a value that is not a string has
no at sign. -/
def JsVal.emailTest : JsVal → Bool
  | .str s => emailRegexTest s
  | _ => false

/-- `v.length < k` for a truthy `v`: the `length` of a number or boolean is
`undefined`, which compares false. -/
def JsVal.lengthLt (v : JsVal) (k : Nat) : Bool :=
  match v with
  | .str s => decide (utf16Length s < k)
  | _ => false

/-- The parameter `v || null` bound to a text column. -/
def JsVal.orNull : JsVal → Option String
  | .str s => if s = "" then none else some s
  | .num n => if n = 0 then none else some (toString n)
  | .bool b => if b then some "true" else none
  | .null => none
  | .undefined => none

/-- `res.status(code).json({ success: true, message, token, user })` of the
register and login routes: the token is signed over the id, email and role of
the row, and `user` is the row without its password. -/
def sessionResponse (E : Env) (code : Nat) (message : String) (u : User) : Response :=
  { status := code,
    body := .session message
      (E.jwtSign { userId := u.id, email := u.email, role := u.role } (routeJwtSecret E))
      u.toAuthUser }

/-- `POST /auth/register`. -/
def postRegister (E : Env) (st : Store) (name email password phone : JsVal)
    (files : List UploadFile) : Store × Response :=
  match avatarUpload.run files with
  | .error e => (st, errorHandler E e)
  | .ok accepted =>
    if !name.truthy || !email.truthy || !password.truthy then
      (st, errorResponse 400 "Имя, email и пароль обязательны")
    else if password.lengthLt 6 then
      (st, errorResponse 400 "Пароль должен содержать минимум 6 символов")
    else if !email.emailTest then
      (st, errorResponse 400 "Некорректный формат email")
    else
      match email, password, name with
      | .str e, .str pw, .str n =>
        if (selectUserByEmail st (E.toLowerCase e)).length > 0 then
          (st, errorResponse 400 "Пользователь с таким email уже существует")
        else
          let avatarUrl := accepted.head?.map
            (fun f => "/uploads/avatars/" ++ storedName E "avatar" f)
          match insertUser E st (jsTrim n) (E.toLowerCase e) (E.bcryptHash pw)
              phone.orNull avatarUrl "user" with
          | (st1, some u) => (st1, sessionResponse E 201 "Регистрация прошла успешно!" u)
          | (st1, none) => (st1, errorResponse 500 "Ошибка при регистрации")
      | .str e, _, _ =>
        if (selectUserByEmail st (E.toLowerCase e)).length > 0 then
          (st, errorResponse 400 "Пользователь с таким email уже существует")
        else (st, errorResponse 500 "Ошибка при регистрации")
      | _, _, _ => (st, errorResponse 500 "Ошибка при регистрации")

/-- `POST /auth/login`. -/
def postLogin (E : Env) (st : Store) (email password : JsVal) : Store × Response :=
  if !email.truthy || !password.truthy then
    (st, errorResponse 400 "Email и пароль обязательны")
  else
    match email with
    | .str e =>
      match selectUserByEmail st (E.toLowerCase e) with
      | [] => (st, errorResponse 401 "Неверный email или пароль")
      | u :: _ =>
        match password with
        | .str pw =>
          if !E.bcryptCompare pw u.password then
            (st, errorResponse 401 "Неверный email или пароль")
          else (st, sessionResponse E 200 "Вход выполнен успешно" u)
        | _ => (st, errorResponse 500 "Ошибка при входе в систему")
    | _ => (st, errorResponse 500 "Ошибка при входе в систему")

/-- Runs `handler` behind `authenticateToken`. -/
def withAuth (E : Env) (st : Store) (authHeader : Option String)
    (handler : AuthUser → Store × Response) : Store × Response :=
  match authenticateToken E st authHeader with
  | .respond r => (st, r)
  | .next u => handler u

/-- `GET /auth/me`. -/
def getMe (E : Env) (st : Store) (authHeader : Option String) : Store × Response :=
  withAuth E st authHeader (fun u => (st, { status := 200, body := .me u }))

/-- Projection `RETURNING id, name, email, phone, avatar_url, role, created_at,
updated_at`. -/
def User.toProfileUser (u : User) : ProfileUser :=
  { id := u.id, name := u.name, email := u.email, phone := u.phone,
    avatar_url := u.avatar_url, role := u.role, created_at := u.created_at,
    updated_at := u.updated_at }

/-- The step `if (v && v.trim()) { updateFields.push(...); updateValues.push(v.trim()) }`:
the assignments it adds, or `none` when `v.trim()` throws (`v` is truthy and
not a string). -/
def trimmedAssign {α : Type} (v : JsVal) (mk : String → α) : Option (List α) :=
  if v.truthy then
    match v with
    | .str s => some (if jsTrim s = "" then [] else [mk (jsTrim s)])
    | _ => none
  else some []

/-- The `SET` list built by `PUT /auth/profile`, without the final
`updated_at`; `none` when `name.trim()` throws. -/
def profileAssigns (name phone : JsVal) (avatarUrl : Option String) : Option (List UserAssign) :=
  match trimmedAssign name UserAssign.name with
  | none => none
  | some a1 =>
    some (a1 ++ (if phone ≠ .undefined then [UserAssign.phone phone.orNull] else []) ++
      (match avatarUrl with
       | some url => [UserAssign.avatar_url url]
       | none => []))

/-- `PUT /auth/profile`. -/
def putProfile (E : Env) (st : Store) (authHeader : Option String) (name phone : JsVal)
    (files : List UploadFile) : Store × Response :=
  withAuth E st authHeader (fun user =>
    match avatarUpload.run files with
    | .error e => (st, errorHandler E e)
    | .ok accepted =>
      let avatarUrl := accepted.head?.map
        (fun f => "/uploads/avatars/" ++ storedName E "avatar" f)
      match profileAssigns name phone avatarUrl with
      | none => (st, errorResponse 500 "Ошибка при обновлении профиля")
      | some [] => (st, errorResponse 400 "Нет данных для обновления")
      | some set =>
        match updateUser E st user.id set with
        | none => (st, errorResponse 500 "Ошибка при обновлении профиля")
        | some (_, []) => (st, errorResponse 404 "Пользователь не найден")
        | some (st1, u :: _) =>
          (st1, { status := 200, body := .profile "Профиль успешно обновлен" u.toProfileUser }))

/-- `POST /auth/change-password`. -/
def postChangePassword (E : Env) (st : Store) (authHeader : Option String)
    (currentPassword newPassword : JsVal) : Store × Response :=
  withAuth E st authHeader (fun user =>
    if !currentPassword.truthy || !newPassword.truthy then
      (st, errorResponse 400 "Текущий и новый пароль обязательны")
    else if newPassword.lengthLt 6 then
      (st, errorResponse 400 "Новый пароль должен содержать минимум 6 символов")
    else
      match selectUserById st user.id with
      | [] => (st, errorResponse 404 "Пользователь не найден")
      | u :: _ =>
        match currentPassword with
        | .str cur =>
          if !E.bcryptCompare cur u.password then
            (st, errorResponse 400 "Неверный текущий пароль")
          else
            match newPassword with
            | .str new =>
              match updateUser E st user.id [.password (E.bcryptHash new)] with
              | some (st1, _) => (st1, { status := 200, body := .ok "Пароль успешно изменен" })
              | none => (st, errorResponse 500 "Ошибка при изменении пароля")
            | _ => (st, errorResponse 500 "Ошибка при изменении пароля")
        | _ => (st, errorResponse 500 "Ошибка при изменении пароля"))

/-! ## Statements on table `complaints` -/

/-- An assignment of the `SET` list of an `UPDATE complaints`. -/
inductive ComplaintAssign where
  | name (v : String)
  | description (v : String)
  | location_address (v : Option String)
  | photo_url (v : String)
  | status (v : String)
  | updated_at
  deriving DecidableEq, Repr

/-- One assignment applied to a row at time `now`; `none` when the value
violates a column constraint. -/
def ComplaintAssign.apply (now : Nat) (c : Complaint) : ComplaintAssign → Option Complaint
  | .name v => (varchar 255 v).map (fun x => { c with name := x })
  | .description v => some { c with description := v }
  | .location_address v => some { c with location_address := v }
  | .photo_url v => some { c with photo_url := some v }
  | .status v =>
    match varchar 50 v with
    | some x => if validStatuses.contains x then some { c with status := x } else none
    | none => none
  | .updated_at => some { c with updated_at := now }

/-- A `SET` list applied to a row, left to right. -/
def applyComplaintAssigns (now : Nat) (c : Complaint) : List ComplaintAssign → Option Complaint
  | [] => some c
  | a :: rest =>
    match a.apply now c with
    | some c1 => applyComplaintAssigns now c1 rest
    | none => none

/-- The rows of `complaints` after an `UPDATE ... WHERE id = $k`, `none` when a
row violates a constraint. -/
def updateComplaintRows (now : Nat) (id : Int) (set : List ComplaintAssign) :
    List Complaint → Option (List Complaint)
  | [] => some []
  | c :: rest =>
    match updateComplaintRows now id set rest with
    | none => none
    | some rest1 =>
      if c.id = id then
        match applyComplaintAssigns now c set with
        | some c1 => some (c1 :: rest1)
        | none => none
      else some (c :: rest1)

/-- `UPDATE complaints SET ... WHERE id = $k RETURNING *` with the numeric
parameter `id` (`NaN` when `none`): the new store and the rows updated, or
`none` when the statement fails.  The trigger `update_complaints_updated_at`
sets `updated_at` on every updated row. -/
def updateComplaint (E : Env) (st : Store) (id : Option Int) (set : List ComplaintAssign) :
    Option (Store × List Complaint) :=
  match id.bind pgInt4 with
  | none => none
  | some k =>
    match updateComplaintRows E.now k (set ++ [.updated_at]) st.complaints with
    | none => none
    | some rows => some ({ st with complaints := rows }, rows.filter (fun c => c.id = k))

/-- `DELETE FROM complaints WHERE id = $1 RETURNING *` with the numeric
parameter `id`: the new store and the rows deleted, or `none` when the
statement fails. -/
def deleteComplaint (st : Store) (id : Option Int) : Option (Store × List Complaint) :=
  match id.bind pgInt4 with
  | none => none
  | some k =>
    some ({ st with complaints := st.complaints.filter (fun c => c.id ≠ k) },
          st.complaints.filter (fun c => c.id = k))

/-- A coordinate parameter stored in a `DECIMAL(p, 8)` column with `p - 8`
integer digits and checked against `BETWEEN -bound AND bound`; `none` when
the value is not finite, overflows the column or fails the check. -/
def storeCoordinate (intDigits : Nat) (bound : Int) : JsNum → Option Int
  | .fin d =>
    let v := round8 d
    if v.natAbs < 10 ^ (intDigits + 8) ∧ -bound * 10 ^ 8 ≤ v ∧ v ≤ bound * 10 ^ 8 then some v
    else none
  | _ => none

/-- `INSERT INTO complaints (user_id, name, location_lat, location_lng,
location_address, description, photo_url, status) VALUES (...) RETURNING id,
created_at`: the new store and the inserted row, or no row when a constraint
fails.  The sequence value is drawn in either case. -/
def insertComplaint (E : Env) (st : Store) (user_id : Int) (name : String) (lat lng : JsNum)
    (location_address : Option String) (description : String) (photo_url : Option String)
    (status : String) : Store × Option Complaint :=
  let st1 := { st with nextComplaintId := st.nextComplaintId + 1 }
  match varchar 255 name, storeCoordinate 2 90 lat, storeCoordinate 3 180 lng,
      varchar 50 status with
  | some n, some la, some lo, some s =>
    if validStatuses.contains s ∧ !(selectUserById st user_id).isEmpty ∧
        (st.complaints.filter (fun c => c.id = st.nextComplaintId)).isEmpty then
      let c : Complaint :=
        { id := st.nextComplaintId, user_id := user_id, name := n, location_lat := la,
          location_lng := lo, location_address := location_address,
          description := description, photo_url := photo_url, status := s,
          created_at := E.now, updated_at := E.now }
      ({ st1 with complaints := st.complaints ++ [c] }, some c)
    else (st1, none)
  | _, _, _, _ => (st1, none)

/-- The rows of `complaints c JOIN users u ON c.user_id = u.id`. -/
def joinUsers (st : Store) : List (Complaint × User) :=
  st.complaints.flatMap (fun c =>
    (st.users.filter (fun u => u.id = c.user_id)).map (fun u => (c, u)))

/-- `ORDER BY created_at DESC` (rows of equal time keep their order), then
`OFFSET` and `LIMIT`. -/
def pageOf {α : Type} (created_at : α → Nat) (rows : List α) (limit offset : Nat) : List α :=
  ((rows.insertionSort (fun a b => created_at b ≤ created_at a)).drop offset).take limit

/-- The aggregate query `SELECT COUNT(*) as total, COUNT(CASE WHEN status =
'pending' THEN 1 END) as pending, ... FROM complaints` over the given rows. -/
def complaintStats (rows : List Complaint) : Stats :=
  { total := rows.length,
    pending := (rows.filter (fun c => c.status = "pending")).length,
    in_progress := (rows.filter (fun c => c.status = "in_progress")).length,
    resolved := (rows.filter (fun c => c.status = "resolved")).length }

/-- Seven days, in the unit of the timestamps (seconds). -/
def sevenDays : Nat := 7 * 86400

/-- Thirty days, in the unit of the timestamps (seconds). -/
def thirtyDays : Nat := 30 * 86400

/-- The aggregate query of the admin routes: `complaintStats` with the counts
of rows with `created_at >= CURRENT_DATE - INTERVAL '7 days'` and `'30 days'`. -/
def adminStats (E : Env) (rows : List Complaint) : AdminStats :=
  { total := rows.length,
    pending := (rows.filter (fun c => c.status = "pending")).length,
    in_progress := (rows.filter (fun c => c.status = "in_progress")).length,
    resolved := (rows.filter (fun c => c.status = "resolved")).length,
    this_week := (rows.filter (fun c => E.currentDate ≤ c.created_at + sevenDays)).length,
    this_month := (rows.filter (fun c => E.currentDate ≤ c.created_at + thirtyDays)).length }

/-! ## Routes of `src/routes/complaints.js` -/

/-- `Number.parseFloat(v)` on a body value. -/
def JsVal.parseFloat (E : Env) : JsVal → JsNum
  | .str s => E.parseFloat s
  | .num n => .fin { mant := n, scale := 0 }
  | _ => .nan

/-- The parameter `v?.trim() || null`; `none` when it throws (`trim` is not a
function of a number or boolean). -/
def JsVal.trimOrNull : JsVal → Option (Option String)
  | .undefined => some none
  | .null => some none
  | .str s => some (if jsTrim s = "" then none else some (jsTrim s))
  | _ => none

/-- The parameter `v.trim()` for a truthy `v`; `none` when it throws. -/
def JsVal.trim : JsVal → Option String
  | .str s => some (jsTrim s)
  | _ => none

/-- The public path of an uploaded complaint photo. -/
def photoUrlOf (E : Env) (accepted : List UploadFile) : Option String :=
  accepted.head?.map (fun f => "/uploads/complaints/" ++ storedName E "complaint" f)

/-- `POST /complaints/`. -/
def postComplaint (E : Env) (st : Store) (authHeader : Option String)
    (name description location_lat location_lng location_address : JsVal)
    (files : List UploadFile) : Store × Response :=
  withAuth E st authHeader (fun user =>
    match photoUpload.run files with
    | .error e => (st, errorHandler E e)
    | .ok accepted =>
      if !name.truthy || !description.truthy || !location_lat.truthy || !location_lng.truthy then
        (st, errorResponse 400 "Имя, описание и координаты обязательны")
      else
        let lat := location_lat.parseFloat E
        let lng := location_lng.parseFloat E
        if lat.isNaN || lng.isNaN then
          (st, errorResponse 400 "Некорректные координаты")
        else if lat.ltInt 40 || lat.gtInt 56 || lng.ltInt 46 || lng.gtInt 88 then
          (st, errorResponse 400 "Координаты должны находиться в пределах Казахстана")
        else
          match name.trim, location_address.trimOrNull, description.trim with
          | some n, some a, some d =>
            match insertComplaint E st user.id n lat lng a d (photoUrlOf E accepted)
                "pending" with
            | (st1, some c) =>
              (st1, { status := 201, body := .created "Жалоба успешно отправлена" c.id c.created_at })
            | (st1, none) => (st1, errorResponse 500 "Ошибка при создании жалобы")
          | _, _, _ => (st, errorResponse 500 "Ошибка при создании жалобы"))

/-- The test `status && ["pending", "in_progress", "resolved"].includes(status)`
on a query value: the status to filter by, if any. -/
def statusFilter (status : Option String) : Option String :=
  match status with
  | some s => if s ≠ "" ∧ validStatuses.contains s then some s else none
  | none => none

/-- `Number.parseInt(v)` for a query value with the given default. -/
def parseIntOr (dflt : Int) : Option String → Option Int
  | none => some dflt
  | some s => parseInt s

/-- Whether a row passes the optional `status = $k` predicate. -/
def statusMatches (filter : Option String) (c : Complaint) : Bool :=
  match filter with
  | some s => c.status = s
  | none => true

/-- The row of the public listing. -/
def publicRow (cu : Complaint × User) : PublicRow :=
  { id := cu.1.id, name := cu.1.name, location_lat := cu.1.location_lat,
    location_lng := cu.1.location_lng, location_address := cu.1.location_address,
    description := cu.1.description, photo_url := cu.1.photo_url, status := cu.1.status,
    created_at := cu.1.created_at, user_name := cu.2.name }

/-- `GET /complaints/public`. -/
def getPublicComplaints (st : Store) (status limit offset : Option String) : Store × Response :=
  match pgCount (parseIntOr 100 limit), pgCount (parseIntOr 0 offset) with
  | some l, some o =>
    let rows := (joinUsers st).filter (fun cu => statusMatches (statusFilter status) cu.1)
    let stats := complaintStats st.complaints
    (st, { status := 200,
           body := .publicList ((pageOf (fun cu => cu.1.created_at) rows l o).map publicRow) stats
             { limit := l, offset := o, total := stats.total } })
  | _, _ => (st, errorResponse 500 "Ошибка при получении жалоб")

/-- `GET /complaints/my`. -/
def getMyComplaints (E : Env) (st : Store) (authHeader : Option String)
    (status limit offset : Option String) : Store × Response :=
  withAuth E st authHeader (fun user =>
    match pgCount (parseIntOr 50 limit), pgCount (parseIntOr 0 offset) with
    | some l, some o =>
      let own := st.complaints.filter (fun c => c.user_id = user.id)
      let rows := own.filter (statusMatches (statusFilter status))
      let stats := complaintStats own
      (st, { status := 200,
             body := .myList (pageOf (fun c => c.created_at) rows l o) stats
               { limit := l, offset := o, total := stats.total } })
    | _, _ => (st, errorResponse 500 "Ошибка при получении ваших жалоб"))

/-- `GET /complaints/:id`. -/
def getComplaint (st : Store) (id : String) : Store × Response :=
  match parseInt id with
  | none => (st, errorResponse 400 "Некорректный ID жалобы")
  | some n =>
    match pgInt4 n with
    | none => (st, errorResponse 500 "Ошибка при получении жалобы")
    | some k =>
      match (joinUsers st).filter (fun cu => cu.1.id = k) with
      | [] => (st, errorResponse 404 "Жалоба не найдена")
      | cu :: _ =>
        (st, { status := 200,
               body := .detail { complaint := cu.1, user_name := cu.2.name,
                                 user_email := cu.2.email } })

/-- The step `if (location_address !== undefined) { ...push(location_address?.trim() || null) }`:
the assignment it adds, or `none` when `trim` throws. -/
def addressAssign (location_address : JsVal) : Option (List ComplaintAssign) :=
  if location_address ≠ .undefined then
    location_address.trimOrNull.map (fun a => [ComplaintAssign.location_address a])
  else some []

/-- The step `if (req.file) { ...push(photo path) }`. -/
def photoAssign (photoUrl : Option String) : List ComplaintAssign :=
  match photoUrl with
  | some url => [.photo_url url]
  | none => []

/-- The `SET` list built by `PUT /complaints/:id`, without the final
`updated_at`; `none` when a `trim()` throws. -/
def complaintAssigns (name description location_address : JsVal) (photoUrl : Option String) :
    Option (List ComplaintAssign) :=
  match trimmedAssign name ComplaintAssign.name,
      trimmedAssign description ComplaintAssign.description,
      addressAssign location_address with
  | some a1, some a2, some a3 => some (a1 ++ a2 ++ a3 ++ photoAssign photoUrl)
  | _, _, _ => none

/-- Runs `handler` behind `authenticateToken` and `requireOwnership("id")`. -/
def withOwnership (E : Env) (st : Store) (authHeader : Option String) (id : String)
    (handler : AuthUser → Store × Response) : Store × Response :=
  withAuth E st authHeader (fun user =>
    match requireOwnership E st user id with
    | .respond r => (st, r)
    | .next u => handler u)

/-- `PUT /complaints/:id`. -/
def putComplaint (E : Env) (st : Store) (authHeader : Option String) (id : String)
    (name description location_address : JsVal) (files : List UploadFile) : Store × Response :=
  withOwnership E st authHeader id (fun _ =>
    match photoUpload.run files with
    | .error e => (st, errorHandler E e)
    | .ok accepted =>
      match complaintAssigns name description location_address (photoUrlOf E accepted) with
      | none => (st, errorResponse 500 "Ошибка при обновлении жалобы")
      | some [] => (st, errorResponse 400 "Нет данных для обновления")
      | some set =>
        match updateComplaint E st (parseInt id) set with
        | none => (st, errorResponse 500 "Ошибка при обновлении жалобы")
        | some (st1, rows) =>
          (st1, { status := 200, body := .updated "Жалоба успешно обновлена" rows.head? }))

/-- `DELETE /complaints/:id`. -/
def deleteOwnComplaint (E : Env) (st : Store) (authHeader : Option String) (id : String) :
    Store × Response :=
  withOwnership E st authHeader id (fun _ =>
    match deleteComplaint st (parseInt id) with
    | none => (st, errorResponse 500 "Ошибка при удалении жалобы")
    | some (st1, _) => (st1, { status := 200, body := .ok "Жалоба успешно удалена" }))

/-! ## Routes of `src/routes/admin.js` -/

/-- The chain `router.use(authenticateToken, requireAdmin)`: `requireAdmin`
runs when `authenticateToken` called `next()`. -/
def adminChain (E : Env) (st : Store) (authHeader : Option String) : MwOut :=
  match authenticateToken E st authHeader with
  | .respond r => .respond r
  | .next u => requireAdmin u

/-- Runs `handler` behind `router.use(authenticateToken, requireAdmin)`. -/
def withAdmin (E : Env) (st : Store) (authHeader : Option String)
    (handler : AuthUser → Store × Response) : Store × Response :=
  match adminChain E st authHeader with
  | .respond r => (st, r)
  | .next u => handler u

/-- The test `search && search.trim()` on a query value: the pattern
`%term%` to match, if any. -/
def searchPattern (search : Option String) : Option String :=
  match search with
  | some s => if s ≠ "" ∧ jsTrim s ≠ "" then some ("%" ++ jsTrim s ++ "%") else none
  | none => none

/-- Whether a complaint passes the optional predicate `(c.name ILIKE $k OR
c.description ILIKE $k OR c.location_address ILIKE $k)`. -/
def searchMatches (E : Env) (pattern : Option String) (c : Complaint) : Bool :=
  match pattern with
  | some p =>
    E.ilike c.name p || E.ilike c.description p ||
      (match c.location_address with
       | some a => E.ilike a p
       | none => false)
  | none => true

/-- The row of the admin listing. -/
def adminRow (cu : Complaint × User) : AdminRow :=
  { complaint := cu.1, user_name := cu.2.name, user_email := cu.2.email,
    user_phone := cu.2.phone }

/-- `GET /admin/complaints`. -/
def getAdminComplaints (E : Env) (st : Store) (authHeader : Option String)
    (status limit offset search : Option String) : Store × Response :=
  withAdmin E st authHeader (fun _ =>
    match pgCount (parseIntOr 100 limit), pgCount (parseIntOr 0 offset) with
    | some l, some o =>
      let rows := (joinUsers st).filter (fun cu =>
        statusMatches (statusFilter status) cu.1 && searchMatches E (searchPattern search) cu.1)
      let stats := adminStats E st.complaints
      (st, { status := 200,
             body := .adminList ((pageOf (fun cu => cu.1.created_at) rows l o).map adminRow) stats
               { limit := l, offset := o, total := stats.total } })
    | _, _ => (st, errorResponse 500 "Ошибка при получении жалоб"))

/-- The test `["pending", "in_progress", "resolved"].includes(status)` on a
body value. -/
def JsVal.isValidStatus : JsVal → Bool
  | .str s => validStatuses.contains s
  | _ => false

/-- The string bound to a text parameter: the value itself once it is known
to be a string, as after `isValidStatus`. -/
def JsVal.strOr (dflt : String) : JsVal → String
  | .str s => s
  | _ => dflt

/-- `PATCH /admin/complaints/:id/status`. -/
def patchComplaintStatus (E : Env) (st : Store) (authHeader : Option String) (id : String)
    (status : JsVal) : Store × Response :=
  withAdmin E st authHeader (fun _ =>
    if !status.isValidStatus then
      (st, errorResponse 400 "Недопустимый статус. Разрешены: pending, in_progress, resolved")
    else
      match parseInt id with
      | none => (st, errorResponse 400 "Некорректный ID жалобы")
      | some n =>
        match updateComplaint E st (some n) [.status (status.strOr "")] with
        | none => (st, errorResponse 500 "Ошибка при обновлении статуса")
        | some (_, []) => (st, errorResponse 404 "Жалоба не найдена")
        | some (st1, c :: _) =>
          (st1, { status := 200, body := .updated "Статус успешно обновлен" (some c) }))

/-- `DELETE /admin/complaints/:id`. -/
def deleteAdminComplaint (E : Env) (st : Store) (authHeader : Option String) (id : String) :
    Store × Response :=
  withAdmin E st authHeader (fun _ =>
    match parseInt id with
    | none => (st, errorResponse 400 "Некорректный ID жалобы")
    | some n =>
      match deleteComplaint st (some n) with
      | none => (st, errorResponse 500 "Ошибка при удалении жалобы")
      | some (_, []) => (st, errorResponse 404 "Жалоба не найдена")
      | some (st1, _ :: _) => (st1, { status := 200, body := .ok "Жалоба успешно удалена" }))

/-- The groups of `GROUP BY key` with their `COUNT(*)`, in order of first
appearance. -/
def groupCount {κ : Type} [DecidableEq κ] (keys : List κ) : List (κ × Nat) :=
  keys.dedup.map (fun k => (k, keys.count k))

/-- The user aggregate query of the dashboard. -/
def userStats (E : Env) (users : List User) : UserStats :=
  { total_users := users.length,
    admins := (users.filter (fun u => u.role = "admin")).length,
    new_this_week := (users.filter (fun u => E.currentDate ≤ u.created_at + sevenDays)).length,
    new_this_month := (users.filter (fun u => E.currentDate ≤ u.created_at + thirtyDays)).length }

/-- Complaints of the last seven days counted by `DATE(created_at)` (the day
number), latest day first. -/
def dailyStats (E : Env) (rows : List Complaint) : List (Nat × Nat) :=
  (groupCount ((rows.filter (fun c => E.currentDate ≤ c.created_at + sevenDays)).map
    (fun c => c.created_at / 86400))).insertionSort (fun a b => b.1 ≤ a.1)

/-- The ten most frequent addresses with their counts, most frequent first. -/
def regionStats (rows : List Complaint) : List (String × Nat) :=
  ((groupCount (rows.filterMap (fun c => c.location_address))).insertionSort
    (fun a b => b.2 ≤ a.2)).take 10

/-- `GET /admin/dashboard`. -/
def getDashboard (E : Env) (st : Store) (authHeader : Option String) : Store × Response :=
  withAdmin E st authHeader (fun _ =>
    (st, { status := 200,
           body := .dashboard (adminStats E st.complaints) (userStats E st.users)
             (dailyStats E st.complaints) (regionStats st.complaints) }))

/-- The row of the user listing with its `complaints_count` subquery. -/
def adminUserRow (st : Store) (u : User) : AdminUserRow :=
  { id := u.id, name := u.name, email := u.email, phone := u.phone, role := u.role,
    avatar_url := u.avatar_url, created_at := u.created_at,
    complaints_count := (st.complaints.filter (fun c => c.user_id = u.id)).length }

/-- `GET /admin/users`. -/
def getAdminUsers (E : Env) (st : Store) (authHeader : Option String)
    (limit offset search : Option String) : Store × Response :=
  withAdmin E st authHeader (fun _ =>
    match pgCount (parseIntOr 50 limit), pgCount (parseIntOr 0 offset) with
    | some l, some o =>
      let rows := st.users.filter (fun u =>
        match searchPattern search with
        | some p => E.ilike u.name p || E.ilike u.email p
        | none => true)
      (st, { status := 200,
             body := .userList ((pageOf (fun u => u.created_at) rows l o).map (adminUserRow st))
               { limit := l, offset := o, total := st.users.length } })
    | _, _ => (st, errorResponse 500 "Ошибка при получении пользователей"))

/-! ## Routes of `src/routes/upload.js` and `src/routes/updates.js` -/

/-- The `file` object built for a stored upload; `type` is `req.body.type` as
seen by the storage engine. -/
def fileMeta (E : Env) (type : JsVal) (f : UploadFile) : FileMeta :=
  let filename := storedName E (if type = .str "avatar" then "avatar" else "complaint") f
  let folder := if type = .str "avatar" then "uploads/avatars/" else "uploads/complaints/"
  { url := "/" ++ folder ++ filename, filename := filename, originalName := f.originalname,
    size := f.size, mimetype := f.mimetype }

/-- `POST /upload/`. -/
def postUpload (E : Env) (st : Store) (authHeader : Option String) (type : JsVal)
    (files : List UploadFile) : Store × Response :=
  withAuth E st authHeader (fun _ =>
    match generalUpload.run files with
    | .error e => (st, errorHandler E e)
    | .ok [] => (st, errorResponse 400 "Файл не был загружен")
    | .ok (f :: _) =>
      (st, { status := 200, body := .file "Файл успешно загружен" (fileMeta E type f) }))

/-- `POST /upload/multiple`. -/
def postUploadMultiple (E : Env) (st : Store) (authHeader : Option String) (type : JsVal)
    (files : List UploadFile) : Store × Response :=
  withAuth E st authHeader (fun _ =>
    match generalUploadArray.run files with
    | .error e => (st, errorHandler E e)
    | .ok [] => (st, errorResponse 400 "Файлы не были загружены")
    | .ok (f :: fs) =>
      (st, { status := 200,
             body := .files ("Успешно загружено " ++ toString (f :: fs).length ++ " файлов")
               ((f :: fs).map (fileMeta E type)) }))

/-- The handler of `routes/updates.js`: `SELECT * FROM updates ORDER BY
created_at DESC`.  The router is exported but `server.js` does not mount it. -/
def getUpdates (st : Store) : List Update :=
  st.updates.insertionSort (fun a b => b.created_at ≤ a.created_at)

/-! ## The application (`src/server.js`) -/

/-- A request that reaches the route table, by the route it matches. -/
inductive Request where
  | register (name email password phone : JsVal) (files : List UploadFile)
  | login (email password : JsVal)
  | me (authHeader : Option String)
  | profile (authHeader : Option String) (name phone : JsVal) (files : List UploadFile)
  | changePassword (authHeader : Option String) (currentPassword newPassword : JsVal)
  | createComplaint (authHeader : Option String)
      (name description location_lat location_lng location_address : JsVal)
      (files : List UploadFile)
  | publicComplaints (status limit offset : Option String)
  | myComplaints (authHeader : Option String) (status limit offset : Option String)
  | complaint (id : String)
  | updateComplaint (authHeader : Option String) (id : String)
      (name description location_address : JsVal) (files : List UploadFile)
  | deleteComplaint (authHeader : Option String) (id : String)
  | adminComplaints (authHeader : Option String) (status limit offset search : Option String)
  | adminSetStatus (authHeader : Option String) (id : String) (status : JsVal)
  | adminDeleteComplaint (authHeader : Option String) (id : String)
  | adminDashboard (authHeader : Option String)
  | adminUsers (authHeader : Option String) (limit offset search : Option String)
  | adminOther (authHeader : Option String) (method path : String)
  | upload (authHeader : Option String) (type : JsVal) (files : List UploadFile)
  | uploadMultiple (authHeader : Option String) (type : JsVal) (files : List UploadFile)
  | apiInfo
  | health
  | other (method path : String)
  deriving DecidableEq, Repr

/-- The handler `app.use("/api/*", ...)` for a path no route matches. -/
def noEndpoint (method path : String) : Response :=
  { status := 404, body := .noEndpoint "API endpoint не найден" path method }

/-- The application: the response to a request and the store after it. -/
def handle (E : Env) (st : Store) : Request → Store × Response
  | .register name email password phone files => postRegister E st name email password phone files
  | .login email password => postLogin E st email password
  | .me a => getMe E st a
  | .profile a name phone files => putProfile E st a name phone files
  | .changePassword a cur new => postChangePassword E st a cur new
  | .createComplaint a name description lat lng address files =>
    postComplaint E st a name description lat lng address files
  | .publicComplaints status limit offset => getPublicComplaints st status limit offset
  | .myComplaints a status limit offset => getMyComplaints E st a status limit offset
  | .complaint id => getComplaint st id
  | .updateComplaint a id name description address files =>
    putComplaint E st a id name description address files
  | .deleteComplaint a id => deleteOwnComplaint E st a id
  | .adminComplaints a status limit offset search =>
    getAdminComplaints E st a status limit offset search
  | .adminSetStatus a id status => patchComplaintStatus E st a id status
  | .adminDeleteComplaint a id => deleteAdminComplaint E st a id
  | .adminDashboard a => getDashboard E st a
  | .adminUsers a limit offset search => getAdminUsers E st a limit offset search
  | .adminOther a method path => withAdmin E st a (fun _ => (st, noEndpoint method path))
  | .upload a type files => postUpload E st a type files
  | .uploadMultiple a type files => postUploadMultiple E st a type files
  | .apiInfo => (st, { status := 200, body := .apiInfo E.now })
  | .health => (st, { status := 200, body := .health E.now })
  | .other method path => (st, noEndpoint method path)

/-- The store after a sequence of requests, each with the environment it is
served in. -/
def run (st : Store) : List (Env × Request) → Store
  | [] => st
  | (E, r) :: rest => run (handle E st r).1 rest

/-! ## Sample environment and store -/

/-- A sample token verifier: five well-signed tokens, one of them with a
`userId` beyond the `integer` range, one expired token, and every other string
malformed. -/
def sampleVerify (token secret : String) : Except String Claims :=
  if secret ≠ "1234" then .error "JsonWebTokenError"
  else if token = "tok-user" then .ok { userId := 2, email := "user@test.com", role := "user" }
  else if token = "tok-user-forged" then
    .ok { userId := 2, email := "root@test.com", role := "admin" }
  else if token = "tok-admin" then
    .ok { userId := 1, email := "admin@tazasu.kz", role := "admin" }
  else if token = "tok-gone" then .ok { userId := 77, email := "gone@test.com", role := "user" }
  else if token = "tok-overflow" then
    .ok { userId := 2147483648, email := "user@test.com", role := "user" }
  else if token = "tok-expired" then .error "TokenExpiredError"
  else .error "JsonWebTokenError"

/-- A sample case mapping: it lowers the one address with a capital used in the
examples. -/
def sampleLower (s : String) : String :=
  if s = "Alice@X.com" then "alice@x.com" else s

/-- A sample integer reader: three decimal ids. -/
def sampleInt4in (s : String) : Option Int :=
  if s = "1" then some 1 else if s = "2" then some 2 else if s = "999" then some 999 else none

/-- A sample environment. -/
def sampleEnv : Env :=
  { now := 1000000
    currentDate := 950400
    envJwtSecret := none
    envNodeEnv := none
    jwtSign := fun c secret => "signed:" ++ secret ++ ":" ++ toString c.userId
    jwtVerify := sampleVerify
    bcryptHash := fun p => "hash:" ++ p
    bcryptCompare := fun p h => h = "hash:" ++ p
    toLowerCase := sampleLower
    parseFloat := fun s =>
      if s = "43.0" then .fin { mant := 430, scale := 1 }
      else if s = "76.0" then .fin { mant := 760, scale := 1 }
      else if s = "12.5" then .fin { mant := 125, scale := 1 }
      else .nan
    int4in := sampleInt4in
    ilike := fun _ _ => false
    extname := fun _ => ".png" }

/-- The administrator seeded by `init-database.js`. -/
def sampleAdmin : User :=
  { id := 1, name := "Администратор TAZA SU", email := "admin@tazasu.kz",
    password := "hash:admin123", phone := none, avatar_url := none, role := "admin",
    created_at := 10, updated_at := 10 }

/-- The test user seeded by `init-database.js`. -/
def sampleUser : User :=
  { id := 2, name := "Тестовый Пользователь", email := "user@test.com",
    password := "hash:user123", phone := some "+7 777 123 4567", avatar_url := none,
    role := "user", created_at := 20, updated_at := 20 }

/-- A pending complaint of the test user. -/
def sampleComplaint1 : Complaint :=
  { id := 1, user_id := 2, name := "Айгуль Нурланова", location_lat := 4322200000,
    location_lng := 7685120000, location_address := some "Алматы, ул. Абая 150",
    description := "Вода имеет неприятный запах", photo_url := none, status := "pending",
    created_at := 100, updated_at := 100 }

/-- A resolved complaint of the administrator. -/
def sampleComplaint2 : Complaint :=
  { id := 2, user_id := 1, name := "Гульнара Абдуллина", location_lat := 4365320000,
    location_lng := 5116940000, location_address := some "Актобе, ул. Молдагуловой 25",
    description := "Вода с привкусом хлора", photo_url := none, status := "resolved",
    created_at := 200, updated_at := 200 }

/-- A sample store: two users and two complaints. -/
def sampleStore : Store :=
  { users := [sampleAdmin, sampleUser]
    complaints := [sampleComplaint1, sampleComplaint2]
    updates := []
    nextUserId := 3
    nextComplaintId := 3 }

/-- The database before any request: no rows, sequences at 1. -/
def emptyStore : Store :=
  { users := [], complaints := [], updates := [], nextUserId := 1, nextComplaintId := 1 }

/-! ## Predicates on stores and requests -/

/-- Every stored complaint has one of the three recognised statuses. -/
def StatusesValid (st : Store) : Prop :=
  ∀ c ∈ st.complaints, c.status ∈ validStatuses

/-- Two complaint rows agree on the columns no owner update may touch: `id`,
`user_id`, `status`, `location_lat`, `location_lng`. -/
def SameCore (c d : Complaint) : Prop :=
  c.id = d.id ∧ c.user_id = d.user_id ∧ c.status = d.status ∧
    c.location_lat = d.location_lat ∧ c.location_lng = d.location_lng

/-- Two complaint rows agree on every column but `status` and `updated_at`. -/
def SameButStatus (c d : Complaint) : Prop :=
  c.id = d.id ∧ c.user_id = d.user_id ∧ c.name = d.name ∧ c.location_lat = d.location_lat ∧
    c.location_lng = d.location_lng ∧ c.location_address = d.location_address ∧
    c.description = d.description ∧ c.photo_url = d.photo_url ∧ c.created_at = d.created_at

/-- The request is `PATCH /admin/complaints/:id/status`. -/
def Request.isSetStatus : Request → Bool
  | .adminSetStatus _ _ _ => true
  | _ => false

/-- The request is `PUT /complaints/:id`. -/
def Request.isUpdateComplaint : Request → Bool
  | .updateComplaint _ _ _ _ _ _ => true
  | _ => false

/-- The request is `DELETE /complaints/:id` or `DELETE /admin/complaints/:id`. -/
def Request.isDeleteComplaint : Request → Bool
  | .deleteComplaint _ _ => true
  | .adminDeleteComplaint _ _ => true
  | _ => false

/-- The request is `POST /complaints/`. -/
def Request.isCreateComplaint : Request → Bool
  | .createComplaint _ _ _ _ _ _ _ => true
  | _ => false

/-- The `Authorization` header of a request to a route behind
`authenticateToken`. -/
def Request.authHeader : Request → Option String
  | .me a => a
  | .profile a _ _ _ => a
  | .changePassword a _ _ => a
  | .createComplaint a _ _ _ _ _ _ => a
  | .myComplaints a _ _ _ => a
  | .updateComplaint a _ _ _ _ _ => a
  | .deleteComplaint a _ => a
  | .adminComplaints a _ _ _ _ => a
  | .adminSetStatus a _ _ => a
  | .adminDeleteComplaint a _ => a
  | .adminDashboard a => a
  | .adminUsers a _ _ _ => a
  | .adminOther a _ _ => a
  | .upload a _ _ => a
  | .uploadMultiple a _ _ => a
  | _ => none

/-- The `SET` list holds no assignment to `status`. -/
def noStatusAssign (set : List ComplaintAssign) : Prop :=
  ∀ v, ComplaintAssign.status v ∉ set

/-- The ways one request can change table `complaints`: not at all, by one
inserted row, by a `DELETE`, by the owner update or by the status update. -/
inductive ComplaintsChange (E : Env) (st : Store) (r : Request) (st1 : Store) : Prop where
  | same (h : st1.complaints = st.complaints)
  | created (c : Complaint) (h : st1.complaints = st.complaints ++ [c])
      (hs : c.status = "pending") (hid : c.id = st.nextComplaintId)
      (hfresh : ∀ x ∈ st.complaints, x.id ≠ c.id) (hr : r.isCreateComplaint = true)
  | deleted (k : Int) (h : st1.complaints = st.complaints.filter (fun c => c.id ≠ k))
      (hr : r.isDeleteComplaint = true)
  | updated (k : Int) (set : List ComplaintAssign)
      (h : updateComplaintRows E.now k (set ++ [.updated_at]) st.complaints =
        some st1.complaints)
      (hset : noStatusAssign set) (hr : r.isUpdateComplaint = true)
  | statusSet (k : Int) (s : String) (u : AuthUser)
      (h : updateComplaintRows E.now k [.status s, .updated_at] st.complaints =
        some st1.complaints)
      (hs : s ∈ validStatuses) (hr : ∃ a id, r = .adminSetStatus a id (.str s))
      (hu : adminChain E st r.authHeader = .next u)

/-- The field `pagination.total` of a response, when it has one. -/
def Response.total? (r : Response) : Option Nat :=
  match r.body with
  | .publicList _ _ p => some p.total
  | .myList _ _ p => some p.total
  | .adminList _ _ p => some p.total
  | .userList _ p => some p.total
  | _ => none

/-- A registration request that passes the validation of `POST /auth/register`
and whose values fit the columns of `users`: name and email present, password
of at least 6 code units, email of the accepted format, an upload `multer`
accepts, and no value longer than its `VARCHAR`. -/
def ValidRegistration (E : Env) (name email password : String) (phone : JsVal)
    (files : List UploadFile) : Prop :=
  name ≠ "" ∧ email ≠ "" ∧ 6 ≤ utf16Length password ∧ emailRegexTest email = true ∧
    (∃ accepted, avatarUpload.run files = .ok accepted) ∧
    (jsTrim name).length ≤ 255 ∧ (E.toLowerCase email).length ≤ 255 ∧
    (E.bcryptHash password).length ≤ 255 ∧
    (∀ s, phone.orNull = some s → s.length ≤ 20)

/-- The state of table `users` that registration maintains: every stored email
is in lower case, no email is stored twice, and every id is below the next
value of the sequence. -/
def EmailsCanonical (lower : String → String) (st : Store) : Prop :=
  (∀ u ∈ st.users, lower u.email = u.email) ∧
    (st.users.map (fun u => u.email)).Nodup ∧
    (∀ u ∈ st.users, u.id < st.nextUserId)

/-- Two user rows agree on `id`, `email` and `role`. -/
def SameIdentity (u v : User) : Prop :=
  u.id = v.id ∧ u.email = v.email ∧ u.role = v.role

/-! ## The `fileFilter` callbacks, file by file -/

/-- The `fileFilter` of `routes/auth.js` (avatars): whether it calls
`cb(null, true)`. -/
def avatarFileFilter (file : UploadFile) : Bool :=
  ["image/jpeg", "image/jpg", "image/png", "image/gif"].contains file.mimetype

/-- The `fileFilter` of `routes/complaints.js` (complaint photos). -/
def photoFileFilter (file : UploadFile) : Bool :=
  ["image/jpeg", "image/jpg", "image/png", "image/gif"].contains file.mimetype

/-- The `fileFilter` of `routes/upload.js` (generic uploads). -/
def uploadFileFilter (file : UploadFile) : Bool :=
  ["image/jpeg", "image/jpg", "image/png", "image/gif"].contains file.mimetype

/-- The error the three filters pass to `cb` for a type they do not allow. -/
def fileTypeError : JsError :=
  { name := "Error", code := none, message := "Разрешены только изображения (JPEG, PNG, GIF)" }

/-- A sample file part of an allowed type in field `files`. -/
def samplePng (suffix : String) : UploadFile :=
  { fieldname := "files", originalname := "photo.png", mimetype := "image/png", size := 2048,
    uniqueSuffix := suffix }

/-- A sample file part declared as `image/bmp` in field `file`. -/
def sampleBmp : UploadFile :=
  { fieldname := "file", originalname := "scan.bmp", mimetype := "image/bmp", size := 2048,
    uniqueSuffix := "1700000000000-1" }

/-! ## The layers of `server.js` -/

/-- The layers registered on `app` from the first router on, in order.  The
router of `routes/updates.js` is not among them: `server.js` neither imports
nor mounts it. -/
inductive Layer where
  /-- `app.use("/api/auth", authRoutes)`. -/
  | authRoutes
  /-- `app.use("/api/complaints", complaintRoutes)`. -/
  | complaintRoutes
  /-- `app.use("/api/admin", adminRoutes)`. -/
  | adminRoutes
  /-- `app.use("/api/upload", uploadRoutes)`. -/
  | uploadRoutes
  /-- `app.get("/api", ...)`. -/
  | apiInfo
  /-- `app.get("/api/health", ...)`. -/
  | health
  /-- `app.use("/api/*", ...)`, the 404 handler. -/
  | notFound
  deriving DecidableEq, Repr

/-- The characters of a path with the ASCII capitals lowered: routing ignores
case. -/
def lowerPath (path : String) : List Char :=
  path.toList.map Char.toLower

/-- Whether `app.use(mount, ...)` matches the path: the path is the mount path
or continues it after a slash. -/
def mountMatches (mount path : String) : Bool :=
  lowerPath path = mount.toList || (mount.toList ++ ['/']).isPrefixOf (lowerPath path)

/-- Whether `app.get(route, ...)` matches the request: method `GET` or `HEAD`,
and the path is the route with at most one slash after it. -/
def getMatches (route method path : String) : Bool :=
  (method = "GET" || method = "HEAD") &&
    (lowerPath path = route.toList || lowerPath path = route.toList ++ ['/'])

/-- Whether a layer's path matches the request. -/
def Layer.pathMatches (method path : String) : Layer → Bool
  | .authRoutes => mountMatches "/api/auth" path
  | .complaintRoutes => mountMatches "/api/complaints" path
  | .adminRoutes => mountMatches "/api/admin" path
  | .uploadRoutes => mountMatches "/api/upload" path
  | .apiInfo => getMatches "/api" method path
  | .health => getMatches "/api/health" method path
  | .notFound => "/api/".toList.isPrefixOf (lowerPath path)

/-- The stack of `server.js`, in the order of registration. -/
def serverLayers : List Layer :=
  [.authRoutes, .complaintRoutes, .adminRoutes, .uploadRoutes, .apiInfo, .health, .notFound]

/-- The layers a request is offered to, in order: a router passes the request
on when none of its routes matches, a handler answers it. -/
def matchingLayers (method path : String) : List Layer :=
  serverLayers.filter (Layer.pathMatches method path)

/-! ## `transaction` (`src/config/database.js`) -/

/-- What `transaction` does with the client it acquired. -/
inductive TxOp where
  /-- `client.query(text)`. -/
  | query (text : String)
  /-- `callback(client)`. -/
  | callback
  /-- `client.release()`. -/
  | release
  deriving DecidableEq, Repr

/-- A client acquired from the pool, with the callback to run on it: `σ` is the
state of the connection, `α` the type of the callback's result.  Each call
returns its result or the error it throws, and the state after it. -/
structure TxClient (σ α : Type) where
  /-- `client.query(text)`. -/
  query : String → σ → Except String Unit × σ
  /-- `callback(client)`. -/
  callback : σ → Except String α × σ
  /-- `client.release()`. -/
  release : σ → σ

/-- The `try` block of `transaction`: `BEGIN`, the callback, `COMMIT`, each
run on the state the call before it left.  The result and the state of the
connection. -/
def transactionTry {σ α : Type} (c : TxClient σ α) (s : σ) : Except String α × σ :=
  match c.query "BEGIN" s with
  | (.error e, s1) => (.error e, s1)
  | (.ok _, s1) =>
    match c.callback s1 with
    | (.error e, s2) => (.error e, s2)
    | (.ok result, s2) =>
      match c.query "COMMIT" s2 with
      | (.error e, s3) => (.error e, s3)
      | (.ok _, s3) => (.ok result, s3)

/-- `transaction(callback)` from the point where `pool.connect()` has returned
the client: the `try` block, the `catch` block (`ROLLBACK`, then rethrow; an
error of `ROLLBACK` itself replaces the one caught) and the `finally` block
(`release`).  The value returned or the error thrown, and the state in which
the connection is left. -/
def transaction {σ α : Type} (c : TxClient σ α) (s : σ) : Except String α × σ :=
  match transactionTry c s with
  | (.ok result, s1) => (.ok result, c.release s1)
  | (.error e, s1) =>
    match c.query "ROLLBACK" s1 with
    | (.ok _, s2) => (.error e, c.release s2)
    | (.error e2, s2) => (.error e2, c.release s2)

/-- The client `c` keeping a record of the calls made on it: the state of the
connection is paired with the calls so far, and each call does what it does on
`c` and adds itself to the record. -/
def TxClient.traced {σ α : Type} (c : TxClient σ α) : TxClient (σ × List TxOp) α :=
  { query := fun text p => ((c.query text p.1).1, ((c.query text p.1).2, p.2 ++ [.query text])),
    callback := fun p => ((c.callback p.1).1, ((c.callback p.1).2, p.2 ++ [.callback])),
    release := fun p => (c.release p.1, p.2 ++ [.release]) }

/-- The calls `transaction` makes on the client, in order: the record kept by
the traced client, empty at the start. -/
def transactionCalls {σ α : Type} (c : TxClient σ α) (s : σ) : List TxOp :=
  (transaction c.traced (s, [])).2.2

/-- A sample client: the state of the connection is the list of what was done
on it; every statement succeeds, and the callback inserts a row and returns 7,
or fails after its first statement. -/
def sampleTxClient (callbackFails : Bool) : TxClient (List String) Nat :=
  { query := fun text s => (.ok (), s ++ [text]),
    callback := fun s =>
      if callbackFails then (.error "duplicate key", s ++ ["INSERT (failed)"])
      else (.ok 7, s ++ ["INSERT"]),
    release := fun s => s ++ ["released"] }

/-! ## An environment with `JWT_SECRET` set -/

/-- A sample signature check: a token is the text `sampleEnv.jwtSign` produces,
and it verifies under the secret it was signed with. -/
def keyedVerify (token secret : String) : Except String Claims :=
  if token = "signed:" ++ secret ++ ":2" then
    .ok { userId := 2, email := "user@test.com", role := "user" }
  else .error "JsonWebTokenError"

/-- The sample environment with the given value of `process.env.JWT_SECRET`
and the signature check `keyedVerify`. -/
def keyedEnv (secret : Option String) : Env :=
  { sampleEnv with envJwtSecret := secret, jwtVerify := keyedVerify }

/-! ## Request bodies -/

/-- The request with which `POST /auth/register` is served for the body
`body`, read by `const { name, email, password, phone } = req.body`: the value
of each field the handler names, `undefined` for a field the body lacks.  No
other field of the body is read. -/
def registerRequest (body : String → JsVal) (files : List UploadFile) : Request :=
  .register (body "name") (body "email") (body "password") (body "phone") files

/-- The same for `PUT /auth/profile`: `const { name, phone } = req.body`. -/
def profileRequest (authHeader : Option String) (body : String → JsVal)
    (files : List UploadFile) : Request :=
  .profile authHeader (body "name") (body "phone") files

/-- The same for `POST /auth/change-password`:
`const { currentPassword, newPassword } = req.body`. -/
def changePasswordRequest (authHeader : Option String) (body : String → JsVal) : Request :=
  .changePassword authHeader (body "currentPassword") (body "newPassword")

/-- A sample body that asks for the role `admin` and another id and email next
to the fields the handlers read. -/
def sampleBody (k : String) : JsVal :=
  if k = "name" then .str "Mallory"
  else if k = "email" then .str "mallory@test.com"
  else if k = "password" then .str "secret1"
  else if k = "role" then .str "admin"
  else if k = "id" then .num 1
  else .undefined

/-- Two user rows agree on every column the profile update does not assign:
`id`, `email`, `password`, `role` and `created_at`. -/
def SameButProfile (u v : User) : Prop :=
  u.id = v.id ∧ u.email = v.email ∧ u.password = v.password ∧ u.role = v.role ∧
    u.created_at = v.created_at

/-- The assignment is to `name`, `phone`, `avatar_url` or `updated_at`. -/
def UserAssign.isProfile : UserAssign → Bool
  | .name _ => true
  | .phone _ => true
  | .avatar_url _ => true
  | .updated_at => true
  | .password _ => false

/-! ## Stores that differ in password hashes -/

/-- Two rows of `users` that differ at most in the stored password hash, the
two hashes accepting the same passwords under `bcrypt.compare`. -/
def SameButHash (E : Env) (u v : User) : Prop :=
  v.id = u.id ∧ v.name = u.name ∧ v.email = u.email ∧ v.phone = u.phone ∧
    v.avatar_url = u.avatar_url ∧ v.role = u.role ∧ v.created_at = u.created_at ∧
    v.updated_at = u.updated_at ∧
    ∀ pw, E.bcryptCompare pw v.password = E.bcryptCompare pw u.password

/-- The sample environment with salted hashes: a hash is two characters of
salt before the text `sampleEnv` produces, and `bcrypt.compare` ignores the
salt, so that every password has several hashes. -/
def saltedEnv : Env :=
  { sampleEnv with
    bcryptHash := fun p => "a$hash:" ++ p
    bcryptCompare := fun p h => h.drop 2 = "hash:" ++ p }

/-- The users of the sample store with their passwords hashed under the given
salt. -/
def saltedUsers (salt : String) : List User :=
  [{ sampleAdmin with password := salt ++ "$hash:admin123" },
   { sampleUser with password := salt ++ "$hash:user123" }]

/-- The sample store with the passwords hashed under the given salt. -/
def saltedStore (salt : String) : Store :=
  { sampleStore with users := saltedUsers salt }

/-! ## Query texts and parameter lists of the listings -/

/-- A value of a parameter list handed to `query`. -/
inductive SqlParam where
  /-- A JavaScript string. -/
  | text (s : String)
  /-- The value `null`. -/
  | null
  /-- A JavaScript number; `none` is `NaN`. -/
  | number (n : Option Int)
  deriving DecidableEq, Repr

/-- The two arguments of a call of `query`. -/
structure BuiltQuery where
  text : String
  params : List SqlParam
  deriving DecidableEq, Repr

/-- The variables of a handler that builds a listing query. -/
structure QueryBuild where
  queryText : String
  conditions : List String
  queryParams : List SqlParam
  paramIndex : Nat
  deriving DecidableEq, Repr

/-- The initial `queryText` of `GET /complaints/public`. -/
def publicSelect : String :=
  "\n      SELECT \n        c.id,\n        c.name,\n        c.location_lat,\n        c.location_lng,\n        c.location_address,\n        c.description,\n        c.photo_url,\n        c.status,\n        c.created_at,\n        u.name as user_name\n      FROM complaints c\n      JOIN users u ON c.user_id = u.id\n    "

/-- The initial `queryText` of `GET /admin/complaints`. -/
def adminSelect : String :=
  "\n      SELECT \n        c.*,\n        u.name as user_name,\n        u.email as user_email,\n        u.phone as user_phone\n      FROM complaints c\n      JOIN users u ON c.user_id = u.id\n    "

/-- The step `if (status && [...].includes(status)) { queryText += clause +
paramIndex; queryParams.push(status); paramIndex++ }` of the two listings of
`routes/complaints.js`. -/
def QueryBuild.appendStatus (b : QueryBuild) (clause : String) (status : Option String) :
    QueryBuild :=
  match statusFilter status with
  | some s =>
    { b with queryText := b.queryText ++ clause ++ toString b.paramIndex,
             queryParams := b.queryParams ++ [.text s],
             paramIndex := b.paramIndex + 1 }
  | none => b

/-- The step `queryText += orderBy + " LIMIT $" + paramIndex + " OFFSET $" +
(paramIndex + 1); queryParams.push(Number.parseInt(limit),
Number.parseInt(offset))`, and the call of `query`. -/
def QueryBuild.finish (b : QueryBuild) (orderBy : String) (limit offset : Option Int) :
    BuiltQuery :=
  { text := b.queryText ++ orderBy ++ " LIMIT $" ++ toString b.paramIndex ++ " OFFSET $" ++
      toString (b.paramIndex + 1),
    params := b.queryParams ++ [.number limit, .number offset] }

/-- The listing query of `GET /complaints/public`. -/
def publicQuery (status limit offset : Option String) : BuiltQuery :=
  let b : QueryBuild :=
    { queryText := publicSelect, conditions := [], queryParams := [], paramIndex := 1 }
  (b.appendStatus " WHERE c.status = $" status).finish " ORDER BY c.created_at DESC"
    (parseIntOr 100 limit) (parseIntOr 0 offset)

/-- The listing query of `GET /complaints/my` for the requester `userId`. -/
def myQuery (userId : Int) (status limit offset : Option String) : BuiltQuery :=
  let b : QueryBuild :=
    { queryText := "SELECT * FROM complaints WHERE user_id = $1", conditions := [],
      queryParams := [.number (some userId)], paramIndex := 2 }
  (b.appendStatus " AND status = $" status).finish " ORDER BY created_at DESC"
    (parseIntOr 50 limit) (parseIntOr 0 offset)

/-- The step `if (status && [...].includes(status)) { conditions.push(...);
queryParams.push(status); paramIndex++ }` of `GET /admin/complaints`. -/
def QueryBuild.pushStatus (b : QueryBuild) (status : Option String) : QueryBuild :=
  match statusFilter status with
  | some s =>
    { b with conditions := b.conditions ++ ["c.status = $" ++ toString b.paramIndex],
             queryParams := b.queryParams ++ [.text s],
             paramIndex := b.paramIndex + 1 }
  | none => b

/-- The step `if (search && search.trim()) { conditions.push(...);
queryParams.push("%" + search.trim() + "%"); paramIndex++ }`. -/
def QueryBuild.pushSearch (b : QueryBuild) (search : Option String) : QueryBuild :=
  match searchPattern search with
  | some p =>
    { b with conditions := b.conditions ++
               ["(c.name ILIKE $" ++ toString b.paramIndex ++ " OR c.description ILIKE $" ++
                 toString b.paramIndex ++ " OR c.location_address ILIKE $" ++
                 toString b.paramIndex ++ ")"],
             queryParams := b.queryParams ++ [.text p],
             paramIndex := b.paramIndex + 1 }
  | none => b

/-- The step `if (conditions.length > 0) { queryText += " WHERE " +
conditions.join(" AND ") }`. -/
def QueryBuild.appendWhere (b : QueryBuild) : QueryBuild :=
  if b.conditions.length > 0 then
    { b with queryText := b.queryText ++ " WHERE " ++ " AND ".intercalate b.conditions }
  else b

/-- The listing query of `GET /admin/complaints`. -/
def adminQuery (status limit offset search : Option String) : BuiltQuery :=
  let b : QueryBuild :=
    { queryText := adminSelect, conditions := [], queryParams := [], paramIndex := 1 }
  ((b.pushStatus status).pushSearch search).appendWhere.finish " ORDER BY c.created_at DESC"
    (parseIntOr 100 limit) (parseIntOr 0 offset)

/-- The numbers of the placeholders `$k` of a query text, in order of
appearance. -/
def placeholdersOf : List Char → List Nat
  | [] => []
  | c :: cs =>
    if c = '$' then
      match takeDigits 10 cs with
      | [] => placeholdersOf cs
      | d :: ds => (d :: ds).foldl (fun acc x => acc * 10 + x) 0 :: placeholdersOf cs
    else placeholdersOf cs

/-- The numbers of the placeholders of a query text. -/
def placeholders (text : String) : List Nat :=
  placeholdersOf text.toList

/-- The distinct members of a list in the order of their first appearance. -/
def distinctInOrder : List Nat → List Nat
  | [] => []
  | k :: ks => k :: (distinctInOrder ks).filter (fun x => x ≠ k)

/-- The predicates of the admin listing as the specification describes them,
each a text with a slot for its placeholder number and the one value bound to
it: the status predicate for a recognized status, then the search predicate
over the three columns for a search that is not blank. -/
def adminPredicates (status search : Option String) : List ((String → String) × SqlParam) :=
  (match status with
   | some s =>
     if s ∈ validStatuses then [(fun k => "c.status = $" ++ k, SqlParam.text s)] else []
   | none => []) ++
  (match search with
   | some t =>
     if jsTrim t ≠ "" then
       [(fun k => "(c.name ILIKE $" ++ k ++ " OR c.description ILIKE $" ++ k ++
           " OR c.location_address ILIKE $" ++ k ++ ")",
         SqlParam.text ("%" ++ jsTrim t ++ "%"))]
     else []
   | none => [])

/-- The predicates numbered from 1 in their order. -/
def numberedFrom (k : Nat) : List ((String → String) × SqlParam) → List String
  | [] => []
  | p :: ps => p.1 (toString k) :: numberedFrom (k + 1) ps

/-- The admin listing query as the specification describes it: the predicates
numbered from 1 and joined with `AND` after `WHERE`, no `WHERE` without a
predicate, then the ordering with limit and offset as the last two
placeholders and parameters: the number each query value parses to, 100 and 0
for a value that is absent. -/
def adminQueryDescribed (status limit offset search : Option String) : BuiltQuery :=
  let preds := adminPredicates status search
  let n := preds.length + 2
  { text := adminSelect ++
      (if preds.isEmpty then "" else " WHERE " ++ " AND ".intercalate (numberedFrom 1 preds)) ++
      " ORDER BY c.created_at DESC LIMIT $" ++ toString (n - 1) ++ " OFFSET $" ++ toString n,
    params := preds.map (fun p => p.2) ++
      [.number (match limit with
          | none => some 100
          | some s => parseInt s),
        .number (match offset with
          | none => some 0
          | some s => parseInt s)] }

/-! ## Validation of `POST /complaints` -/

/-- The two validation steps of `POST /complaints/` that concern the fields:
a field is missing or empty (falsy), a coordinate does not parse to a number,
or the parsed latitude is outside `[40, 56]` or the parsed longitude outside
`[46, 88]`. -/
def complaintRejected (E : Env) (name description location_lat location_lng : JsVal) : Bool :=
  !name.truthy || !description.truthy || !location_lat.truthy || !location_lng.truthy ||
    (location_lat.parseFloat E).isNaN || (location_lng.parseFloat E).isNaN ||
    (location_lat.parseFloat E).ltInt 40 || (location_lat.parseFloat E).gtInt 56 ||
    (location_lng.parseFloat E).ltInt 46 || (location_lng.parseFloat E).gtInt 88

/-- A sample file part declared as `image/bmp` in field `photo`. -/
def samplePhotoBmp : UploadFile :=
  { fieldname := "photo", originalname := "scan.bmp", mimetype := "image/bmp", size := 2048,
    uniqueSuffix := "1700000000000-2" }

/-- A sample file part of 11 MB declared as `image/png` in field `photo`. -/
def samplePhotoLarge : UploadFile :=
  { fieldname := "photo", originalname := "large.png", mimetype := "image/png",
    size := 11 * 1024 * 1024, uniqueSuffix := "1700000000000-3" }

/-- A name of 256 letters. -/
def longName : String :=
  String.mk (List.replicate 256 'a')

/-! ## The `UPDATE` built by `PUT /complaints/:id` -/

/-- The variables of the handler that builds the `UPDATE`. -/
structure UpdateBuild where
  updateFields : List String
  updateValues : List SqlParam
  paramIndex : Nat
  deriving DecidableEq, Repr

/-- The three statements `updateFields.push(column + " = $" + paramIndex);
updateValues.push(v); paramIndex++`. -/
def UpdateBuild.push (b : UpdateBuild) (column : String) (v : SqlParam) : UpdateBuild :=
  { updateFields := b.updateFields ++ [column ++ " = $" ++ toString b.paramIndex],
    updateValues := b.updateValues ++ [v],
    paramIndex := b.paramIndex + 1 }

/-- The step `if (v && v.trim()) { ...push(v.trim()) }` for the column; `none`
when `v.trim()` throws (`v` is truthy and not a string). -/
def UpdateBuild.pushTrimmed (b : UpdateBuild) (column : String) (v : JsVal) :
    Option UpdateBuild :=
  if v.truthy then
    match v with
    | .str s => some (if jsTrim s = "" then b else b.push column (.text (jsTrim s)))
    | _ => none
  else some b

/-- An optional text as a parameter: the text or `null`. -/
def SqlParam.ofOption : Option String → SqlParam
  | some s => .text s
  | none => .null

/-- The step `if (location_address !== undefined) {
...push(location_address?.trim() || null) }`; `none` when `trim` throws. -/
def UpdateBuild.pushAddress (b : UpdateBuild) (location_address : JsVal) : Option UpdateBuild :=
  if location_address ≠ .undefined then
    location_address.trimOrNull.map (fun a => b.push "location_address" (SqlParam.ofOption a))
  else some b

/-- The step `if (req.file) { ...push(photo path) }`. -/
def UpdateBuild.pushPhoto (b : UpdateBuild) (photoUrl : Option String) : UpdateBuild :=
  match photoUrl with
  | some url => b.push "photo_url" (.text url)
  | none => b

/-- The variables of `PUT /complaints/:id` after its four steps, from
`updateFields = []`, `updateValues = []`, `paramIndex = 1`; `none` when a
`trim()` throws. -/
def complaintUpdateBuild (name description location_address : JsVal)
    (photoUrl : Option String) : Option UpdateBuild :=
  match ({ updateFields := [], updateValues := [], paramIndex := 1 } : UpdateBuild).pushTrimmed
      "name" name with
  | none => none
  | some b1 =>
    match b1.pushTrimmed "description" description with
    | none => none
    | some b2 =>
      match b2.pushAddress location_address with
      | none => none
      | some b3 => some (b3.pushPhoto photoUrl)

/-- The end of the handler, reached when `updateFields` is not empty:
`updateFields.push("updated_at = CURRENT_TIMESTAMP")`,
`updateValues.push(complaintId)` and the query text; `complaintId` is
`Number.parseInt(req.params.id)`. -/
def complaintUpdateQuery (b : UpdateBuild) (complaintId : Option Int) : BuiltQuery :=
  { text := "\n      UPDATE complaints \n      SET " ++
      ", ".intercalate (b.updateFields ++ ["updated_at = CURRENT_TIMESTAMP"]) ++
      "\n      WHERE id = $" ++ toString b.paramIndex ++ "\n      RETURNING *\n    ",
    params := b.updateValues ++ [.number complaintId] }

/-- The text a body value supplies: the trimmed string when the value is a
string that is not blank. -/
def JsVal.suppliedText : JsVal → Option String
  | .str s => if jsTrim s = "" then none else some (jsTrim s)
  | _ => none

/-- The assignments the specification lists for `PUT /complaints/:id`, in its
order: the trimmed name and the trimmed description when supplied, the trimmed
address or `null` when `location_address` is not `undefined`, and the path of
the new photo when a file is attached. -/
def suppliedAssigns (name description location_address : JsVal) (photoUrl : Option String) :
    List ComplaintAssign :=
  (match name.suppliedText with
   | some s => [ComplaintAssign.name s]
   | none => []) ++
  (match description.suppliedText with
   | some s => [ComplaintAssign.description s]
   | none => []) ++
  (if location_address = .undefined then []
   else [ComplaintAssign.location_address location_address.suppliedText]) ++
  (match photoUrl with
   | some url => [ComplaintAssign.photo_url url]
   | none => [])

/-- The column an assignment names and the value it binds to its placeholder;
`updated_at` is assigned `CURRENT_TIMESTAMP` and binds no value. -/
def ComplaintAssign.bound : ComplaintAssign → Option (String × SqlParam)
  | .name v => some ("name", .text v)
  | .description v => some ("description", .text v)
  | .location_address v => some ("location_address", SqlParam.ofOption v)
  | .photo_url v => some ("photo_url", .text v)
  | .status v => some ("status", .text v)
  | .updated_at => none

/-- The items `column = $k` for the given columns, numbered from `k` on. -/
def numberedFields (k : Nat) : List (String × SqlParam) → List String
  | [] => []
  | f :: rest => (f.1 ++ " = $" ++ toString k) :: numberedFields (k + 1) rest

/-- The variables of the handler after the given columns and values have been
pushed, in order. -/
def UpdateBuild.ofFields (fields : List (String × SqlParam)) : UpdateBuild :=
  { updateFields := numberedFields 1 fields,
    updateValues := fields.map (fun f => f.2),
    paramIndex := fields.length + 1 }

/-- Every stored complaint has an id below the next value of the sequence
`complaints_id_seq`, so the next id drawn is unused. -/
def ComplaintIdsFresh (st : Store) : Prop :=
  ∀ c ∈ st.complaints, c.id < st.nextComplaintId

/-! ## Theorems -/

/-! ### Helper lemmas on the middleware -/

theorem pgInt4_cases (n : Int) : pgInt4 n = some n ∨ pgInt4 n = none := by
  unfold pgInt4
  split
  · exact Or.inl rfl
  · exact Or.inr rfl

theorem selectAuthUser_head (st : Store) (id : Int) (hr : pgInt4 id = some id) :
    ∃ rows, selectAuthUser st id = some rows ∧
      rows.head? = (st.users.find? (fun u => u.id = id)).map User.toAuthUser := by
  unfold selectAuthUser
  rw [hr]
  refine ⟨_, rfl, ?_⟩
  induction st.users with
  | nil => rfl
  | cons u us ih =>
    by_cases h : u.id = id
    · simp [List.filter_cons, List.find?_cons, h]
    · simp [List.filter_cons, List.find?_cons, h, ih]

theorem authenticateToken_ok (E : Env) (st : Store) (h : Option String) (t : String)
    (c : Claims) (ht : bearerToken h = some t) (hv : E.jwtVerify t JWT_SECRET = .ok c)
    (hr : pgInt4 c.userId = some c.userId) :
    authenticateToken E st h =
      match st.users.find? (fun u => u.id = c.userId) with
      | none => .respond (errorResponse 401 "Пользователь не найден")
      | some row => .next row.toAuthUser := by
  obtain ⟨rows, hs, hsel⟩ := selectAuthUser_head st c.userId hr
  unfold authenticateToken
  simp only [ht, hv, hs]
  cases hf : st.users.find? (fun u => u.id = c.userId) with
  | none =>
    rw [hf] at hsel
    cases rows with
    | nil => rfl
    | cons a l => simp at hsel
  | some row =>
    rw [hf] at hsel
    cases rows with
    | nil => simp at hsel
    | cons a l =>
      simp at hsel
      simp [hsel]

theorem authenticateToken_out_of_range (E : Env) (st : Store) (h : Option String)
    (t : String) (c : Claims) (ht : bearerToken h = some t)
    (hv : E.jwtVerify t JWT_SECRET = .ok c) (hr : pgInt4 c.userId = none) :
    authenticateToken E st h = .respond (errorResponse 500 "Ошибка авторизации") := by
  unfold authenticateToken
  simp only [ht, hv, selectAuthUser, hr]

theorem authenticateToken_next_in_range (E : Env) (st : Store) (h : Option String)
    (u : AuthUser) (hn : authenticateToken E st h = .next u) :
    ∃ t c row, bearerToken h = some t ∧ E.jwtVerify t JWT_SECRET = .ok c ∧
      pgInt4 c.userId = some c.userId ∧
      st.users.find? (fun x => x.id = c.userId) = some row ∧ u = row.toAuthUser := by
  cases ht : bearerToken h with
  | none => simp [authenticateToken, ht] at hn
  | some t =>
    cases hv : E.jwtVerify t JWT_SECRET with
    | error name =>
      unfold authenticateToken at hn
      simp only [ht, hv] at hn
      split_ifs at hn
    | ok c =>
      rcases pgInt4_cases c.userId with hr | hr
      · rw [authenticateToken_ok E st h t c ht hv hr] at hn
        cases hf : st.users.find? (fun x => x.id = c.userId) with
        | none => simp [hf] at hn
        | some row =>
          simp only [hf, MwOut.next.injEq] at hn
          exact ⟨t, c, row, rfl, hv, hr, hf, hn.symm⟩
      · rw [authenticateToken_out_of_range E st h t c ht hv hr] at hn
        simp at hn

theorem authenticateToken_next (E : Env) (st : Store) (h : Option String) (u : AuthUser)
    (hn : authenticateToken E st h = .next u) :
    ∃ t c row, bearerToken h = some t ∧ E.jwtVerify t JWT_SECRET = .ok c ∧
      st.users.find? (fun x => x.id = c.userId) = some row ∧ u = row.toAuthUser := by
  obtain ⟨t, c, row, ht, hv, _, hf, hu⟩ := authenticateToken_next_in_range E st h u hn
  exact ⟨t, c, row, ht, hv, hf, hu⟩

theorem authenticateTokenEffects_eq (E : Env) (st : Store) (h : Option String) :
    authenticateTokenEffects E st h =
      match authenticateToken E st h with
      | .respond r => [.send r]
      | .next u => [.setUser u, .next] := by
  unfold authenticateTokenEffects authenticateToken
  cases bearerToken h with
  | none => rfl
  | some t =>
    dsimp only
    cases E.jwtVerify t JWT_SECRET with
    | error name =>
      dsimp only
      split_ifs <;> rfl
    | ok c =>
      dsimp only
      cases selectAuthUser st c.userId with
      | none => rfl
      | some rows =>
        cases rows with
        | nil => rfl
        | cons a l => rfl

theorem requireOwnershipEffects_eq (E : Env) (st : Store) (user : AuthUser) (id : String) :
    requireOwnershipEffects E st user id =
      match requireOwnership E st user id with
      | .respond r => [.send r]
      | .next _ => [.next] := by
  unfold requireOwnershipEffects requireOwnership
  by_cases hr : user.role = "admin"
  · simp only [hr, if_true]
  · simp only [hr, if_false]
    cases E.int4in id with
    | none => rfl
    | some n =>
      dsimp only
      cases selectComplaintOwner st n with
      | nil => rfl
      | cons o l =>
        dsimp only
        split_ifs <;> rfl

theorem requireAdminEffects_eq (user : AuthUser) :
    requireAdminEffects user =
      match requireAdmin user with
      | .respond r => [.send r]
      | .next _ => [.next] := by
  unfold requireAdminEffects requireAdmin
  split_ifs <;> rfl

/-- `Number.parseInt` rounds to the nearest double: odd numbers just above
`2 ^ 53` move to an even neighbour, and the largest 64-bit integer becomes
`2 ^ 63`, while `2 ^ 63 - 513` becomes the double below it. -/
theorem parseInt_rounds :
    parseInt "9007199254740992" = some 9007199254740992 ∧
    parseInt "9007199254740993" = some 9007199254740992 ∧
    parseInt "9007199254740995" = some 9007199254740996 ∧
    parseInt "9223372036854775295" = some 9223372036854774784 ∧
    parseInt "9223372036854775296" = some 9223372036854775808 ∧
    parseInt "9223372036854775807" = some 9223372036854775808 ∧
    parseInt "-9223372036854775807" = some (-9223372036854775808) ∧
    parseInt "2147483648" = some 2147483648 := by
  decide

theorem roundToDouble_of_lt (n : Nat) (h : n < 2 ^ 53) : roundToDouble n = n := by
  unfold roundToDouble
  rw [if_pos h]

/-! ### C1 to C4: authentication and authorization -/

/-- C1: two verified tokens with the same `userId` get the same outcome from
`authenticateToken` and from the chain with `requireAdmin`; the attached user
is the stored row of that id (a row whose id fits the `integer` column, as
every row of the table does), and `requireAdmin` passes exactly when the
stored role is `admin`.  When no row has the id the chain does not pass, and a
`userId` beyond the `integer` range is answered 500 for both tokens. -/
theorem auth_outcome_from_store (E : Env) (st : Store) (h1 h2 : Option String)
    (t1 t2 : String) (c1 c2 : Claims)
    (ht1 : bearerToken h1 = some t1) (ht2 : bearerToken h2 = some t2)
    (hv1 : E.jwtVerify t1 JWT_SECRET = .ok c1) (hv2 : E.jwtVerify t2 JWT_SECRET = .ok c2)
    (hid : c1.userId = c2.userId) :
    authenticateToken E st h1 = authenticateToken E st h2 ∧
    adminChain E st h1 = adminChain E st h2 ∧
    (∀ row, st.users.find? (fun u => u.id = c1.userId) = some row →
      pgInt4 row.id = some row.id →
      authenticateToken E st h1 = .next row.toAuthUser ∧
      ((adminChain E st h1).nextCalled = true ↔ row.role = "admin")) ∧
    (st.users.find? (fun u => u.id = c1.userId) = none →
      (adminChain E st h1).nextCalled = false) ∧
    (pgInt4 c1.userId = none →
      authenticateToken E st h1 = .respond (errorResponse 500 "Ошибка авторизации") ∧
      adminChain E st h2 = .respond (errorResponse 500 "Ошибка авторизации")) := by
  have heq : authenticateToken E st h1 = authenticateToken E st h2 := by
    rcases pgInt4_cases c1.userId with hr | hr
    · have e1 := authenticateToken_ok E st h1 t1 c1 ht1 hv1 hr
      have e2 := authenticateToken_ok E st h2 t2 c2 ht2 hv2 (hid ▸ hr)
      rw [← hid] at e2
      rw [e1, e2]
    · rw [authenticateToken_out_of_range E st h1 t1 c1 ht1 hv1 hr,
        authenticateToken_out_of_range E st h2 t2 c2 ht2 hv2 (hid ▸ hr)]
  have hch : adminChain E st h1 = adminChain E st h2 := by unfold adminChain; rw [heq]
  refine ⟨heq, hch, ?_, ?_, ?_⟩
  · intro row hrow hfit
    have hrid : row.id = c1.userId := by
      have := List.find?_some hrow
      simpa using this
    rw [hrid] at hfit
    have e1 := authenticateToken_ok E st h1 t1 c1 ht1 hv1 hfit
    rw [hrow] at e1
    refine ⟨e1, ?_⟩
    unfold adminChain
    rw [e1]
    simp only [requireAdmin, User.toAuthUser]
    by_cases hr : row.role = "admin" <;> simp [hr, MwOut.nextCalled]
  · intro hnone
    unfold adminChain
    rcases pgInt4_cases c1.userId with hr | hr
    · have e1 := authenticateToken_ok E st h1 t1 c1 ht1 hv1 hr
      rw [hnone] at e1
      rw [e1]
      rfl
    · rw [authenticateToken_out_of_range E st h1 t1 c1 ht1 hv1 hr]
      rfl
  · intro hr
    have e1 := authenticateToken_out_of_range E st h1 t1 c1 ht1 hv1 hr
    refine ⟨e1, ?_⟩
    rw [← hch]
    unfold adminChain
    rw [e1]

theorem auth_outcome_from_store_witness :
    authenticateToken sampleEnv sampleStore (some "Bearer tok-user") =
      authenticateToken sampleEnv sampleStore (some "Bearer tok-user-forged") ∧
    adminChain sampleEnv sampleStore (some "Bearer tok-user") =
      adminChain sampleEnv sampleStore (some "Bearer tok-user-forged") ∧
    (∀ row, sampleStore.users.find? (fun u => u.id = 2) = some row →
      pgInt4 row.id = some row.id →
      authenticateToken sampleEnv sampleStore (some "Bearer tok-user") = .next row.toAuthUser ∧
      ((adminChain sampleEnv sampleStore (some "Bearer tok-user")).nextCalled = true ↔
        row.role = "admin")) ∧
    (sampleStore.users.find? (fun u => u.id = 2) = none →
      (adminChain sampleEnv sampleStore (some "Bearer tok-user")).nextCalled = false) ∧
    (pgInt4 2 = none →
      authenticateToken sampleEnv sampleStore (some "Bearer tok-user") =
        .respond (errorResponse 500 "Ошибка авторизации") ∧
      adminChain sampleEnv sampleStore (some "Bearer tok-user-forged") =
        .respond (errorResponse 500 "Ошибка авторизации")) :=
  auth_outcome_from_store sampleEnv sampleStore (some "Bearer tok-user")
    (some "Bearer tok-user-forged") "tok-user" "tok-user-forged"
    { userId := 2, email := "user@test.com", role := "user" }
    { userId := 2, email := "root@test.com", role := "admin" }
    (by decide) (by decide) rfl rfl rfl

theorem selectComplaintOwner_eq_find (st : Store) (id : Int) :
    (selectComplaintOwner st id).head? =
      (st.complaints.find? (fun c => c.id = id)).map (fun c => c.user_id) := by
  unfold selectComplaintOwner
  induction st.complaints with
  | nil => rfl
  | cons c cs ih =>
    by_cases h : c.id = id
    · simp [List.filter_cons, List.find?_cons, h]
    · simp [List.filter_cons, List.find?_cons, h, ih]

theorem requireOwnership_lookup (E : Env) (st : Store) (user : AuthUser) (id : String)
    (n : Int) (hid : E.int4in id = some n) (hrole : user.role ≠ "admin") :
    requireOwnership E st user id =
      match st.complaints.find? (fun c => c.id = n) with
      | none => .respond (errorResponse 404 "Ресурс не найден")
      | some c =>
        if c.user_id ≠ user.id then
          .respond (errorResponse 403 "Нет прав доступа к этому ресурсу")
        else .next user := by
  have hsel := selectComplaintOwner_eq_find st n
  unfold requireOwnership
  simp only [hrole, if_false, hid]
  cases hf : st.complaints.find? (fun c => c.id = n) with
  | none =>
    rw [hf] at hsel
    cases hs : selectComplaintOwner st n with
    | nil => rfl
    | cons a l => rw [hs] at hsel; simp at hsel
  | some c =>
    rw [hf] at hsel
    cases hs : selectComplaintOwner st n with
    | nil => rw [hs] at hsel; simp at hsel
    | cons a l =>
      rw [hs] at hsel
      simp at hsel
      simp [hsel]

theorem find?_none_of_forall_ne (cs : List Complaint) (n : Int)
    (h : ∀ c ∈ cs, c.id ≠ n) : cs.find? (fun c => c.id = n) = none := by
  rw [List.find?_eq_none]
  intro c hc
  simpa using h c hc

/-- C2, as stated, fails: for a requester who is not an admin and the id `abc`,
which the database cannot read as an integer and which no complaint has,
`requireOwnership` responds 500, not 404. -/
theorem requireOwnership_unreadable_id :
    sampleUser.toAuthUser.role ≠ "admin" ∧
    sampleEnv.int4in "abc" = none ∧
    requireOwnership sampleEnv sampleStore sampleUser.toAuthUser "abc" =
      .respond (errorResponse 500 "Ошибка проверки прав доступа") ∧
    requireOwnershipEffects sampleEnv sampleStore sampleUser.toAuthUser "abc" =
      [.send (errorResponse 500 "Ошибка проверки прав доступа")] := by
  decide

/-- C2, amended: with the requester attached, `requireOwnership` proceeds for
an admin; otherwise it responds 500 when the database cannot read the id as an
integer; otherwise, the id being read as `n`, it responds 404 when no
complaint has id `n`; otherwise 403 when the owner of the complaint differs
from the requester; otherwise it proceeds.  In the three failing cases the
response is the only effect: `next()` is not called; and where it proceeds,
`next()` is the only effect. -/
theorem requireOwnership_decision (E : Env) (st : Store) (user : AuthUser) (id : String) :
    (user.role = "admin" →
      requireOwnership E st user id = .next user ∧
      requireOwnershipEffects E st user id = [.next]) ∧
    (user.role ≠ "admin" → E.int4in id = none →
      requireOwnership E st user id =
        .respond (errorResponse 500 "Ошибка проверки прав доступа") ∧
      requireOwnershipEffects E st user id =
        [.send (errorResponse 500 "Ошибка проверки прав доступа")]) ∧
    (user.role ≠ "admin" → ∀ n, E.int4in id = some n → (∀ c ∈ st.complaints, c.id ≠ n) →
      requireOwnership E st user id = .respond (errorResponse 404 "Ресурс не найден") ∧
      requireOwnershipEffects E st user id = [.send (errorResponse 404 "Ресурс не найден")]) ∧
    (user.role ≠ "admin" → ∀ n c, E.int4in id = some n →
      st.complaints.find? (fun c => c.id = n) = some c → c.user_id ≠ user.id →
      requireOwnership E st user id =
        .respond (errorResponse 403 "Нет прав доступа к этому ресурсу") ∧
      requireOwnershipEffects E st user id =
        [.send (errorResponse 403 "Нет прав доступа к этому ресурсу")]) ∧
    (user.role ≠ "admin" → ∀ n c, E.int4in id = some n →
      st.complaints.find? (fun c => c.id = n) = some c → c.user_id = user.id →
      requireOwnership E st user id = .next user ∧
      requireOwnershipEffects E st user id = [.next]) ∧
    (∀ r, MwEffect.send r ∈ requireOwnershipEffects E st user id →
      MwEffect.next ∉ requireOwnershipEffects E st user id) := by
  have heff := requireOwnershipEffects_eq E st user id
  refine ⟨?_, ?_, ?_, ?_, ?_, ?_⟩
  · intro hr
    have : requireOwnership E st user id = .next user := by simp [requireOwnership, hr]
    rw [heff, this]
    exact ⟨rfl, rfl⟩
  · intro hr hid
    have : requireOwnership E st user id =
        .respond (errorResponse 500 "Ошибка проверки прав доступа") := by
      simp [requireOwnership, hr, hid]
    rw [heff, this]
    exact ⟨rfl, rfl⟩
  · intro hr n hid hnone
    have := requireOwnership_lookup E st user id n hid hr
    rw [find?_none_of_forall_ne st.complaints n hnone] at this
    rw [heff, this]
    exact ⟨rfl, rfl⟩
  · intro hr n c hid hc hne
    have := requireOwnership_lookup E st user id n hid hr
    rw [hc] at this
    simp only [hne, ne_eq, not_false_eq_true, if_true] at this
    rw [heff, this]
    exact ⟨rfl, rfl⟩
  · intro hr n c hid hc heq
    have := requireOwnership_lookup E st user id n hid hr
    rw [hc] at this
    simp only [heq, ne_eq, not_true_eq_false, if_false] at this
    rw [heff, this]
    exact ⟨rfl, rfl⟩
  · intro r hs hn
    rw [heff] at hs hn
    cases hm : requireOwnership E st user id with
    | respond r1 => rw [hm] at hn; simp at hn
    | next v => rw [hm] at hs; simp at hs

theorem requireOwnership_decision_witness :
    requireOwnership sampleEnv sampleStore sampleAdmin.toAuthUser "2" =
        .next sampleAdmin.toAuthUser ∧
    requireOwnershipEffects sampleEnv sampleStore sampleUser.toAuthUser "2147483648" =
        [.send (errorResponse 500 "Ошибка проверки прав доступа")] ∧
    requireOwnershipEffects sampleEnv sampleStore sampleUser.toAuthUser "999" =
        [.send (errorResponse 404 "Ресурс не найден")] ∧
    requireOwnershipEffects sampleEnv sampleStore sampleUser.toAuthUser "2" =
        [.send (errorResponse 403 "Нет прав доступа к этому ресурсу")] ∧
    requireOwnershipEffects sampleEnv sampleStore sampleUser.toAuthUser "1" = [.next] :=
  ⟨((requireOwnership_decision sampleEnv sampleStore sampleAdmin.toAuthUser "2").1
      (by decide)).1,
    ((requireOwnership_decision sampleEnv sampleStore sampleUser.toAuthUser
      "2147483648").2.1 (by decide) (by decide)).2,
    ((requireOwnership_decision sampleEnv sampleStore sampleUser.toAuthUser
      "999").2.2.1 (by decide) 999 (by decide) (by decide)).2,
    ((requireOwnership_decision sampleEnv sampleStore sampleUser.toAuthUser
      "2").2.2.2.1 (by decide) 2 sampleComplaint2 (by decide) (by decide) (by decide)).2,
    ((requireOwnership_decision sampleEnv sampleStore sampleUser.toAuthUser
      "1").2.2.2.2.1 (by decide) 1 sampleComplaint1 (by decide) (by decide) (by decide)).2⟩

/-- C3, as stated, fails: for an admin requester and the id 999, which no
complaint of the sample store has, `requireOwnership` sends nothing and calls
`next()`. -/
theorem requireOwnership_admin_missing_id :
    (∀ c ∈ sampleStore.complaints, c.id ≠ 999) ∧
    sampleEnv.int4in "999" = some 999 ∧
    sampleAdmin.toAuthUser.role = "admin" ∧
    (requireOwnership sampleEnv sampleStore sampleAdmin.toAuthUser "999").sent = none ∧
    (requireOwnership sampleEnv sampleStore sampleAdmin.toAuthUser "999").nextCalled = true ∧
    requireOwnershipEffects sampleEnv sampleStore sampleAdmin.toAuthUser "999" = [.next] := by
  decide

/-- C3, amended: for every requester whose role is not `admin`,
`requireOwnership` on an id that the database reads as an integer matching no
complaint responds 404, and on an id that the database cannot read as an
integer it responds 500; in both cases the response is its only effect, so
`next()` is not called.  For a requester whose role is `admin` its only effect
is `next()`, without a lookup, whatever the id. -/
theorem requireOwnership_missing_complaint (E : Env) (st : Store) (user : AuthUser)
    (id : String) :
    (∀ n, E.int4in id = some n → (∀ c ∈ st.complaints, c.id ≠ n) → user.role ≠ "admin" →
      (requireOwnership E st user id).sent = some (errorResponse 404 "Ресурс не найден") ∧
      (requireOwnership E st user id).nextCalled = false ∧
      requireOwnershipEffects E st user id = [.send (errorResponse 404 "Ресурс не найден")]) ∧
    (E.int4in id = none → user.role ≠ "admin" →
      (requireOwnership E st user id).sent =
        some (errorResponse 500 "Ошибка проверки прав доступа") ∧
      (requireOwnership E st user id).nextCalled = false ∧
      requireOwnershipEffects E st user id =
        [.send (errorResponse 500 "Ошибка проверки прав доступа")]) ∧
    (user.role = "admin" →
      (requireOwnership E st user id).sent = none ∧
      (requireOwnership E st user id).nextCalled = true ∧
      requireOwnershipEffects E st user id = [.next]) := by
  have heff := requireOwnershipEffects_eq E st user id
  refine ⟨?_, ?_, ?_⟩
  · intro n hid hnone hr
    have := requireOwnership_lookup E st user id n hid hr
    rw [find?_none_of_forall_ne st.complaints n hnone] at this
    rw [heff, this]
    exact ⟨rfl, rfl, rfl⟩
  · intro hid hr
    have : requireOwnership E st user id =
        .respond (errorResponse 500 "Ошибка проверки прав доступа") := by
      simp [requireOwnership, hr, hid]
    rw [heff, this]
    exact ⟨rfl, rfl, rfl⟩
  · intro hr
    have : requireOwnership E st user id = .next user := by simp [requireOwnership, hr]
    rw [heff, this]
    exact ⟨rfl, rfl, rfl⟩

theorem requireOwnership_missing_complaint_witness :
    ((requireOwnership sampleEnv sampleStore sampleUser.toAuthUser "999").sent =
      some (errorResponse 404 "Ресурс не найден") ∧
    (requireOwnership sampleEnv sampleStore sampleUser.toAuthUser "999").nextCalled = false ∧
    requireOwnershipEffects sampleEnv sampleStore sampleUser.toAuthUser "999" =
      [.send (errorResponse 404 "Ресурс не найден")]) ∧
    ((requireOwnership sampleEnv sampleStore sampleUser.toAuthUser "abc").sent =
      some (errorResponse 500 "Ошибка проверки прав доступа") ∧
    (requireOwnership sampleEnv sampleStore sampleUser.toAuthUser "abc").nextCalled = false ∧
    requireOwnershipEffects sampleEnv sampleStore sampleUser.toAuthUser "abc" =
      [.send (errorResponse 500 "Ошибка проверки прав доступа")]) :=
  ⟨(requireOwnership_missing_complaint sampleEnv sampleStore sampleUser.toAuthUser "999").1
    999 rfl (by decide) (by decide),
   (requireOwnership_missing_complaint sampleEnv sampleStore sampleUser.toAuthUser "abc").2.1
    rfl (by decide)⟩

theorem bearerToken_none_of_no_second_part (h : Option String)
    (hh : h = none ∨ ∃ s, h = some s ∧ (splitSpace s).get? 1 = none) :
    bearerToken h = none := by
  rcases hh with rfl | ⟨s, rfl, hs⟩
  · rfl
  · unfold bearerToken
    by_cases he : s = ""
    · simp [he]
    · have hs1 : (splitSpace s)[1]? = none := by simpa using hs
      simp [he, hs1]

/-- C4, as stated, fails: the token `tok-overflow` verifies and its `userId`
2147483648 matches no stored user, yet `authenticateToken` responds 500, not
401: the id does not fit the `integer` column, the query throws, and the
`catch` answers with `Ошибка авторизации`. -/
theorem authenticateToken_overflow_userId :
    bearerToken (some "Bearer tok-overflow") = some "tok-overflow" ∧
    sampleEnv.jwtVerify "tok-overflow" JWT_SECRET =
      .ok { userId := 2147483648, email := "user@test.com", role := "user" } ∧
    (∀ u ∈ sampleStore.users, u.id ≠ 2147483648) ∧
    authenticateToken sampleEnv sampleStore (some "Bearer tok-overflow") =
      .respond (errorResponse 500 "Ошибка авторизации") ∧
    authenticateTokenEffects sampleEnv sampleStore (some "Bearer tok-overflow") =
      [.send (errorResponse 500 "Ошибка авторизации")] := by
  refine ⟨by decide, rfl, by decide, by decide, by decide⟩

/-- C4, amended: `authenticateToken` responds 401 when the header is absent or
has no second space-separated part, 403 with one message when verification
throws `JsonWebTokenError`, 403 with another message when it throws
`TokenExpiredError`, 500 when it throws anything else or when the token
verifies with a `userId` that does not fit the `integer` column, 401 when the
token verifies with a `userId` that fits the column and no stored user has it;
it calls `next()` with `req.user` the stored row when the token verifies and a
user has that id, and only then.  Its effects are one response and nothing
else, or the assignment of `req.user` followed by `next()` and nothing else: it
never calls `next()` after sending a response. -/
theorem authenticateToken_cases (E : Env) (st : Store) (h : Option String) :
    ((h = none ∨ ∃ s, h = some s ∧ (splitSpace s).get? 1 = none) →
      authenticateToken E st h =
        .respond (errorResponse 401 "Токен доступа не предоставлен")) ∧
    (∀ t, bearerToken h = some t → E.jwtVerify t JWT_SECRET = .error "JsonWebTokenError" →
      authenticateToken E st h = .respond (errorResponse 403 "Недействительный токен")) ∧
    (∀ t, bearerToken h = some t → E.jwtVerify t JWT_SECRET = .error "TokenExpiredError" →
      authenticateToken E st h = .respond (errorResponse 403 "Токен истек")) ∧
    errorResponse 403 "Недействительный токен" ≠ errorResponse 403 "Токен истек" ∧
    (∀ t name, bearerToken h = some t → E.jwtVerify t JWT_SECRET = .error name →
      name ≠ "JsonWebTokenError" → name ≠ "TokenExpiredError" →
      authenticateToken E st h = .respond (errorResponse 500 "Ошибка авторизации")) ∧
    (∀ t c, bearerToken h = some t → E.jwtVerify t JWT_SECRET = .ok c →
      pgInt4 c.userId = none →
      authenticateToken E st h = .respond (errorResponse 500 "Ошибка авторизации")) ∧
    (∀ t c, bearerToken h = some t → E.jwtVerify t JWT_SECRET = .ok c →
      pgInt4 c.userId = some c.userId → (∀ u ∈ st.users, u.id ≠ c.userId) →
      authenticateToken E st h = .respond (errorResponse 401 "Пользователь не найден")) ∧
    (∀ t c row, bearerToken h = some t → E.jwtVerify t JWT_SECRET = .ok c →
      pgInt4 c.userId = some c.userId →
      st.users.find? (fun u => u.id = c.userId) = some row →
      authenticateToken E st h = .next row.toAuthUser) ∧
    (∀ u, authenticateToken E st h = .next u →
      ∃ t c row, bearerToken h = some t ∧ E.jwtVerify t JWT_SECRET = .ok c ∧
        pgInt4 c.userId = some c.userId ∧
        st.users.find? (fun x => x.id = c.userId) = some row ∧ u = row.toAuthUser) ∧
    (∀ r, authenticateToken E st h = .respond r →
      authenticateTokenEffects E st h = [.send r]) ∧
    (∀ u, authenticateToken E st h = .next u →
      authenticateTokenEffects E st h = [.setUser u, .next]) ∧
    (∀ r, MwEffect.send r ∈ authenticateTokenEffects E st h →
      MwEffect.next ∉ authenticateTokenEffects E st h) := by
  have heff := authenticateTokenEffects_eq E st h
  refine ⟨?_, ?_, ?_, by decide, ?_, ?_, ?_, ?_, ?_, ?_, ?_, ?_⟩
  · intro hh
    simp [authenticateToken, bearerToken_none_of_no_second_part h hh]
  · intro t ht hv
    simp [authenticateToken, ht, hv]
  · intro t ht hv
    simp [authenticateToken, ht, hv]
  · intro t name ht hv h1 h2
    simp [authenticateToken, ht, hv, h1, h2]
  · intro t c ht hv hr
    exact authenticateToken_out_of_range E st h t c ht hv hr
  · intro t c ht hv hr hnone
    rw [authenticateToken_ok E st h t c ht hv hr]
    have : st.users.find? (fun u => u.id = c.userId) = none := by
      rw [List.find?_eq_none]
      intro u hu
      simpa using hnone u hu
    rw [this]
  · intro t c row ht hv hr hrow
    rw [authenticateToken_ok E st h t c ht hv hr, hrow]
  · intro u hu
    exact authenticateToken_next_in_range E st h u hu
  · intro r hr
    rw [heff, hr]
  · intro u hu
    rw [heff, hu]
  · intro r hs hn
    rw [heff] at hs hn
    cases hm : authenticateToken E st h with
    | respond r1 => rw [hm] at hn; simp at hn
    | next v => rw [hm] at hs; simp at hs

theorem authenticateToken_cases_witness :
    authenticateToken sampleEnv sampleStore none =
      .respond (errorResponse 401 "Токен доступа не предоставлен") ∧
    authenticateToken sampleEnv sampleStore (some "Bearer") =
      .respond (errorResponse 401 "Токен доступа не предоставлен") ∧
    authenticateToken sampleEnv sampleStore (some "Bearer forged") =
      .respond (errorResponse 403 "Недействительный токен") ∧
    authenticateToken sampleEnv sampleStore (some "Bearer tok-expired") =
      .respond (errorResponse 403 "Токен истек") ∧
    authenticateToken sampleEnv sampleStore (some "Bearer tok-overflow") =
      .respond (errorResponse 500 "Ошибка авторизации") ∧
    authenticateToken sampleEnv sampleStore (some "Bearer tok-gone") =
      .respond (errorResponse 401 "Пользователь не найден") ∧
    authenticateToken sampleEnv sampleStore (some "Bearer tok-user") =
      .next sampleUser.toAuthUser ∧
    authenticateTokenEffects sampleEnv sampleStore (some "Bearer tok-user") =
      [.setUser sampleUser.toAuthUser, .next] :=
  have hu := (authenticateToken_cases sampleEnv sampleStore (some "Bearer tok-user")).2.2.2.2.2.2.2.1
    "tok-user" { userId := 2, email := "user@test.com", role := "user" } sampleUser
    (by decide) rfl (by decide) (by decide)
  ⟨(authenticateToken_cases sampleEnv sampleStore none).1 (Or.inl rfl),
   (authenticateToken_cases sampleEnv sampleStore (some "Bearer")).1
     (Or.inr ⟨"Bearer", rfl, by decide⟩),
   (authenticateToken_cases sampleEnv sampleStore (some "Bearer forged")).2.1
     "forged" (by decide) rfl,
   (authenticateToken_cases sampleEnv sampleStore (some "Bearer tok-expired")).2.2.1
     "tok-expired" (by decide) rfl,
   (authenticateToken_cases sampleEnv sampleStore (some "Bearer tok-overflow")).2.2.2.2.2.1
     "tok-overflow" { userId := 2147483648, email := "user@test.com", role := "user" }
     (by decide) rfl (by decide),
   (authenticateToken_cases sampleEnv sampleStore (some "Bearer tok-gone")).2.2.2.2.2.2.1
     "tok-gone" { userId := 77, email := "gone@test.com", role := "user" }
     (by decide) rfl (by decide) (by decide),
   hu,
   (authenticateToken_cases sampleEnv sampleStore (some "Bearer tok-user")).2.2.2.2.2.2.2.2.2.2.1
     sampleUser.toAuthUser hu⟩

/-! ### Helper lemmas on the route wrappers and the complaint statements -/

theorem withAuth_cases (E : Env) (st : Store) (a : Option String)
    (handler : AuthUser → Store × Response) (P : Store × Response → Prop)
    (hr : ∀ r, authenticateToken E st a = .respond r → P (st, r))
    (hn : ∀ u, authenticateToken E st a = .next u → P (handler u)) :
    P (withAuth E st a handler) := by
  unfold withAuth
  cases h : authenticateToken E st a with
  | respond r => exact hr r h
  | next u => exact hn u h

theorem withAdmin_cases (E : Env) (st : Store) (a : Option String)
    (handler : AuthUser → Store × Response) (P : Store × Response → Prop)
    (hr : ∀ r, adminChain E st a = .respond r → P (st, r))
    (hn : ∀ u, adminChain E st a = .next u → P (handler u)) :
    P (withAdmin E st a handler) := by
  unfold withAdmin
  cases h : adminChain E st a with
  | respond r => exact hr r h
  | next u => exact hn u h

theorem withOwnership_cases (E : Env) (st : Store) (a : Option String) (id : String)
    (handler : AuthUser → Store × Response) (P : Store × Response → Prop)
    (hr : ∀ r, P (st, r))
    (hn : ∀ u v, authenticateToken E st a = .next u → requireOwnership E st u id = .next v →
      P (handler v)) :
    P (withOwnership E st a id handler) := by
  unfold withOwnership
  apply withAuth_cases
  · intro r _; exact hr r
  · intro u hu
    cases h : requireOwnership E st u id with
    | respond r => exact hr r
    | next v => exact hn u v hu h

theorem adminChain_next (E : Env) (st : Store) (a : Option String) (u : AuthUser)
    (h : adminChain E st a = .next u) :
    authenticateToken E st a = .next u ∧ u.role = "admin" := by
  unfold adminChain at h
  cases ha : authenticateToken E st a with
  | respond r => rw [ha] at h; simp at h
  | next v =>
    rw [ha] at h
    unfold requireAdmin at h
    by_cases hr : v.role = "admin"
    · simp [hr] at h
      subst h
      exact ⟨rfl, hr⟩
    · simp [hr] at h

theorem updateComplaintRows_no_match (now : Nat) (k : Int) (set : List ComplaintAssign)
    (cs : List Complaint) (h : ∀ c ∈ cs, c.id ≠ k) :
    updateComplaintRows now k set cs = some cs := by
  induction cs with
  | nil => rfl
  | cons c rest ih =>
    have hc : c.id ≠ k := h c (List.mem_cons_self _ _)
    have hrest := ih (fun d hd => h d (List.mem_cons_of_mem _ hd))
    simp [updateComplaintRows, hrest, hc]

theorem isValidStatus_eq_false (status : JsVal)
    (h : status ≠ .str "pending" ∧ status ≠ .str "in_progress" ∧ status ≠ .str "resolved") :
    status.isValidStatus = false := by
  cases status with
  | str s =>
    obtain ⟨h1, h2, h3⟩ := h
    simp only [ne_eq, JsVal.str.injEq] at h1 h2 h3
    simp [JsVal.isValidStatus, validStatuses, h1, h2, h3]
  | _ => rfl

/-! ### C5: validation of the status route -/

/-- C5, as stated, fails: with the valid status `resolved` and the numeric id
2147483648, which matches no complaint, an admin gets 500, not 404: the
parameter does not fit the `integer` column and the statement fails.  And a
request without a token is answered 401 by the router, whatever its status. -/
theorem patchStatus_overflow_id :
    JsVal.isValidStatus (.str "resolved") = true ∧
    parseInt "2147483648" = some 2147483648 ∧
    (∀ c ∈ sampleStore.complaints, c.id ≠ 2147483648) ∧
    (adminChain sampleEnv sampleStore (some "Bearer tok-admin")).nextCalled = true ∧
    (patchComplaintStatus sampleEnv sampleStore (some "Bearer tok-admin") "2147483648"
      (.str "resolved")).2 = errorResponse 500 "Ошибка при обновлении статуса" ∧
    (patchComplaintStatus sampleEnv sampleStore none "1" (.str "done")).2 =
      errorResponse 401 "Токен доступа не предоставлен" := by
  decide

/-- C5, amended: when the body status is not exactly one of `pending`,
`in_progress`, `resolved` (a missing status included), the status route
leaves the store unchanged and, for a requester who passes the admin chain,
responds 400; with a valid status and a numeric id within the range of the
`integer` column that matches no complaint, it responds 404 and leaves the
store unchanged. -/
theorem patchStatus_validation (E : Env) (st : Store) (a : Option String) (id : String)
    (status : JsVal) :
    ((status ≠ .str "pending" ∧ status ≠ .str "in_progress" ∧ status ≠ .str "resolved") →
      (patchComplaintStatus E st a id status).1 = st ∧
      ((adminChain E st a).nextCalled = true →
        (patchComplaintStatus E st a id status).2 = errorResponse 400
          "Недопустимый статус. Разрешены: pending, in_progress, resolved")) ∧
    ((status = .str "pending" ∨ status = .str "in_progress" ∨ status = .str "resolved") →
      ∀ n, parseInt id = some n → -2147483648 ≤ n → n ≤ 2147483647 →
      (∀ c ∈ st.complaints, c.id ≠ n) →
      (patchComplaintStatus E st a id status).1 = st ∧
      ((adminChain E st a).nextCalled = true →
        (patchComplaintStatus E st a id status).2 = errorResponse 404 "Жалоба не найдена")) := by
  constructor
  · intro hbad
    have hv := isValidStatus_eq_false status hbad
    unfold patchComplaintStatus withAdmin
    cases hc : adminChain E st a with
    | respond r => simp [MwOut.nextCalled]
    | next u => simp [hv]
  · intro hgood n hn hlo hhi hnone
    have hv : status.isValidStatus = true := by
      rcases hgood with rfl | rfl | rfl <;> decide
    have hupd : updateComplaint E st (some n) [.status (status.strOr "")] = some (st, []) := by
      unfold updateComplaint
      simp only [Option.bind, pgInt4, hlo, hhi, and_self, if_true]
      rw [updateComplaintRows_no_match E.now n _ st.complaints hnone]
      have hf : st.complaints.filter (fun c => c.id = n) = [] := by
        rw [List.filter_eq_nil_iff]
        intro c hc
        simpa using hnone c hc
      simp [hf]
    unfold patchComplaintStatus withAdmin
    cases hc : adminChain E st a with
    | respond r => simp [MwOut.nextCalled]
    | next u => simp [hv, hn, hupd]

theorem patchStatus_validation_witness :
    ((patchComplaintStatus sampleEnv sampleStore (some "Bearer tok-admin") "1"
        (.str "done")).1 = sampleStore ∧
      ((adminChain sampleEnv sampleStore (some "Bearer tok-admin")).nextCalled = true →
        (patchComplaintStatus sampleEnv sampleStore (some "Bearer tok-admin") "1"
          (.str "done")).2 = errorResponse 400
          "Недопустимый статус. Разрешены: pending, in_progress, resolved")) ∧
    ((patchComplaintStatus sampleEnv sampleStore (some "Bearer tok-admin") "999"
        (.str "resolved")).1 = sampleStore ∧
      ((adminChain sampleEnv sampleStore (some "Bearer tok-admin")).nextCalled = true →
        (patchComplaintStatus sampleEnv sampleStore (some "Bearer tok-admin") "999"
          (.str "resolved")).2 = errorResponse 404 "Жалоба не найдена")) :=
  ⟨(patchStatus_validation sampleEnv sampleStore (some "Bearer tok-admin") "1"
      (.str "done")).1 (by decide),
   (patchStatus_validation sampleEnv sampleStore (some "Bearer tok-admin") "999"
      (.str "resolved")).2 (by decide) 999 (by decide) (by decide) (by decide) (by decide)⟩

/-! ### Helper lemmas: what each route does to table `complaints` -/

theorem complaintAssign_apply_spec (now : Nat) (c c1 : Complaint) (a : ComplaintAssign)
    (h : a.apply now c = some c1) :
    c1.id = c.id ∧ c1.user_id = c.user_id ∧ c1.location_lat = c.location_lat ∧
      c1.location_lng = c.location_lng ∧ c1.created_at = c.created_at ∧
      ((∀ v, a ≠ .status v) → c1.status = c.status) ∧
      (c.status ∈ validStatuses → c1.status ∈ validStatuses) ∧
      (∀ v, a = .status v → varchar 50 v = some c1.status ∧ c1.status ∈ validStatuses) := by
  cases a with
  | name v =>
    simp only [ComplaintAssign.apply, Option.map_eq_some'] at h
    obtain ⟨x, _, rfl⟩ := h
    simp
  | description v =>
    simp only [ComplaintAssign.apply, Option.some.injEq] at h
    subst h; simp
  | location_address v =>
    simp only [ComplaintAssign.apply, Option.some.injEq] at h
    subst h; simp
  | photo_url v =>
    simp only [ComplaintAssign.apply, Option.some.injEq] at h
    subst h; simp
  | updated_at =>
    simp only [ComplaintAssign.apply, Option.some.injEq] at h
    subst h; simp
  | status v =>
    simp only [ComplaintAssign.apply] at h
    split at h
    · rename_i x hx
      split at h
      · rename_i hc
        simp only [Option.some.injEq] at h
        subst h
        have hmem : x ∈ validStatuses := by simpa using hc
        simp [hmem, hx]
      · simp at h
    · simp at h

theorem applyComplaintAssigns_spec (now : Nat) (set : List ComplaintAssign) :
    ∀ (c c1 : Complaint), applyComplaintAssigns now c set = some c1 →
    c1.id = c.id ∧ c1.user_id = c.user_id ∧ c1.location_lat = c.location_lat ∧
      c1.location_lng = c.location_lng ∧ c1.created_at = c.created_at ∧
      (noStatusAssign set → c1.status = c.status) ∧
      (c.status ∈ validStatuses → c1.status ∈ validStatuses) := by
  induction set with
  | nil =>
    intro c c1 h
    simp only [applyComplaintAssigns, Option.some.injEq] at h
    subst h
    simp
  | cons a rest ih =>
    intro c c1 h
    simp only [applyComplaintAssigns] at h
    split at h
    · rename_i c2 hc2
      obtain ⟨h1, h2, h3, h4, h5, h6, h7, _⟩ := complaintAssign_apply_spec now c c2 a hc2
      obtain ⟨g1, g2, g3, g4, g5, g6, g7⟩ := ih c2 c1 h
      refine ⟨g1.trans h1, g2.trans h2, g3.trans h3, g4.trans h4, g5.trans h5, ?_, ?_⟩
      · intro hno
        have hrest : noStatusAssign rest := fun v hv => hno v (List.mem_cons_of_mem _ hv)
        have ha : ∀ v, a ≠ .status v := fun v hv => hno v (hv ▸ List.mem_cons_self _ _)
        exact (g6 hrest).trans (h6 ha)
      · intro hv
        exact g7 (h7 hv)
    · simp at h

theorem updateComplaintRows_spec (now : Nat) (k : Int) (set : List ComplaintAssign) :
    ∀ (cs cs1 : List Complaint), updateComplaintRows now k set cs = some cs1 →
    List.Forall₂ (fun c c1 => c1 = c ∨ (c.id = k ∧ applyComplaintAssigns now c set = some c1))
      cs cs1 := by
  intro cs
  induction cs with
  | nil =>
    intro cs1 h
    simp only [updateComplaintRows, Option.some.injEq] at h
    subst h
    exact List.Forall₂.nil
  | cons c rest ih =>
    intro cs1 h
    simp only [updateComplaintRows] at h
    split at h
    · simp at h
    · rename_i rest1 hrest
      split at h
      · rename_i hid
        split at h
        · rename_i c1 hc1
          simp only [Option.some.injEq] at h
          subst h
          exact List.Forall₂.cons (Or.inr ⟨hid, hc1⟩) (ih rest1 hrest)
        · simp at h
      · simp only [Option.some.injEq] at h
        subst h
        exact List.Forall₂.cons (Or.inl rfl) (ih rest1 hrest)

theorem postLogin_store (E : Env) (st : Store) (e p : JsVal) : (postLogin E st e p).1 = st := by
  unfold postLogin
  repeat' split
  all_goals rfl

theorem getMe_store (E : Env) (st : Store) (a : Option String) : (getMe E st a).1 = st := by
  unfold getMe withAuth
  repeat' split
  all_goals rfl

theorem getPublicComplaints_store (st : Store) (s l o : Option String) :
    (getPublicComplaints st s l o).1 = st := by
  unfold getPublicComplaints
  repeat' split
  all_goals rfl

theorem getMyComplaints_store (E : Env) (st : Store) (a s l o : Option String) :
    (getMyComplaints E st a s l o).1 = st := by
  unfold getMyComplaints withAuth
  repeat' split
  all_goals rfl

theorem getComplaint_store (st : Store) (id : String) : (getComplaint st id).1 = st := by
  unfold getComplaint
  repeat' split
  all_goals rfl

theorem getAdminComplaints_store (E : Env) (st : Store) (a s l o q : Option String) :
    (getAdminComplaints E st a s l o q).1 = st := by
  unfold getAdminComplaints withAdmin
  repeat' split
  all_goals rfl

theorem getDashboard_store (E : Env) (st : Store) (a : Option String) :
    (getDashboard E st a).1 = st := by
  unfold getDashboard withAdmin
  repeat' split
  all_goals rfl

theorem getAdminUsers_store (E : Env) (st : Store) (a l o q : Option String) :
    (getAdminUsers E st a l o q).1 = st := by
  unfold getAdminUsers withAdmin
  repeat' split
  all_goals rfl

theorem postUpload_store (E : Env) (st : Store) (a : Option String) (t : JsVal)
    (fs : List UploadFile) : (postUpload E st a t fs).1 = st := by
  unfold postUpload withAuth
  repeat' split
  all_goals rfl

theorem postUploadMultiple_store (E : Env) (st : Store) (a : Option String) (t : JsVal)
    (fs : List UploadFile) : (postUploadMultiple E st a t fs).1 = st := by
  unfold postUploadMultiple withAuth
  repeat' split
  all_goals rfl

theorem insertUser_complaints (E : Env) (st : Store) (n e p : String) (ph av : Option String)
    (role : String) :
    (insertUser E st n e p ph av role).1.complaints = st.complaints := by
  unfold insertUser
  repeat' split
  all_goals rfl

theorem updateUser_complaints (E : Env) (st st1 : Store) (id : Int) (set : List UserAssign)
    (rows : List User) (h : updateUser E st id set = some (st1, rows)) :
    st1.complaints = st.complaints := by
  unfold updateUser at h
  split at h
  · simp at h
  · split at h
    · simp at h
    · simp only [Option.some.injEq, Prod.mk.injEq] at h
      rw [← h.1]

theorem postRegister_complaints (E : Env) (st : Store) (n e p ph : JsVal)
    (fs : List UploadFile) :
    (postRegister E st n e p ph fs).1.complaints = st.complaints := by
  unfold postRegister
  repeat' first | split | (dsimp only; split)
  all_goals try rfl
  all_goals
    rename_i h
    have h2 := congrArg (fun p => p.1.complaints) h
    simp only [insertUser_complaints] at h2
    exact h2.symm

theorem putProfile_complaints (E : Env) (st : Store) (a : Option String) (n ph : JsVal)
    (fs : List UploadFile) :
    (putProfile E st a n ph fs).1.complaints = st.complaints := by
  unfold putProfile
  apply withAuth_cases E st a _ (fun p => p.1.complaints = st.complaints)
  · intro r _; rfl
  · intro u _
    repeat' first | split | (dsimp only; split)
    all_goals first
      | rfl
      | (rename_i h; exact updateUser_complaints E st _ _ _ _ h)

theorem postChangePassword_complaints (E : Env) (st : Store) (a : Option String)
    (c n : JsVal) :
    (postChangePassword E st a c n).1.complaints = st.complaints := by
  unfold postChangePassword
  apply withAuth_cases E st a _ (fun p => p.1.complaints = st.complaints)
  · intro r _; rfl
  · intro u _
    repeat' split
    all_goals first
      | rfl
      | (rename_i h; exact updateUser_complaints E st _ _ _ _ h)

theorem insertComplaint_none (E : Env) (st : Store) (uid : Int) (n : String) (la lo : JsNum)
    (a : Option String) (d : String) (p : Option String) (s : String) (st1 : Store)
    (h : insertComplaint E st uid n la lo a d p s = (st1, none)) :
    st1.complaints = st.complaints ∧ st1.users = st.users := by
  unfold insertComplaint at h
  split at h
  · split at h
    · simp at h
    · simp only [Prod.mk.injEq, and_true] at h
      subst h
      exact ⟨rfl, rfl⟩
  · simp only [Prod.mk.injEq, and_true] at h
    subst h
    exact ⟨rfl, rfl⟩

theorem insertComplaint_some (E : Env) (st : Store) (uid : Int) (n : String) (la lo : JsNum)
    (a : Option String) (d : String) (p : Option String) (s : String) (st1 : Store)
    (c : Complaint)
    (h : insertComplaint E st uid n la lo a d p s = (st1, some c)) :
    st1.complaints = st.complaints ++ [c] ∧ st1.users = st.users ∧
      c.id = st.nextComplaintId ∧ c.user_id = uid ∧ c.status ∈ validStatuses ∧
      varchar 50 s = some c.status ∧ (∀ x ∈ st.complaints, x.id ≠ c.id) := by
  unfold insertComplaint at h
  split at h
  · rename_i n1 la1 lo1 s1 hn hla hlo hs
    split at h
    · rename_i hc
      simp only [Prod.mk.injEq, Option.some.injEq] at h
      obtain ⟨h1, h2⟩ := h
      subst h2
      subst h1
      refine ⟨rfl, rfl, rfl, rfl, ?_, hs, ?_⟩
      · simpa using hc.1
      · intro x hx
        have := hc.2.2
        simp only [List.isEmpty_iff, List.filter_eq_nil_iff] at this
        simpa using this x hx
    · simp at h
  · simp at h

theorem postComplaint_change (E : Env) (st : Store) (a : Option String)
    (n d la lo ad : JsVal) (fs : List UploadFile) :
    ComplaintsChange E st (.createComplaint a n d la lo ad fs)
      (postComplaint E st a n d la lo ad fs).1 := by
  unfold postComplaint
  apply withAuth_cases E st a _
    (fun p => ComplaintsChange E st (.createComplaint a n d la lo ad fs) p.1)
  · intro r _; exact .same rfl
  · intro u _
    repeat' first | split | (dsimp only; split)
    all_goals try exact .same rfl
    · rename_i h
      obtain ⟨h1, _, h3, _, _, h6, h7⟩ := insertComplaint_some _ _ _ _ _ _ _ _ _ _ _ _ h
      have hs : (some "pending" : Option String) = some _ := (by decide : varchar 50 "pending" = some "pending").symm.trans h6
      exact .created _ h1 (Option.some.inj hs).symm h3 h7 rfl
    · rename_i h
      exact .same (insertComplaint_none _ _ _ _ _ _ _ _ _ _ _ h).1

theorem trimmedAssign_mem {α : Type} (v : JsVal) (mk : String → α) (l : List α)
    (h : trimmedAssign v mk = some l) : ∀ x ∈ l, ∃ s, x = mk s := by
  unfold trimmedAssign at h
  split at h
  · split at h
    · simp only [Option.some.injEq] at h
      subst h
      intro x hx
      split at hx
      · simp at hx
      · simp only [List.mem_singleton] at hx
        exact ⟨_, hx⟩
    · simp at h
  · simp only [Option.some.injEq] at h
    subst h
    intro x hx
    simp at hx

theorem complaintAssigns_noStatus (n d ad : JsVal) (p : Option String)
    (set : List ComplaintAssign) (h : complaintAssigns n d ad p = some set) :
    noStatusAssign set := by
  unfold complaintAssigns at h
  intro v hv
  split at h
  · rename_i a1 a2 a3 h1 h2 h3
    simp only [Option.some.injEq] at h
    subst h
    simp only [List.mem_append] at hv
    rcases hv with ((hv | hv) | hv) | hv
    · obtain ⟨s, hs⟩ := trimmedAssign_mem _ _ _ h1 _ hv
      cases hs
    · obtain ⟨s, hs⟩ := trimmedAssign_mem _ _ _ h2 _ hv
      cases hs
    · unfold addressAssign at h3
      split at h3
      · simp only [Option.map_eq_some'] at h3
        obtain ⟨x, _, rfl⟩ := h3
        simp at hv
      · simp only [Option.some.injEq] at h3
        subst h3
        simp at hv
    · unfold photoAssign at hv
      split at hv <;> simp at hv
  · simp at h

theorem putComplaint_change (E : Env) (st : Store) (a : Option String) (id : String)
    (n d ad : JsVal) (fs : List UploadFile) :
    ComplaintsChange E st (.updateComplaint a id n d ad fs)
      (putComplaint E st a id n d ad fs).1 := by
  unfold putComplaint
  apply withOwnership_cases E st a id _
    (fun p => ComplaintsChange E st (.updateComplaint a id n d ad fs) p.1)
  · intro r; exact .same rfl
  · intro u v _ _
    repeat' split
    all_goals try exact .same rfl
    rename_i hset _ _ _ hupd
    have hno := complaintAssigns_noStatus n d ad _ _ hset
    unfold updateComplaint at hupd
    split at hupd
    · simp at hupd
    · rename_i k _
      split at hupd
      · simp at hupd
      · rename_i rows hrows
        simp only [Option.some.injEq, Prod.mk.injEq] at hupd
        obtain ⟨h1, _⟩ := hupd
        subst h1
        exact .updated k _ hrows hno rfl

theorem deleteComplaint_spec (st st1 : Store) (id : Option Int) (rows : List Complaint)
    (h : deleteComplaint st id = some (st1, rows)) :
    ∃ k, id = some k ∧ pgInt4 k = some k ∧
      st1 = { st with complaints := st.complaints.filter (fun c => c.id ≠ k) } ∧
      rows = st.complaints.filter (fun c => c.id = k) := by
  unfold deleteComplaint at h
  split at h
  · simp at h
  · rename_i k hk
    simp only [Option.some.injEq, Prod.mk.injEq] at h
    obtain ⟨h1, h2⟩ := h
    cases id with
    | none => simp at hk
    | some m =>
      simp only [Option.bind, pgInt4] at hk
      split at hk
      · simp only [Option.some.injEq] at hk
        subst hk
        refine ⟨m, rfl, ?_, h1.symm, h2.symm⟩
        simp only [pgInt4]
        rw [if_pos (by assumption)]
      · simp at hk

theorem deleteOwnComplaint_change (E : Env) (st : Store) (a : Option String) (id : String) :
    ComplaintsChange E st (.deleteComplaint a id) (deleteOwnComplaint E st a id).1 := by
  unfold deleteOwnComplaint
  apply withOwnership_cases E st a id _
    (fun p => ComplaintsChange E st (.deleteComplaint a id) p.1)
  · intro r; exact .same rfl
  · intro u v _ _
    repeat' split
    all_goals try exact .same rfl
    rename_i h
    obtain ⟨k, _, _, h3, _⟩ := deleteComplaint_spec _ _ _ _ h
    subst h3
    exact .deleted k rfl rfl

theorem deleteAdminComplaint_change (E : Env) (st : Store) (a : Option String) (id : String) :
    ComplaintsChange E st (.adminDeleteComplaint a id) (deleteAdminComplaint E st a id).1 := by
  unfold deleteAdminComplaint
  apply withAdmin_cases E st a _
    (fun p => ComplaintsChange E st (.adminDeleteComplaint a id) p.1)
  · intro r _; exact .same rfl
  · intro u _
    repeat' split
    all_goals try exact .same rfl
    rename_i h
    obtain ⟨k, _, _, h3, _⟩ := deleteComplaint_spec _ _ _ _ h
    subst h3
    exact .deleted k rfl rfl

theorem isValidStatus_true (status : JsVal) (h : status.isValidStatus = true) :
    ∃ s, status = .str s ∧ s ∈ validStatuses := by
  cases status with
  | str s => exact ⟨s, rfl, by simpa [JsVal.isValidStatus] using h⟩
  | _ => simp [JsVal.isValidStatus] at h

theorem patchComplaintStatus_change (E : Env) (st : Store) (a : Option String) (id : String)
    (status : JsVal) :
    ComplaintsChange E st (.adminSetStatus a id status)
      (patchComplaintStatus E st a id status).1 := by
  unfold patchComplaintStatus
  apply withAdmin_cases E st a _
    (fun p => ComplaintsChange E st (.adminSetStatus a id status) p.1)
  · intro r _; exact .same rfl
  · intro u hu
    repeat' split
    all_goals try exact .same rfl
    have hv : ¬(!status.isValidStatus) = true := by assumption
    have hv1 : status.isValidStatus = true := by simpa using hv
    obtain ⟨s, rfl, hs⟩ := isValidStatus_true status hv1
    rename_i hupd
    unfold updateComplaint at hupd
    split at hupd
    · simp at hupd
    · rename_i k _
      split at hupd
      · simp at hupd
      · rename_i rows hrows
        simp only [Option.some.injEq, Prod.mk.injEq] at hupd
        obtain ⟨h1, _⟩ := hupd
        subst h1
        exact .statusSet k s u hrows hs ⟨a, id, rfl⟩ hu

theorem handle_change (E : Env) (st : Store) (r : Request) :
    ComplaintsChange E st r (handle E st r).1 := by
  cases r with
  | register n e p ph fs => exact .same (postRegister_complaints E st n e p ph fs)
  | login e p => exact .same (congrArg Store.complaints (postLogin_store E st e p))
  | me a => exact .same (congrArg Store.complaints (getMe_store E st a))
  | profile a n ph fs => exact .same (putProfile_complaints E st a n ph fs)
  | changePassword a c n => exact .same (postChangePassword_complaints E st a c n)
  | createComplaint a n d la lo ad fs => exact postComplaint_change E st a n d la lo ad fs
  | publicComplaints s l o =>
    exact .same (congrArg Store.complaints (getPublicComplaints_store st s l o))
  | myComplaints a s l o =>
    exact .same (congrArg Store.complaints (getMyComplaints_store E st a s l o))
  | complaint id => exact .same (congrArg Store.complaints (getComplaint_store st id))
  | updateComplaint a id n d ad fs => exact putComplaint_change E st a id n d ad fs
  | deleteComplaint a id => exact deleteOwnComplaint_change E st a id
  | adminComplaints a s l o q =>
    exact .same (congrArg Store.complaints (getAdminComplaints_store E st a s l o q))
  | adminSetStatus a id s => exact patchComplaintStatus_change E st a id s
  | adminDeleteComplaint a id => exact deleteAdminComplaint_change E st a id
  | adminDashboard a => exact .same (congrArg Store.complaints (getDashboard_store E st a))
  | adminUsers a l o q =>
    exact .same (congrArg Store.complaints (getAdminUsers_store E st a l o q))
  | adminOther a m p =>
    refine .same ?_
    simp only [handle]
    unfold withAdmin
    split <;> rfl
  | upload a t fs => exact .same (congrArg Store.complaints (postUpload_store E st a t fs))
  | uploadMultiple a t fs =>
    exact .same (congrArg Store.complaints (postUploadMultiple_store E st a t fs))
  | apiInfo => exact .same rfl
  | health => exact .same rfl
  | other m p => exact .same rfl

theorem forall₂_exists_left {α : Type} (R : α → α → Prop) :
    ∀ (l1 l2 : List α), List.Forall₂ R l1 l2 → ∀ y ∈ l2, ∃ x ∈ l1, R x y := by
  intro l1 l2 h
  induction h with
  | nil => intro y hy; simp at hy
  | cons hxy _ ih =>
    intro y hy
    rcases List.mem_cons.mp hy with rfl | hy
    · exact ⟨_, List.mem_cons_self _ _, hxy⟩
    · obtain ⟨x, hx, hr⟩ := ih y hy
      exact ⟨x, List.mem_cons_of_mem _ hx, hr⟩

theorem varchar50_valid (s : String) (h : s ∈ validStatuses) : varchar 50 s = some s := by
  simp only [validStatuses, List.mem_cons, List.mem_singleton, List.not_mem_nil, or_false] at h
  rcases h with rfl | rfl | rfl <;> decide

theorem statusSet_apply (now : Nat) (c c1 : Complaint) (s : String) (hs : s ∈ validStatuses)
    (h : applyComplaintAssigns now c [.status s, .updated_at] = some c1) :
    c1 = { c with status := s, updated_at := now } := by
  simp only [applyComplaintAssigns, ComplaintAssign.apply, varchar50_valid s hs] at h
  have hc : validStatuses.contains s = true := by simpa using hs
  simp only [hc, if_true, Option.some.injEq] at h
  exact h.symm

theorem noStatusAssign_append_updated (set : List ComplaintAssign) (h : noStatusAssign set) :
    noStatusAssign (set ++ [.updated_at]) := by
  intro v hv
  rcases List.mem_append.mp hv with hv | hv
  · exact h v hv
  · simp at hv

theorem change_statusesValid (E : Env) (st st1 : Store) (r : Request)
    (hc : ComplaintsChange E st r st1) (hv : StatusesValid st) : StatusesValid st1 := by
  intro c1 hc1
  cases hc with
  | same h => rw [h] at hc1; exact hv c1 hc1
  | created c h hs _ _ _ =>
    rw [h] at hc1
    rcases List.mem_append.mp hc1 with hold | hnew
    · exact hv c1 hold
    · simp only [List.mem_singleton] at hnew
      subst hnew
      rw [hs]
      decide
  | deleted k h _ =>
    rw [h] at hc1
    exact hv c1 (List.mem_of_mem_filter hc1)
  | updated k set h _ _ =>
    obtain ⟨c, hcm, hrel⟩ := forall₂_exists_left _ _ _ (updateComplaintRows_spec _ _ _ _ _ h) c1 hc1
    rcases hrel with rfl | ⟨_, happ⟩
    · exact hv _ hcm
    · exact (applyComplaintAssigns_spec _ _ _ _ happ).2.2.2.2.2.2 (hv c hcm)
  | statusSet k s u h _ _ _ =>
    obtain ⟨c, hcm, hrel⟩ := forall₂_exists_left _ _ _ (updateComplaintRows_spec _ _ _ _ _ h) c1 hc1
    rcases hrel with rfl | ⟨_, happ⟩
    · exact hv _ hcm
    · exact (applyComplaintAssigns_spec _ _ _ _ happ).2.2.2.2.2.2 (hv c hcm)

/-! ### C6: the status invariant -/

/-- C6: if every stored complaint has a status among `pending`, `in_progress`,
`resolved` before a request, the same holds after it, whatever the route; a
row that `POST /complaints` adds has status `pending`; a row that the status
route changes carries the requested status, which is one of the three; the
owner update keeps the status of every row and its `SET` list never assigns
`status`. -/
theorem statuses_stay_valid (E : Env) (st : Store) (r : Request) :
    (StatusesValid st → StatusesValid (handle E st r).1) ∧
    (∀ a n d la lo ad fs, ∀ c ∈ (postComplaint E st a n d la lo ad fs).1.complaints,
      c ∈ st.complaints ∨ c.status = "pending") ∧
    (∀ a id status, ∀ c ∈ (patchComplaintStatus E st a id status).1.complaints,
      c ∈ st.complaints ∨ (status = .str c.status ∧ c.status ∈ validStatuses)) ∧
    (∀ a id n d ad fs, List.Forall₂ (fun c c1 => c1.status = c.status) st.complaints
      (putComplaint E st a id n d ad fs).1.complaints) ∧
    (∀ n d ad p set, complaintAssigns n d ad p = some set → noStatusAssign set) := by
  refine ⟨change_statusesValid E st _ r (handle_change E st r), ?_, ?_, ?_, ?_⟩
  · intro a n d la lo ad fs c hc
    have hch := postComplaint_change E st a n d la lo ad fs
    cases hch with
    | same h => rw [h] at hc; exact Or.inl hc
    | created c0 h hs _ _ _ =>
      rw [h] at hc
      rcases List.mem_append.mp hc with hold | hnew
      · exact Or.inl hold
      · simp only [List.mem_singleton] at hnew
        subst hnew
        exact Or.inr hs
    | deleted k h _ => rw [h] at hc; exact Or.inl (List.mem_of_mem_filter hc)
    | updated k set h _ hr => simp [Request.isUpdateComplaint] at hr
    | statusSet k s u h _ hr _ => obtain ⟨_, _, hr⟩ := hr; cases hr
  · intro a id status c hc
    have hch := patchComplaintStatus_change E st a id status
    cases hch with
    | same h => rw [h] at hc; exact Or.inl hc
    | created c0 h hs _ _ hr => simp [Request.isCreateComplaint] at hr
    | deleted k h hr => simp [Request.isDeleteComplaint] at hr
    | updated k set h _ hr => simp [Request.isUpdateComplaint] at hr
    | statusSet k s u h hs hr _ =>
      obtain ⟨_, _, hr⟩ := hr
      cases hr
      obtain ⟨c0, hcm, hrel⟩ :=
        forall₂_exists_left _ _ _ (updateComplaintRows_spec _ _ _ _ _ h) c hc
      rcases hrel with rfl | ⟨_, happ⟩
      · exact Or.inl hcm
      · have := statusSet_apply _ _ _ _ hs happ
        subst this
        exact Or.inr ⟨rfl, hs⟩
  · intro a id n d ad fs
    have hch := putComplaint_change E st a id n d ad fs
    cases hch with
    | same h => rw [h]; exact List.forall₂_same.mpr (fun _ _ => rfl)
    | created c0 h hs _ _ hr => simp [Request.isCreateComplaint] at hr
    | deleted k h hr => simp [Request.isDeleteComplaint] at hr
    | updated k set h hset _ =>
      refine List.Forall₂.imp ?_ (updateComplaintRows_spec _ _ _ _ _ h)
      intro c c1 hrel
      rcases hrel with rfl | ⟨_, happ⟩
      · rfl
      · exact (applyComplaintAssigns_spec _ _ _ _ happ).2.2.2.2.2.1
          (noStatusAssign_append_updated set hset)
    | statusSet k s u h _ hr _ => obtain ⟨_, _, hr⟩ := hr; cases hr
  · intro n d ad p set h
    exact complaintAssigns_noStatus n d ad p set h

theorem sameCore_refl (c : Complaint) : SameCore c c := ⟨rfl, rfl, rfl, rfl, rfl⟩

theorem sameButStatus_refl (c : Complaint) : SameButStatus c c :=
  ⟨rfl, rfl, rfl, rfl, rfl, rfl, rfl, rfl, rfl⟩

theorem adminChain_stored (E : Env) (st : Store) (a : Option String) (u : AuthUser)
    (h : adminChain E st a = .next u) :
    ∃ row ∈ st.users, row.role = "admin" ∧ authenticateToken E st a = .next row.toAuthUser := by
  obtain ⟨hauth, hrole⟩ := adminChain_next E st a u h
  obtain ⟨t, c, row, _, _, hfind, rfl⟩ := authenticateToken_next E st a u hauth
  exact ⟨row, List.mem_of_find?_eq_some hfind, hrole, hauth⟩

/-! ### C7: who can change a status -/

/-- C7: at every step of every request sequence (the store `run st0 pre`
reached by any earlier requests, then the request `r`), each complaint in the
store after the step either agrees with a complaint before the step on `id`,
`user_id`, `status`, `location_lat` and `location_lng`, or is the row just
inserted by `POST /complaints`, or the step is the status route and the
requester passed `authenticateToken` as a stored user whose role is `admin`.
`PUT /complaints/:id` keeps those five columns of every row, for every body;
a route other than the owner update and the status route leaves every row as
it is (rows may be added or deleted); the status route changes nothing but
`status` and `updated_at`. -/
theorem status_changed_only_by_admin (st0 : Store) (pre : List (Env × Request)) (E : Env)
    (r : Request) :
    (∀ c1 ∈ (handle E (run st0 pre) r).1.complaints,
      (∃ c ∈ (run st0 pre).complaints, SameCore c c1) ∨
      (c1.id = (run st0 pre).nextComplaintId ∧ c1.status = "pending" ∧
        r.isCreateComplaint = true ∧ ∀ x ∈ (run st0 pre).complaints, x.id ≠ c1.id) ∨
      (r.isSetStatus = true ∧ ∃ row ∈ (run st0 pre).users, row.role = "admin" ∧
        authenticateToken E (run st0 pre) r.authHeader = .next row.toAuthUser)) ∧
    (r.isUpdateComplaint = true →
      List.Forall₂ SameCore (run st0 pre).complaints (handle E (run st0 pre) r).1.complaints) ∧
    (r.isUpdateComplaint = false → r.isSetStatus = false →
      ∀ c1 ∈ (handle E (run st0 pre) r).1.complaints,
        c1 ∈ (run st0 pre).complaints ∨
          (c1.id = (run st0 pre).nextComplaintId ∧ r.isCreateComplaint = true)) ∧
    (r.isSetStatus = true →
      List.Forall₂ SameButStatus (run st0 pre).complaints
        (handle E (run st0 pre) r).1.complaints) := by
  generalize run st0 pre = st
  have hch := handle_change E st r
  refine ⟨?_, ?_, ?_, ?_⟩
  · intro c1 hc1
    cases hch with
    | same h => rw [h] at hc1; exact Or.inl ⟨c1, hc1, sameCore_refl c1⟩
    | created c h hs hid hfresh hr =>
      rw [h] at hc1
      rcases List.mem_append.mp hc1 with hold | hnew
      · exact Or.inl ⟨c1, hold, sameCore_refl c1⟩
      · simp only [List.mem_singleton] at hnew
        subst hnew
        exact Or.inr (Or.inl ⟨hid, hs, hr, hfresh⟩)
    | deleted k h _ =>
      rw [h] at hc1
      exact Or.inl ⟨c1, List.mem_of_mem_filter hc1, sameCore_refl c1⟩
    | updated k set h hset _ =>
      obtain ⟨c, hcm, hrel⟩ :=
        forall₂_exists_left _ _ _ (updateComplaintRows_spec _ _ _ _ _ h) c1 hc1
      rcases hrel with rfl | ⟨_, happ⟩
      · exact Or.inl ⟨_, hcm, sameCore_refl _⟩
      · obtain ⟨h1, h2, h3, h4, _, h6, _⟩ := applyComplaintAssigns_spec _ _ _ _ happ
        exact Or.inl ⟨c, hcm, h1.symm, h2.symm,
          (h6 (noStatusAssign_append_updated set hset)).symm, h3.symm, h4.symm⟩
    | statusSet k s u h hs hr hu =>
      obtain ⟨a, id, rfl⟩ := hr
      exact Or.inr (Or.inr ⟨rfl, adminChain_stored E st a u hu⟩)
  · intro hr
    cases hch with
    | same h => rw [h]; exact List.forall₂_same.mpr (fun c _ => sameCore_refl c)
    | created c h hs _ _ hr1 =>
      cases r <;> simp [Request.isCreateComplaint, Request.isUpdateComplaint] at hr hr1
    | deleted k h hr1 =>
      cases r <;> simp [Request.isDeleteComplaint, Request.isUpdateComplaint] at hr hr1
    | updated k set h hset _ =>
      refine List.Forall₂.imp ?_ (updateComplaintRows_spec _ _ _ _ _ h)
      intro c c1 hrel
      rcases hrel with rfl | ⟨_, happ⟩
      · exact sameCore_refl _
      · obtain ⟨h1, h2, h3, h4, _, h6, _⟩ := applyComplaintAssigns_spec _ _ _ _ happ
        exact ⟨h1.symm, h2.symm, (h6 (noStatusAssign_append_updated set hset)).symm,
          h3.symm, h4.symm⟩
    | statusSet k s u h _ hr1 _ =>
      obtain ⟨_, _, rfl⟩ := hr1
      simp [Request.isUpdateComplaint] at hr
  · intro hr1 hr2 c1 hc1
    cases hch with
    | same h => rw [h] at hc1; exact Or.inl hc1
    | created c h hs hid hfresh hr =>
      rw [h] at hc1
      rcases List.mem_append.mp hc1 with hold | hnew
      · exact Or.inl hold
      · simp only [List.mem_singleton] at hnew
        subst hnew
        exact Or.inr ⟨hid, hr⟩
    | deleted k h _ =>
      rw [h] at hc1
      exact Or.inl (List.mem_of_mem_filter hc1)
    | updated k set h hset hr => rw [hr1] at hr; cases hr
    | statusSet k s u h _ hr _ =>
      obtain ⟨_, _, rfl⟩ := hr
      simp [Request.isSetStatus] at hr2
  · intro hr
    cases hch with
    | same h => rw [h]; exact List.forall₂_same.mpr (fun c _ => sameButStatus_refl c)
    | created c h hs _ _ hr1 =>
      cases r <;> simp [Request.isCreateComplaint, Request.isSetStatus] at hr hr1
    | deleted k h hr1 =>
      cases r <;> simp [Request.isDeleteComplaint, Request.isSetStatus] at hr hr1
    | updated k set h hset hr1 =>
      cases r <;> simp [Request.isUpdateComplaint, Request.isSetStatus] at hr hr1
    | statusSet k s u h hs _ _ =>
      refine List.Forall₂.imp ?_ (updateComplaintRows_spec _ _ _ _ _ h)
      intro c c1 hrel
      rcases hrel with rfl | ⟨_, happ⟩
      · exact sameButStatus_refl _
      · have := statusSet_apply _ _ _ _ hs happ
        subst this
        exact ⟨rfl, rfl, rfl, rfl, rfl, rfl, rfl, rfl, rfl⟩

/-! ### C8 and C9: listing totals and deletion -/

/-- C8, as stated, fails: on the sample store the public listing filtered by
`status=resolved` returns one row and reports `total` 2, while one stored
complaint matches the filter. -/
theorem listing_total_counts_all_rows :
    (getPublicComplaints sampleStore (some "resolved") none none).2.total? = some 2 ∧
    statusFilter (some "resolved") = some "resolved" ∧
    (sampleStore.complaints.filter (fun c => c.status = "resolved")).length = 1 := by
  decide

/-- C8, amended: whenever a complaint listing responds with a page (limit and
offset parse to counts the database accepts), `pagination.total` of
`GET /complaints/public` and of `GET /admin/complaints` is the number of all
stored complaints, and that of `GET /complaints/my` the number of complaints
owned by the requester, whatever the status and search filters, the limit and
the offset; when the limit or the offset is not accepted (it is not a number,
it is negative, or the double it parses to is beyond the 64-bit range), the
response is 500 and carries no total. -/
theorem listing_total (E : Env) (st : Store) (a status limit offset search : Option String) :
    (∀ l o, pgCount (parseIntOr 100 limit) = some l → pgCount (parseIntOr 0 offset) = some o →
      (getPublicComplaints st status limit offset).2.total? = some st.complaints.length) ∧
    (∀ u l o, authenticateToken E st a = .next u →
      pgCount (parseIntOr 50 limit) = some l → pgCount (parseIntOr 0 offset) = some o →
      (getMyComplaints E st a status limit offset).2.total? =
        some (st.complaints.filter (fun c => c.user_id = u.id)).length) ∧
    (∀ u l o, adminChain E st a = .next u →
      pgCount (parseIntOr 100 limit) = some l → pgCount (parseIntOr 0 offset) = some o →
      (getAdminComplaints E st a status limit offset search).2.total? =
        some st.complaints.length) ∧
    ((pgCount (parseIntOr 100 limit) = none ∨ pgCount (parseIntOr 0 offset) = none) →
      (getPublicComplaints st status limit offset).2 =
        errorResponse 500 "Ошибка при получении жалоб") ∧
    (∀ u, authenticateToken E st a = .next u →
      (pgCount (parseIntOr 50 limit) = none ∨ pgCount (parseIntOr 0 offset) = none) →
      (getMyComplaints E st a status limit offset).2 =
        errorResponse 500 "Ошибка при получении ваших жалоб") ∧
    (∀ u, adminChain E st a = .next u →
      (pgCount (parseIntOr 100 limit) = none ∨ pgCount (parseIntOr 0 offset) = none) →
      (getAdminComplaints E st a status limit offset search).2 =
        errorResponse 500 "Ошибка при получении жалоб") := by
  refine ⟨?_, ?_, ?_, ?_, ?_, ?_⟩
  · intro l o hl ho
    simp [getPublicComplaints, hl, ho, Response.total?, complaintStats]
  · intro u l o hu hl ho
    simp [getMyComplaints, withAuth, hu, hl, ho, Response.total?, complaintStats]
  · intro u l o hu hl ho
    simp [getAdminComplaints, withAdmin, hu, hl, ho, Response.total?, adminStats]
  · intro h
    unfold getPublicComplaints
    rcases h with h | h
    · rw [h]
    · rw [h]
      split <;> simp_all
  · intro u hu h
    unfold getMyComplaints withAuth
    rw [hu]
    dsimp only
    rcases h with h | h
    · rw [h]
    · rw [h]
      split <;> simp_all
  · intro u hu h
    unfold getAdminComplaints withAdmin
    rw [hu]
    dsimp only
    rcases h with h | h
    · rw [h]
    · rw [h]
      split <;> simp_all

theorem listing_total_witness :
    (getPublicComplaints sampleStore (some "resolved") (some "1") (some "0")).2.total? =
      some sampleStore.complaints.length ∧
    (getMyComplaints sampleEnv sampleStore (some "Bearer tok-user") (some "pending") none
        none).2.total? =
      some (sampleStore.complaints.filter (fun c => c.user_id = sampleUser.toAuthUser.id)).length ∧
    (getAdminComplaints sampleEnv sampleStore (some "Bearer tok-admin") (some "resolved")
        (some "10") none (some "хлор")).2.total? = some sampleStore.complaints.length ∧
    parseInt "9223372036854775807" = some 9223372036854775808 ∧
    (getPublicComplaints sampleStore none (some "9223372036854775807") none).2 =
      errorResponse 500 "Ошибка при получении жалоб" ∧
    (getAdminComplaints sampleEnv sampleStore (some "Bearer tok-admin") none none
        (some "-1") none).2 = errorResponse 500 "Ошибка при получении жалоб" :=
  ⟨(listing_total sampleEnv sampleStore none (some "resolved") (some "1") (some "0") none).1
      1 0 (by decide) (by decide),
   (listing_total sampleEnv sampleStore (some "Bearer tok-user") (some "pending") none none
      none).2.1 sampleUser.toAuthUser 50 0 (by decide) (by decide) (by decide),
   (listing_total sampleEnv sampleStore (some "Bearer tok-admin") (some "resolved") (some "10")
      none (some "хлор")).2.2.1 sampleAdmin.toAuthUser 10 0 (by decide) (by decide) (by decide),
   by decide,
   (listing_total sampleEnv sampleStore none none (some "9223372036854775807") none none).2.2.2.1
      (Or.inl (by decide)),
   (listing_total sampleEnv sampleStore (some "Bearer tok-admin") none none (some "-1")
      none).2.2.2.2.2 sampleAdmin.toAuthUser (by decide) (Or.inr (by decide))⟩

/-- C9, at the failing input: an admin deleting the id 999, which no complaint
has, through `DELETE /complaints/:id` gets 200 with the success message and
the store is unchanged; the same request through
`DELETE /admin/complaints/:id` gets 404. -/
theorem deleteOwn_admin_missing_id :
    (∀ c ∈ sampleStore.complaints, c.id ≠ 999) ∧
    parseInt "999" = some 999 ∧
    (requireOwnership sampleEnv sampleStore sampleAdmin.toAuthUser "999").nextCalled = true ∧
    deleteOwnComplaint sampleEnv sampleStore (some "Bearer tok-admin") "999" =
      (sampleStore, { status := 200, body := .ok "Жалоба успешно удалена" }) ∧
    deleteAdminComplaint sampleEnv sampleStore (some "Bearer tok-admin") "999" =
      (sampleStore, errorResponse 404 "Жалоба не найдена") := by
  decide

/-! ### Deletion where the id is in range -/

/-- For a numeric id `n` within the range of the `integer` column:
`DELETE /admin/complaints/:id` by a requester who passes the admin chain
responds 404 and leaves the store as it is when no complaint has id `n`, and
otherwise removes exactly the complaints with id `n` and responds 200;
`DELETE /complaints/:id` by a requester who passes `authenticateToken` and
`requireOwnership` removes exactly the complaints with id `n` and responds
200, also when there is none. -/
theorem delete_in_range (E : Env) (st : Store) (a : Option String) (id : String) (n : Int)
    (hn : parseInt id = some n) (hlo : -2147483648 ≤ n) (hhi : n ≤ 2147483647) :
    (∀ u, adminChain E st a = .next u → (∀ c ∈ st.complaints, c.id ≠ n) →
      deleteAdminComplaint E st a id = (st, errorResponse 404 "Жалоба не найдена")) ∧
    (∀ u, adminChain E st a = .next u → (∃ c ∈ st.complaints, c.id = n) →
      deleteAdminComplaint E st a id =
        ({ st with complaints := st.complaints.filter (fun c => c.id ≠ n) },
          { status := 200, body := .ok "Жалоба успешно удалена" })) ∧
    (∀ u v, authenticateToken E st a = .next u → requireOwnership E st u id = .next v →
      deleteOwnComplaint E st a id =
        ({ st with complaints := st.complaints.filter (fun c => c.id ≠ n) },
          { status := 200, body := .ok "Жалоба успешно удалена" })) := by
  have hdel : deleteComplaint st (some n) =
      some ({ st with complaints := st.complaints.filter (fun c => c.id ≠ n) },
        st.complaints.filter (fun c => c.id = n)) := by
    simp [deleteComplaint, Option.bind, pgInt4, hlo, hhi]
  refine ⟨?_, ?_, ?_⟩
  · intro u hu hnone
    have hf : st.complaints.filter (fun c => c.id = n) = [] := by
      rw [List.filter_eq_nil_iff]
      intro c hc
      simpa using hnone c hc
    simp [deleteAdminComplaint, withAdmin, hu, hn, hdel, hf]
  · intro u hu hsome
    obtain ⟨c, hc, hcn⟩ := hsome
    have hmem : c ∈ st.complaints.filter (fun c => c.id = n) :=
      List.mem_filter.mpr ⟨hc, by simpa using hcn⟩
    cases hf : st.complaints.filter (fun c => c.id = n) with
    | nil => rw [hf] at hmem; simp at hmem
    | cons c1 rest => simp [deleteAdminComplaint, withAdmin, hu, hn, hdel, hf]
  · intro u v hu hv
    simp [deleteOwnComplaint, withOwnership, withAuth, hu, hv, hn, hdel]

theorem delete_in_range_witness :
    deleteAdminComplaint sampleEnv sampleStore (some "Bearer tok-admin") "1" =
      ({ sampleStore with complaints := sampleStore.complaints.filter (fun c => c.id ≠ 1) },
        { status := 200, body := .ok "Жалоба успешно удалена" }) ∧
    deleteOwnComplaint sampleEnv sampleStore (some "Bearer tok-user") "1" =
      ({ sampleStore with complaints := sampleStore.complaints.filter (fun c => c.id ≠ 1) },
        { status := 200, body := .ok "Жалоба успешно удалена" }) :=
  ⟨(delete_in_range sampleEnv sampleStore (some "Bearer tok-admin") "1" 1 (by decide)
      (by decide) (by decide)).2.1 sampleAdmin.toAuthUser (by decide) ⟨sampleComplaint1, by decide, rfl⟩,
   (delete_in_range sampleEnv sampleStore (some "Bearer tok-user") "1" 1 (by decide)
      (by decide) (by decide)).2.2 sampleUser.toAuthUser sampleUser.toAuthUser (by decide)
      (by decide)⟩

/-! ### Helper lemmas: what each route does to table `users` -/

theorem insertComplaint_users (E : Env) (st : Store) (uid : Int) (n : String) (la lo : JsNum)
    (a : Option String) (d : String) (p : Option String) (s : String) :
    (insertComplaint E st uid n la lo a d p s).1.users = st.users ∧
      (insertComplaint E st uid n la lo a d p s).1.nextUserId = st.nextUserId := by
  unfold insertComplaint
  repeat' split
  all_goals exact ⟨rfl, rfl⟩

theorem insertComplaint_users_of (E : Env) (st : Store) (uid : Int) (n : String)
    (la lo : JsNum) (a : Option String) (d : String) (p : Option String) (s : String)
    (st1 : Store) (oc : Option Complaint)
    (h : insertComplaint E st uid n la lo a d p s = (st1, oc)) :
    st1.users = st.users ∧ st1.nextUserId = st.nextUserId := by
  have h2 := insertComplaint_users E st uid n la lo a d p s
  rw [h] at h2
  exact h2

theorem updateComplaint_users (E : Env) (st st1 : Store) (id : Option Int)
    (set : List ComplaintAssign) (rows : List Complaint)
    (h : updateComplaint E st id set = some (st1, rows)) :
    st1.users = st.users ∧ st1.nextUserId = st.nextUserId := by
  unfold updateComplaint at h
  split at h
  · simp at h
  · split at h
    · simp at h
    · simp only [Option.some.injEq, Prod.mk.injEq] at h
      rw [← h.1]
      exact ⟨rfl, rfl⟩

theorem deleteComplaint_users (st st1 : Store) (id : Option Int) (rows : List Complaint)
    (h : deleteComplaint st id = some (st1, rows)) :
    st1.users = st.users ∧ st1.nextUserId = st.nextUserId := by
  obtain ⟨k, _, _, h3, _⟩ := deleteComplaint_spec _ _ _ _ h
  subst h3
  exact ⟨rfl, rfl⟩

theorem postComplaint_users (E : Env) (st : Store) (a : Option String)
    (n d la lo ad : JsVal) (fs : List UploadFile) :
    (postComplaint E st a n d la lo ad fs).1.users = st.users ∧
      (postComplaint E st a n d la lo ad fs).1.nextUserId = st.nextUserId := by
  unfold postComplaint
  apply withAuth_cases E st a _
    (fun p => p.1.users = st.users ∧ p.1.nextUserId = st.nextUserId)
  · intro r _; exact ⟨rfl, rfl⟩
  · intro u _
    repeat' first | split | (dsimp only; split)
    all_goals try exact ⟨rfl, rfl⟩
    all_goals
      rename_i h
      exact insertComplaint_users_of _ _ _ _ _ _ _ _ _ _ _ _ h

theorem putComplaint_users (E : Env) (st : Store) (a : Option String) (id : String)
    (n d ad : JsVal) (fs : List UploadFile) :
    (putComplaint E st a id n d ad fs).1.users = st.users ∧
      (putComplaint E st a id n d ad fs).1.nextUserId = st.nextUserId := by
  unfold putComplaint
  apply withOwnership_cases E st a id _
    (fun p => p.1.users = st.users ∧ p.1.nextUserId = st.nextUserId)
  · intro r; exact ⟨rfl, rfl⟩
  · intro u v _ _
    repeat' split
    all_goals try exact ⟨rfl, rfl⟩
    rename_i h
    exact updateComplaint_users _ _ _ _ _ _ h

theorem deleteOwnComplaint_users (E : Env) (st : Store) (a : Option String) (id : String) :
    (deleteOwnComplaint E st a id).1.users = st.users ∧
      (deleteOwnComplaint E st a id).1.nextUserId = st.nextUserId := by
  unfold deleteOwnComplaint
  apply withOwnership_cases E st a id _
    (fun p => p.1.users = st.users ∧ p.1.nextUserId = st.nextUserId)
  · intro r; exact ⟨rfl, rfl⟩
  · intro u v _ _
    repeat' split
    all_goals try exact ⟨rfl, rfl⟩
    rename_i h
    exact deleteComplaint_users _ _ _ _ h

theorem deleteAdminComplaint_users (E : Env) (st : Store) (a : Option String) (id : String) :
    (deleteAdminComplaint E st a id).1.users = st.users ∧
      (deleteAdminComplaint E st a id).1.nextUserId = st.nextUserId := by
  unfold deleteAdminComplaint
  apply withAdmin_cases E st a _
    (fun p => p.1.users = st.users ∧ p.1.nextUserId = st.nextUserId)
  · intro r _; exact ⟨rfl, rfl⟩
  · intro u _
    repeat' split
    all_goals try exact ⟨rfl, rfl⟩
    rename_i h
    exact deleteComplaint_users _ _ _ _ h

theorem patchComplaintStatus_users (E : Env) (st : Store) (a : Option String) (id : String)
    (status : JsVal) :
    (patchComplaintStatus E st a id status).1.users = st.users ∧
      (patchComplaintStatus E st a id status).1.nextUserId = st.nextUserId := by
  unfold patchComplaintStatus
  apply withAdmin_cases E st a _
    (fun p => p.1.users = st.users ∧ p.1.nextUserId = st.nextUserId)
  · intro r _; exact ⟨rfl, rfl⟩
  · intro u _
    repeat' split
    all_goals try exact ⟨rfl, rfl⟩
    rename_i h
    exact updateComplaint_users _ _ _ _ _ _ h

theorem userAssign_apply_spec (now : Nat) (u u1 : User) (a : UserAssign)
    (h : a.apply now u = some u1) : SameIdentity u u1 := by
  cases a with
  | name v =>
    simp only [UserAssign.apply, Option.map_eq_some'] at h
    obtain ⟨x, _, rfl⟩ := h
    exact ⟨rfl, rfl, rfl⟩
  | phone v =>
    simp only [UserAssign.apply, Option.map_eq_some'] at h
    obtain ⟨x, _, rfl⟩ := h
    exact ⟨rfl, rfl, rfl⟩
  | avatar_url v =>
    simp only [UserAssign.apply, Option.some.injEq] at h
    subst h; exact ⟨rfl, rfl, rfl⟩
  | password v =>
    simp only [UserAssign.apply, Option.map_eq_some'] at h
    obtain ⟨x, _, rfl⟩ := h
    exact ⟨rfl, rfl, rfl⟩
  | updated_at =>
    simp only [UserAssign.apply, Option.some.injEq] at h
    subst h; exact ⟨rfl, rfl, rfl⟩

theorem applyUserAssigns_spec (now : Nat) (set : List UserAssign) :
    ∀ (u u1 : User), applyUserAssigns now u set = some u1 → SameIdentity u u1 := by
  induction set with
  | nil =>
    intro u u1 h
    simp only [applyUserAssigns, Option.some.injEq] at h
    subst h
    exact ⟨rfl, rfl, rfl⟩
  | cons a rest ih =>
    intro u u1 h
    simp only [applyUserAssigns] at h
    split at h
    · rename_i u2 hu2
      obtain ⟨h1, h2, h3⟩ := userAssign_apply_spec now u u2 a hu2
      obtain ⟨g1, g2, g3⟩ := ih u2 u1 h
      exact ⟨h1.trans g1, h2.trans g2, h3.trans g3⟩
    · simp at h

theorem updateUserRows_spec (now : Nat) (k : Int) (set : List UserAssign) :
    ∀ (us us1 : List User), updateUserRows now k set us = some us1 →
    List.Forall₂ SameIdentity us us1 := by
  intro us
  induction us with
  | nil =>
    intro us1 h
    simp only [updateUserRows, Option.some.injEq] at h
    subst h
    exact List.Forall₂.nil
  | cons u rest ih =>
    intro us1 h
    simp only [updateUserRows] at h
    split at h
    · simp at h
    · rename_i rest1 hrest
      split at h
      · split at h
        · rename_i u1 hu1
          simp only [Option.some.injEq] at h
          subst h
          exact List.Forall₂.cons (applyUserAssigns_spec _ _ _ _ hu1) (ih rest1 hrest)
        · simp at h
      · simp only [Option.some.injEq] at h
        subst h
        exact List.Forall₂.cons ⟨rfl, rfl, rfl⟩ (ih rest1 hrest)

theorem updateUser_spec (E : Env) (st st1 : Store) (id : Int) (set : List UserAssign)
    (rows : List User) (h : updateUser E st id set = some (st1, rows)) :
    List.Forall₂ SameIdentity st.users st1.users ∧ st1.nextUserId = st.nextUserId := by
  unfold updateUser at h
  split at h
  · simp at h
  · split at h
    · simp at h
    · rename_i rows1 hrows
      simp only [Option.some.injEq, Prod.mk.injEq] at h
      rw [← h.1]
      exact ⟨updateUserRows_spec _ _ _ _ _ hrows, rfl⟩

theorem sameIdentity_canonical (lower : String → String) (st st1 : Store)
    (hf : List.Forall₂ SameIdentity st.users st1.users) (hn : st1.nextUserId = st.nextUserId)
    (h : EmailsCanonical lower st) : EmailsCanonical lower st1 := by
  obtain ⟨h1, h2, h3⟩ := h
  have hmap : st1.users.map (fun u => u.email) = st.users.map (fun u => u.email) := by
    generalize st.users = l1 at hf
    generalize st1.users = l2 at hf
    induction hf with
    | nil => rfl
    | cons hxy _ ih => simp [List.map_cons, ih, hxy.2.1]
  refine ⟨?_, ?_, ?_⟩
  · intro u1 hu1
    obtain ⟨u, hu, hs⟩ := forall₂_exists_left _ _ _ hf u1 hu1
    rw [← hs.2.1]
    exact h1 u hu
  · rw [hmap]; exact h2
  · intro u1 hu1
    obtain ⟨u, hu, hs⟩ := forall₂_exists_left _ _ _ hf u1 hu1
    rw [hn, ← hs.1]
    exact h3 u hu

theorem sameUsers_canonical (lower : String → String) (st st1 : Store)
    (hu : st1.users = st.users) (hn : st.nextUserId ≤ st1.nextUserId)
    (h : EmailsCanonical lower st) : EmailsCanonical lower st1 := by
  obtain ⟨h1, h2, h3⟩ := h
  refine ⟨?_, ?_, ?_⟩
  · rw [hu]; exact h1
  · rw [hu]; exact h2
  · rw [hu]; intro u hu1; exact lt_of_lt_of_le (h3 u hu1) hn

theorem varchar_of_no_space (n : Nat) (s t : String)
    (hs : ∀ c ∈ s.toList, c.toNat ≠ 32) (h : varchar n s = some t) : t = s := by
  unfold varchar at h
  split at h
  · simp only [Option.some.injEq] at h
    exact h.symm
  · rename_i hlen
    split at h
    · rename_i hall
      exfalso
      have hlen2 : n < s.toList.length := by
        have : s.length = s.toList.length := rfl
        omega
      have hne : s.toList.drop n ≠ [] := by
        intro hnil
        have := List.drop_eq_nil_iff.mp hnil
        omega
      obtain ⟨c, rest, hcr⟩ := List.exists_cons_of_ne_nil hne
      have hc : c ∈ s.toList := List.mem_of_mem_drop (by rw [hcr]; exact List.mem_cons_self _ _)
      rw [hcr] at hall
      simp only [List.all_cons, Bool.and_eq_true, decide_eq_true_eq] at hall
      exact hs c hc hall.1
    · simp at h

theorem varchar_of_le (n : Nat) (s : String) (h : s.length ≤ n) : varchar n s = some s := by
  simp [varchar, h]

theorem emailChar_not_space (c : Char) (h : emailChar c = true) : c.toNat ≠ 32 := by
  intro h32
  simp [emailChar, isJsWhiteSpace, h32] at h

theorem emailRegexTest_no_space (s : String) (h : emailRegexTest s = true) :
    ∀ c ∈ s.toList, c.toNat ≠ 32 := by
  intro c hc
  unfold emailRegexTest at h
  dsimp only at h
  rw [← List.takeWhile_append_dropWhile emailChar s.toList] at hc
  rcases List.mem_append.mp hc with hc | hc
  · exact emailChar_not_space c (List.mem_takeWhile_imp hc)
  · cases hd : s.toList.dropWhile emailChar with
    | nil => rw [hd] at h; simp at h
    | cons c0 domain =>
      rw [hd] at h hc
      simp only [Bool.and_eq_true, decide_eq_true_eq] at h
      rcases List.mem_cons.mp hc with rfl | hc
      · rw [h.1.1.2]; decide
      · exact emailChar_not_space c (List.all_eq_true.mp h.1.2 c hc)

theorem insertUser_none (E : Env) (st st1 : Store) (n e p : String) (ph av : Option String)
    (role : String) (h : insertUser E st n e p ph av role = (st1, none)) :
    st1.users = st.users ∧ st1.nextUserId = st.nextUserId + 1 := by
  unfold insertUser at h
  split at h
  · split at h
    · simp at h
    · simp only [Prod.mk.injEq, and_true] at h
      subst h
      exact ⟨rfl, rfl⟩
  · simp only [Prod.mk.injEq, and_true] at h
    subst h
    exact ⟨rfl, rfl⟩

theorem insertUser_some (E : Env) (st st1 : Store) (n e p : String) (ph av : Option String)
    (role : String) (u : User) (h : insertUser E st n e p ph av role = (st1, some u)) :
    st1 = { st with users := st.users ++ [u], nextUserId := st.nextUserId + 1 } ∧
      u.id = st.nextUserId ∧ varchar 255 e = some u.email ∧ varchar 255 n = some u.name ∧
      u.role = role ∧ (∀ x ∈ st.users, x.email ≠ u.email) := by
  unfold insertUser at h
  split at h
  · rename_i n1 e1 p1 ph1 hn he hp hph
    split at h
    · rename_i hc
      simp only [Prod.mk.injEq, Option.some.injEq] at h
      obtain ⟨h1, h2⟩ := h
      subst h2
      subst h1
      refine ⟨rfl, rfl, he, hn, rfl, ?_⟩
      intro x hx
      have := hc.2.1
      simp only [selectUserByEmail, List.isEmpty_iff, List.filter_eq_nil_iff] at this
      simpa using this x hx
    · simp at h
  · simp at h

theorem postRegister_users (E : Env) (st : Store) (n e p ph : JsVal) (fs : List UploadFile) :
    ((postRegister E st n e p ph fs).1.users = st.users ∧
      st.nextUserId ≤ (postRegister E st n e p ph fs).1.nextUserId) ∨
    (∃ u es, e = .str es ∧ emailRegexTest es = true ∧
      (postRegister E st n e p ph fs).1.users = st.users ++ [u] ∧
      (postRegister E st n e p ph fs).1.nextUserId = st.nextUserId + 1 ∧
      u.id = st.nextUserId ∧ varchar 255 (E.toLowerCase es) = some u.email ∧
      u.role = "user" ∧ (∀ x ∈ st.users, x.email ≠ u.email)) := by
  unfold postRegister
  repeat' first | split | (dsimp only; split)
  all_goals try exact Or.inl ⟨rfl, le_refl _⟩
  · rename_i hemail _ _ _ _ _ _ h
    obtain ⟨h1, h2, h3, _, h5, h6⟩ := insertUser_some _ _ _ _ _ _ _ _ _ _ h
    subst h1
    refine Or.inr ⟨_, _, rfl, ?_, rfl, rfl, h2, h3, h5, h6⟩
    simpa [JsVal.emailTest] using hemail
  · rename_i h
    obtain ⟨h1, h2⟩ := insertUser_none _ _ _ _ _ _ _ _ _ h
    refine Or.inl ⟨h1, ?_⟩
    show st.nextUserId ≤ _
    rw [h2]
    omega

theorem postRegister_canonical (lower : String → String)
    (hidem : ∀ s, lower (lower s) = lower s)
    (hsp : ∀ s, (∀ c ∈ s.toList, c.toNat ≠ 32) → ∀ c ∈ (lower s).toList, c.toNat ≠ 32)
    (E : Env) (hE : E.toLowerCase = lower) (st : Store) (n e p ph : JsVal)
    (fs : List UploadFile) (h : EmailsCanonical lower st) :
    EmailsCanonical lower (postRegister E st n e p ph fs).1 := by
  rcases postRegister_users E st n e p ph fs with ⟨hu, hn⟩ | ⟨u, es, _, hre, hu, hn, hid, hv, _, hfresh⟩
  · exact sameUsers_canonical lower st _ hu hn h
  · obtain ⟨h1, h2, h3⟩ := h
    rw [hE] at hv
    have hmail : u.email = lower es := varchar_of_no_space 255 _ _ (hsp es (emailRegexTest_no_space es hre)) hv
    refine ⟨?_, ?_, ?_⟩
    · intro x hx
      rw [hu] at hx
      rcases List.mem_append.mp hx with hx | hx
      · exact h1 x hx
      · simp only [List.mem_singleton] at hx
        subst hx
        rw [hmail, hidem]
    · rw [hu, List.map_append, List.nodup_append]
      refine ⟨h2, by simp, ?_⟩
      intro a ha hb
      simp only [List.map_cons, List.map_nil, List.mem_singleton] at hb
      obtain ⟨x, hx, rfl⟩ := List.mem_map.mp ha
      exact hfresh x hx hb
    · intro x hx
      rw [hu] at hx
      rw [hn]
      rcases List.mem_append.mp hx with hx | hx
      · have := h3 x hx
        omega
      · simp only [List.mem_singleton] at hx
        subst hx
        omega

theorem putProfile_canonical (lower : String → String) (E : Env) (st : Store)
    (a : Option String) (n ph : JsVal) (fs : List UploadFile) (h : EmailsCanonical lower st) :
    EmailsCanonical lower (putProfile E st a n ph fs).1 := by
  unfold putProfile
  apply withAuth_cases E st a _ (fun p => EmailsCanonical lower p.1)
  · intro r _; exact h
  · intro u _
    repeat' first | split | (dsimp only; split)
    all_goals try exact h
    rename_i hupd
    obtain ⟨hf, hn⟩ := updateUser_spec _ _ _ _ _ _ hupd
    exact sameIdentity_canonical lower st _ hf hn h

theorem postChangePassword_canonical (lower : String → String) (E : Env) (st : Store)
    (a : Option String) (c n : JsVal) (h : EmailsCanonical lower st) :
    EmailsCanonical lower (postChangePassword E st a c n).1 := by
  unfold postChangePassword
  apply withAuth_cases E st a _ (fun p => EmailsCanonical lower p.1)
  · intro r _; exact h
  · intro u _
    repeat' split
    all_goals try exact h
    rename_i hupd
    obtain ⟨hf, hn⟩ := updateUser_spec _ _ _ _ _ _ hupd
    exact sameIdentity_canonical lower st _ hf hn h

theorem canonical_of_store_eq (lower : String → String) (st st1 : Store) (he : st1 = st)
    (h : EmailsCanonical lower st) : EmailsCanonical lower st1 := by
  rw [he]; exact h

theorem canonical_of_users_eq (lower : String → String) (st st1 : Store)
    (he : st1.users = st.users ∧ st1.nextUserId = st.nextUserId)
    (h : EmailsCanonical lower st) : EmailsCanonical lower st1 :=
  sameUsers_canonical lower st st1 he.1 (le_of_eq he.2.symm) h

theorem handle_canonical (lower : String → String)
    (hidem : ∀ s, lower (lower s) = lower s)
    (hsp : ∀ s, (∀ c ∈ s.toList, c.toNat ≠ 32) → ∀ c ∈ (lower s).toList, c.toNat ≠ 32)
    (E : Env) (hE : E.toLowerCase = lower) (st : Store) (r : Request)
    (h : EmailsCanonical lower st) : EmailsCanonical lower (handle E st r).1 := by
  cases r with
  | register n e p ph fs => exact postRegister_canonical lower hidem hsp E hE st n e p ph fs h
  | login e p => exact canonical_of_store_eq lower st _ (postLogin_store E st e p) h
  | me a => exact canonical_of_store_eq lower st _ (getMe_store E st a) h
  | profile a n ph fs => exact putProfile_canonical lower E st a n ph fs h
  | changePassword a c n => exact postChangePassword_canonical lower E st a c n h
  | createComplaint a n d la lo ad fs =>
    exact canonical_of_users_eq lower st _ (postComplaint_users E st a n d la lo ad fs) h
  | publicComplaints s l o =>
    exact canonical_of_store_eq lower st _ (getPublicComplaints_store st s l o) h
  | myComplaints a s l o =>
    exact canonical_of_store_eq lower st _ (getMyComplaints_store E st a s l o) h
  | complaint id => exact canonical_of_store_eq lower st _ (getComplaint_store st id) h
  | updateComplaint a id n d ad fs =>
    exact canonical_of_users_eq lower st _ (putComplaint_users E st a id n d ad fs) h
  | deleteComplaint a id =>
    exact canonical_of_users_eq lower st _ (deleteOwnComplaint_users E st a id) h
  | adminComplaints a s l o q =>
    exact canonical_of_store_eq lower st _ (getAdminComplaints_store E st a s l o q) h
  | adminSetStatus a id s =>
    exact canonical_of_users_eq lower st _ (patchComplaintStatus_users E st a id s) h
  | adminDeleteComplaint a id =>
    exact canonical_of_users_eq lower st _ (deleteAdminComplaint_users E st a id) h
  | adminDashboard a => exact canonical_of_store_eq lower st _ (getDashboard_store E st a) h
  | adminUsers a l o q =>
    exact canonical_of_store_eq lower st _ (getAdminUsers_store E st a l o q) h
  | adminOther a m p =>
    refine canonical_of_store_eq lower st _ ?_ h
    simp only [handle]
    unfold withAdmin
    split <;> rfl
  | upload a t fs => exact canonical_of_store_eq lower st _ (postUpload_store E st a t fs) h
  | uploadMultiple a t fs =>
    exact canonical_of_store_eq lower st _ (postUploadMultiple_store E st a t fs) h
  | apiInfo => exact h
  | health => exact h
  | other m p => exact h

theorem run_canonical (lower : String → String)
    (hidem : ∀ s, lower (lower s) = lower s)
    (hsp : ∀ s, (∀ c ∈ s.toList, c.toNat ≠ 32) → ∀ c ∈ (lower s).toList, c.toNat ≠ 32)
    (pre : List (Env × Request)) :
    ∀ (st : Store), (∀ p ∈ pre, p.1.toLowerCase = lower) → EmailsCanonical lower st →
      EmailsCanonical lower (run st pre) := by
  induction pre with
  | nil => intro st _ h; exact h
  | cons p rest ih =>
    intro st hp h
    obtain ⟨E, r⟩ := p
    simp only [run]
    apply ih
    · intro q hq; exact hp q (List.mem_cons_of_mem _ hq)
    · exact handle_canonical lower hidem hsp E (hp (E, r) (List.mem_cons_self _ _)) st r h

theorem varcharNull_of_le (n : Nat) (o : Option String)
    (h : ∀ s, o = some s → s.length ≤ n) : varcharNull n o = some o := by
  cases o with
  | none => rfl
  | some s => simp [varcharNull, varchar_of_le n s (h s rfl)]

theorem selectUserByEmail_nil (st : Store) (e : String) (h : ∀ u ∈ st.users, u.email ≠ e) :
    selectUserByEmail st e = [] := by
  unfold selectUserByEmail
  rw [List.filter_eq_nil_iff]
  intro u hu
  simpa using h u hu

theorem selectUserById_nil (st : Store) (h : ∀ u ∈ st.users, u.id < st.nextUserId) :
    selectUserById st st.nextUserId = [] := by
  unfold selectUserById
  rw [List.filter_eq_nil_iff]
  intro u hu
  have := h u hu
  simp only [decide_eq_true_eq]
  omega

theorem register_success (E : Env) (st : Store) (n e p : String) (ph : JsVal)
    (fs : List UploadFile) (hv : ValidRegistration E n e p ph fs)
    (hnew : ∀ u ∈ st.users, u.email ≠ E.toLowerCase e)
    (hids : ∀ u ∈ st.users, u.id < st.nextUserId) :
    ∃ u : User,
      postRegister E st (.str n) (.str e) (.str p) ph fs =
        ({ st with users := st.users ++ [u], nextUserId := st.nextUserId + 1 },
          sessionResponse E 201 "Регистрация прошла успешно!" u) ∧
      u.email = E.toLowerCase e ∧ u.role = "user" ∧ u.id = st.nextUserId ∧
      u.name = jsTrim n := by
  obtain ⟨hn, he, hp, hre, ⟨acc, hacc⟩, hln, hle, hlp, hph⟩ := hv
  have hpne : p ≠ "" := by
    intro h
    subst h
    simp [utf16Length] at hp
  have hins : ∀ av : Option String,
      insertUser E st (jsTrim n) (E.toLowerCase e) (E.bcryptHash p) ph.orNull av "user" =
        ({ st with
            users := st.users ++ [User.mk st.nextUserId (jsTrim n) (E.toLowerCase e)
              (E.bcryptHash p) ph.orNull av "user" E.now E.now],
            nextUserId := st.nextUserId + 1 },
          some (User.mk st.nextUserId (jsTrim n) (E.toLowerCase e) (E.bcryptHash p) ph.orNull
            av "user" E.now E.now)) := by
    intro av
    unfold insertUser
    simp only [varchar_of_le 255 _ hln, varchar_of_le 255 _ hle, varchar_of_le 255 _ hlp,
      varcharNull_of_le 20 _ hph, selectUserByEmail_nil st _ hnew, selectUserById_nil st hids]
    simp [validRoles]
  refine ⟨User.mk st.nextUserId (jsTrim n) (E.toLowerCase e) (E.bcryptHash p) ph.orNull
    (acc.head?.map (fun f => "/uploads/avatars/" ++ storedName E "avatar" f)) "user" E.now
    E.now, ?_, rfl, rfl, rfl, rfl⟩
  unfold postRegister
  simp only [hacc]
  have h1 : (!(JsVal.str n).truthy || !(JsVal.str e).truthy || !(JsVal.str p).truthy) = false := by
    simp [JsVal.truthy, hn, he, hpne]
  have h2 : (JsVal.str p).lengthLt 6 = false := by
    simp [JsVal.lengthLt]; omega
  have h3 : (!(JsVal.str e).emailTest) = false := by
    simp [JsVal.emailTest, hre]
  simp only [h1, h2, h3, selectUserByEmail_nil st _ hnew, hins]
  simp

theorem register_duplicate (E : Env) (st : Store) (n e p : String) (ph : JsVal)
    (fs : List UploadFile) (hv : ValidRegistration E n e p ph fs)
    (hdup : ∃ u ∈ st.users, u.email = E.toLowerCase e) :
    postRegister E st (.str n) (.str e) (.str p) ph fs =
      (st, errorResponse 400 "Пользователь с таким email уже существует") := by
  obtain ⟨hn, he, hp, hre, ⟨acc, hacc⟩, _, _, _, _⟩ := hv
  obtain ⟨u, hu, hue⟩ := hdup
  have hpne : p ≠ "" := by
    intro h
    subst h
    simp [utf16Length] at hp
  have hsel : (selectUserByEmail st (E.toLowerCase e)).length > 0 := by
    apply List.length_pos_of_mem (a := u)
    unfold selectUserByEmail
    exact List.mem_filter.mpr ⟨hu, by simpa using hue⟩
  unfold postRegister
  simp only [hacc]
  have h1 : (!(JsVal.str n).truthy || !(JsVal.str e).truthy || !(JsVal.str p).truthy) = false := by
    simp [JsVal.truthy, hn, he, hpne]
  have h2 : (JsVal.str p).lengthLt 6 = false := by
    simp [JsVal.lengthLt]; omega
  have h3 : (!(JsVal.str e).emailTest) = false := by
    simp [JsVal.emailTest, hre]
  simp only [h1, h2, h3]
  simp [hsel]

/-! ### C10: registration and case-insensitive email uniqueness -/

/-- C10: let `lower` be the case mapping of the environment, idempotent and
introducing no space.  From a store whose emails are canonical (the empty
store is, and every request keeps it so), after any sequence of requests, two
valid registration requests whose emails are equal ignoring case, the first
for an email not yet registered, are answered as follows: the first responds
201 and inserts exactly one user, with the lower-cased email and role `user`;
the second responds 400 with the duplicate-email error and leaves the store
as it is; afterwards no two stored users have emails equal ignoring case. -/
theorem register_case_insensitive_unique (lower : String → String)
    (hidem : ∀ s, lower (lower s) = lower s)
    (hsp : ∀ s, (∀ c ∈ s.toList, c.toNat ≠ 32) → ∀ c ∈ (lower s).toList, c.toNat ≠ 32)
    (st0 : Store) (hinv : EmailsCanonical lower st0)
    (pre : List (Env × Request)) (hpre : ∀ p ∈ pre, p.1.toLowerCase = lower)
    (E1 E2 : Env) (hE1 : E1.toLowerCase = lower) (hE2 : E2.toLowerCase = lower)
    (n1 e1 p1 n2 e2 p2 : String) (ph1 ph2 : JsVal) (fs1 fs2 : List UploadFile)
    (hv1 : ValidRegistration E1 n1 e1 p1 ph1 fs1)
    (hv2 : ValidRegistration E2 n2 e2 p2 ph2 fs2)
    (hcase : lower e1 = lower e2)
    (hnew : ∀ u ∈ (run st0 pre).users, u.email ≠ lower e1) :
    ∃ u : User,
      (postRegister E1 (run st0 pre) (.str n1) (.str e1) (.str p1) ph1 fs1).2 =
        sessionResponse E1 201 "Регистрация прошла успешно!" u ∧
      (postRegister E1 (run st0 pre) (.str n1) (.str e1) (.str p1) ph1 fs1).2.status = 201 ∧
      (postRegister E1 (run st0 pre) (.str n1) (.str e1) (.str p1) ph1 fs1).2.body =
        .session "Регистрация прошла успешно!"
          (E1.jwtSign { userId := u.id, email := u.email, role := u.role } (routeJwtSecret E1))
          u.toAuthUser ∧
      (postRegister E1 (run st0 pre) (.str n1) (.str e1) (.str p1) ph1 fs1).1.users =
        (run st0 pre).users ++ [u] ∧
      u.email = lower e1 ∧ u.role = "user" ∧
      postRegister E2 (postRegister E1 (run st0 pre) (.str n1) (.str e1) (.str p1) ph1 fs1).1
          (.str n2) (.str e2) (.str p2) ph2 fs2 =
        ((postRegister E1 (run st0 pre) (.str n1) (.str e1) (.str p1) ph1 fs1).1,
          errorResponse 400 "Пользователь с таким email уже существует") ∧
      (postRegister E2 (postRegister E1 (run st0 pre) (.str n1) (.str e1) (.str p1) ph1 fs1).1
          (.str n2) (.str e2) (.str p2) ph2 fs2).2.status = 400 ∧
      (postRegister E2 (postRegister E1 (run st0 pre) (.str n1) (.str e1) (.str p1) ph1 fs1).1
          (.str n2) (.str e2) (.str p2) ph2 fs2).2.body =
        .error "Пользователь с таким email уже существует" ∧
      ((postRegister E1 (run st0 pre) (.str n1) (.str e1) (.str p1) ph1 fs1).1.users.map
        (fun x => lower x.email)).Nodup := by
  have hcan := run_canonical lower hidem hsp pre st0 hpre hinv
  generalize run st0 pre = st at hcan hnew ⊢
  have hnew1 : ∀ u ∈ st.users, u.email ≠ E1.toLowerCase e1 := by rw [hE1]; exact hnew
  obtain ⟨u, hreg, hmail, hrole, _, _⟩ :=
    register_success E1 st n1 e1 p1 ph1 fs1 hv1 hnew1 hcan.2.2
  rw [hE1] at hmail
  have hcan1 : EmailsCanonical lower
      (postRegister E1 st (.str n1) (.str e1) (.str p1) ph1 fs1).1 :=
    postRegister_canonical lower hidem hsp E1 hE1 st _ _ _ ph1 fs1 hcan
  rw [hreg] at hcan1 ⊢
  have hdup : postRegister E2 { st with users := st.users ++ [u], nextUserId := st.nextUserId + 1 }
      (.str n2) (.str e2) (.str p2) ph2 fs2 =
      ({ st with users := st.users ++ [u], nextUserId := st.nextUserId + 1 },
        errorResponse 400 "Пользователь с таким email уже существует") := by
    apply register_duplicate E2 _ n2 e2 p2 ph2 fs2 hv2
    refine ⟨u, by simp, ?_⟩
    rw [hE2, hmail, hcase]
  refine ⟨u, rfl, rfl, rfl, rfl, hmail, hrole, hdup, ?_, ?_, ?_⟩
  · rw [hdup]; rfl
  · rw [hdup]; rfl
  · obtain ⟨hc1, hc2, _⟩ := hcan1
    have hmap : List.map (fun x => lower x.email) (st.users ++ [u]) =
        List.map (fun x => x.email) (st.users ++ [u]) :=
      List.map_congr_left (fun x hx => hc1 x hx)
    show (List.map (fun x => lower x.email) (st.users ++ [u])).Nodup
    rw [hmap]
    exact hc2

theorem emptyStore_canonical (lower : String → String) : EmailsCanonical lower emptyStore := by
  refine ⟨?_, ?_, ?_⟩
  · intro u hu; simp [emptyStore] at hu
  · simp [emptyStore]
  · intro u hu; simp [emptyStore] at hu

theorem sampleLower_idem (s : String) : sampleLower (sampleLower s) = sampleLower s := by
  unfold sampleLower
  by_cases h : s = "Alice@X.com"
  · simp [h]
  · simp [h]

theorem sampleLower_no_space (s : String) (hs : ∀ c ∈ s.toList, c.toNat ≠ 32) :
    ∀ c ∈ (sampleLower s).toList, c.toNat ≠ 32 := by
  unfold sampleLower
  by_cases h : s = "Alice@X.com"
  · rw [if_pos h]; decide
  · rw [if_neg h]; exact hs

theorem sampleStore_canonical : EmailsCanonical sampleLower sampleStore := by
  unfold EmailsCanonical
  decide

theorem register_case_insensitive_unique_witness :
    ∃ u : User,
      (postRegister sampleEnv (run sampleStore [(sampleEnv, .health)]) (.str "Alice")
        (.str "Alice@X.com") (.str "secret1") .undefined []).2 =
        sessionResponse sampleEnv 201 "Регистрация прошла успешно!" u ∧
      (postRegister sampleEnv (run sampleStore [(sampleEnv, .health)]) (.str "Alice")
        (.str "Alice@X.com") (.str "secret1") .undefined []).2.status = 201 ∧
      (postRegister sampleEnv (run sampleStore [(sampleEnv, .health)]) (.str "Alice")
        (.str "Alice@X.com") (.str "secret1") .undefined []).2.body =
        .session "Регистрация прошла успешно!"
          (sampleEnv.jwtSign { userId := u.id, email := u.email, role := u.role }
            (routeJwtSecret sampleEnv))
          u.toAuthUser ∧
      (postRegister sampleEnv (run sampleStore [(sampleEnv, .health)]) (.str "Alice")
        (.str "Alice@X.com") (.str "secret1") .undefined []).1.users =
        (run sampleStore [(sampleEnv, .health)]).users ++ [u] ∧
      u.email = sampleLower "Alice@X.com" ∧ u.role = "user" ∧
      postRegister sampleEnv
          (postRegister sampleEnv (run sampleStore [(sampleEnv, .health)]) (.str "Alice")
            (.str "Alice@X.com") (.str "secret1") .undefined []).1
          (.str "Alice B") (.str "alice@x.com") (.str "secret2") (.str "+7 700 000 0000") [] =
        ((postRegister sampleEnv (run sampleStore [(sampleEnv, .health)]) (.str "Alice")
            (.str "Alice@X.com") (.str "secret1") .undefined []).1,
          errorResponse 400 "Пользователь с таким email уже существует") ∧
      (postRegister sampleEnv
          (postRegister sampleEnv (run sampleStore [(sampleEnv, .health)]) (.str "Alice")
            (.str "Alice@X.com") (.str "secret1") .undefined []).1
          (.str "Alice B") (.str "alice@x.com") (.str "secret2")
          (.str "+7 700 000 0000") []).2.status = 400 ∧
      (postRegister sampleEnv
          (postRegister sampleEnv (run sampleStore [(sampleEnv, .health)]) (.str "Alice")
            (.str "Alice@X.com") (.str "secret1") .undefined []).1
          (.str "Alice B") (.str "alice@x.com") (.str "secret2")
          (.str "+7 700 000 0000") []).2.body =
        .error "Пользователь с таким email уже существует" ∧
      ((postRegister sampleEnv (run sampleStore [(sampleEnv, .health)]) (.str "Alice")
        (.str "Alice@X.com") (.str "secret1") .undefined []).1.users.map
        (fun x => sampleLower x.email)).Nodup :=
  register_case_insensitive_unique sampleLower sampleLower_idem sampleLower_no_space
    sampleStore sampleStore_canonical [(sampleEnv, .health)]
    (by intro p hp; simp only [List.mem_singleton] at hp; subst hp; rfl)
    sampleEnv sampleEnv rfl rfl "Alice" "Alice@X.com" "secret1" "Alice B" "alice@x.com"
    "secret2" .undefined (.str "+7 700 000 0000") [] []
    ⟨by decide, by decide, by decide, by decide, ⟨[], rfl⟩, by decide, by decide, by decide,
      by intro s h; simp [JsVal.orNull] at h⟩
    ⟨by decide, by decide, by decide, by decide, ⟨[], rfl⟩, by decide, by decide, by decide,
      by intro s h; simp only [JsVal.orNull] at h; split at h
         · simp at h
         · simp only [Option.some.injEq] at h; subst h; decide⟩
    (by decide) (by decide)

/-! ### C16 to C18: upload filters and limits -/

/-- C16: the file filters of `routes/auth.js`, `routes/complaints.js` and
`routes/upload.js` are one predicate, the `fileFilter` of the model: a file is
accepted exactly when its declared type is one of `image/jpeg`, `image/jpg`,
`image/png`, `image/gif`, whatever its size and the field it comes in.  A file
declared `image/bmp` is refused by the filter, and each of the four upload
middlewares passes the filter's error on for it, whatever its size. -/
theorem fileFilters_agree (file : UploadFile) :
    avatarFileFilter file = fileFilter file ∧ photoFileFilter file = fileFilter file ∧
    uploadFileFilter file = fileFilter file ∧
    (fileFilter file = true ↔
      file.mimetype = "image/jpeg" ∨ file.mimetype = "image/jpg" ∨
        file.mimetype = "image/png" ∨ file.mimetype = "image/gif") ∧
    (file.mimetype = "image/bmp" → fileFilter file = false ∧
      ∀ m ∈ [avatarUpload, photoUpload, generalUpload, generalUploadArray],
        file.fieldname = m.field → m.run [file] = .error fileTypeError) := by
  refine ⟨rfl, rfl, rfl, ?_, ?_⟩
  · simp [fileFilter, allowedTypes]
  · intro hb
    have hf : fileFilter file = false := by simp [fileFilter, allowedTypes, hb]
    refine ⟨hf, ?_⟩
    intro m hm hfield
    simp only [List.mem_cons, List.mem_singleton, List.not_mem_nil, or_false] at hm
    rcases hm with rfl | rfl | rfl | rfl <;>
      simp [Multer.run, multerFiles, hf, hfield, fileTypeError, avatarUpload, photoUpload,
        generalUpload, generalUploadArray] at hfield ⊢

/-- C17, at the failing inputs: the error of the file filter and the
file-count error of `multer` reach the last branch of the final error handler,
which answers 500, in every environment; only the file-size error and the
unexpected-file error are answered 400.  On the sample store an authenticated
`POST /upload` of a file declared `image/bmp` gets 500, and so does
`POST /upload/multiple` of two files of an allowed type. -/
theorem upload_rejections_answered_500 :
    (∀ E : Env, (errorHandler E fileTypeError).status = 500 ∧
      (errorHandler E (multerError "LIMIT_FILE_COUNT")).status = 500 ∧
      (errorHandler E (multerError "LIMIT_FILE_SIZE")).status = 400 ∧
      (errorHandler E (multerError "LIMIT_UNEXPECTED_FILE")).status = 400) ∧
    generalUpload.run [sampleBmp] = .error fileTypeError ∧
    (handle sampleEnv sampleStore
      (.upload (some "Bearer tok-user") .undefined [sampleBmp])).2.status = 500 ∧
    generalUploadArray.run [samplePng "1", samplePng "2"] =
      .error (multerError "LIMIT_FILE_COUNT") ∧
    (handle sampleEnv sampleStore
      (.uploadMultiple (some "Bearer tok-user") .undefined
        [samplePng "1", samplePng "2"])).2.status = 500 := by
  refine ⟨?_, rfl, by decide, rfl, by decide⟩
  intro E
  refine ⟨?_, ?_, ?_, ?_⟩ <;> simp [errorHandler, fileTypeError, multerError, errorResponse]

/-- C18, at the failing input: the `upload` instance of `routes/upload.js` has
`limits.files = 1`, so `upload.array("files", 5)` takes one file: a request
with one allowed file is accepted, and every request in which an allowed file
is followed by any other file part ends in the error `LIMIT_FILE_COUNT`,
already for two files.  On the sample store two files get 500 and one file
gets 200. -/
theorem uploadMultiple_takes_one_file :
    generalUploadArray.files = some 1 ∧ generalUploadArray.maxCount = 5 ∧
    (∀ f : UploadFile, f.fieldname = "files" → fileFilter f = true → f.size ≤ 10 * 1024 * 1024 →
      generalUploadArray.run [f] = .ok [f] ∧
      ∀ g rest, generalUploadArray.run (f :: g :: rest) =
        .error (multerError "LIMIT_FILE_COUNT")) ∧
    (handle sampleEnv sampleStore
      (.uploadMultiple (some "Bearer tok-user") .undefined
        [samplePng "1", samplePng "2"])).2 =
      errorHandler sampleEnv (multerError "LIMIT_FILE_COUNT") ∧
    (errorHandler sampleEnv (multerError "LIMIT_FILE_COUNT")).status = 500 ∧
    (handle sampleEnv sampleStore
      (.uploadMultiple (some "Bearer tok-user") .undefined [samplePng "1"])).2.status = 200 := by
  refine ⟨rfl, rfl, ?_, by decide, by decide, by decide⟩
  intro f hfield hfilter hsize
  have hsz : ¬ (10 * 1024 * 1024 < f.size) := by omega
  constructor
  · simp [Multer.run, multerFiles, generalUploadArray, hfield, hfilter, hsz]
  · intro g rest
    simp [Multer.run, multerFiles, generalUploadArray, hfield, hfilter, hsz]

/-! ### C20: the route table -/

/-- C20, at the failing input: `GET /api/updates` matches none of the four
mounted routers (the mount path `/api/upload` does not match it: the path goes
on with `t`, not with a slash) and neither `app.get` route; the only layer it
is offered to is the 404 handler, which answers 404.  The handler of
`routes/updates.js`, which no layer reaches, returns every stored update
ordered by `created_at` descending. -/
theorem updates_route_not_mounted :
    matchingLayers "GET" "/api/updates" = [Layer.notFound] ∧
    mountMatches "/api/upload" "/api/updates" = false ∧
    (∀ (E : Env) (st : Store),
      handle E st (.other "GET" "/api/updates") = (st, noEndpoint "GET" "/api/updates") ∧
      (noEndpoint "GET" "/api/updates").status = 404) ∧
    (∀ st : Store, (getUpdates st).Perm st.updates ∧
      (getUpdates st).Sorted (fun a b => b.created_at ≤ a.created_at)) := by
  refine ⟨by decide, by decide, fun E st => ⟨rfl, rfl⟩, fun st => ⟨?_, ?_⟩⟩
  · exact List.perm_insertionSort _ _
  · have : IsTotal Update (fun a b => b.created_at ≤ a.created_at) :=
      ⟨fun a b => Nat.le_total _ _⟩
    have : IsTrans Update (fun a b => b.created_at ≤ a.created_at) :=
      ⟨fun a b c h1 h2 => Nat.le_trans h2 h1⟩
    exact List.sorted_insertionSort _ _

/-! ### C22: the final error handler -/

/-- C22: the final error handler tests, in this order, the code for the two
`multer` codes (400), the name for the two token errors (401) and the code for
`23505` (400); each test decides the response when the earlier ones fail.  In
every other case the response is 500 with the generic message, and its body
has `details` (the error's message) exactly when `NODE_ENV` is `development`. -/
theorem errorHandler_cases (E : Env) (err : JsError) :
    (err.code = some "LIMIT_FILE_SIZE" →
      errorHandler E err = errorResponse 400 "Файл слишком большой. Максимальный размер: 10MB") ∧
    (err.code = some "LIMIT_UNEXPECTED_FILE" →
      errorHandler E err = errorResponse 400 "Неожиданный файл в запросе") ∧
    (err.code ≠ some "LIMIT_FILE_SIZE" ∧ err.code ≠ some "LIMIT_UNEXPECTED_FILE" →
      (err.name = "JsonWebTokenError" →
        errorHandler E err = errorResponse 401 "Недействительный токен") ∧
      (err.name = "TokenExpiredError" →
        errorHandler E err = errorResponse 401 "Токен истек") ∧
      (err.name ≠ "JsonWebTokenError" ∧ err.name ≠ "TokenExpiredError" →
        (err.code = some "23505" →
          errorHandler E err = errorResponse 400 "Данные уже существуют") ∧
        (err.code ≠ some "23505" →
          (errorHandler E err).status = 500 ∧
          ∃ details, (errorHandler E err).body =
              .serverError "Внутренняя ошибка сервера" details ∧
            (details.isSome = true ↔ E.envNodeEnv = some "development") ∧
            (E.envNodeEnv = some "development" → details = some err.message)))) := by
  refine ⟨?_, ?_, ?_⟩
  · intro h; simp [errorHandler, h]
  · intro h; simp [errorHandler, h]
  · rintro ⟨h1, h2⟩
    refine ⟨?_, ?_, ?_⟩
    · intro h; simp [errorHandler, h1, h2, h]
    · intro h
      by_cases hj : err.name = "JsonWebTokenError"
      · rw [h] at hj; exact absurd hj (by decide)
      · simp [errorHandler, h1, h2, h]
    · rintro ⟨h3, h4⟩
      refine ⟨?_, ?_⟩
      · intro h; simp [errorHandler, h, h3, h4]
      · intro h5
        refine ⟨by simp [errorHandler, h1, h2, h3, h4, h5], ?_⟩
        by_cases hd : E.envNodeEnv = some "development"
        · exact ⟨some err.message, by simp [errorHandler, h1, h2, h3, h4, h5, hd],
            by simp [hd], fun _ => rfl⟩
        · exact ⟨none, by simp [errorHandler, h1, h2, h3, h4, h5, hd], by simp [hd],
            fun h => absurd h hd⟩

/-! ### C23: `transaction` -/

/-- C23: for every client, callback and connection state, `transaction`
releases the client exactly once, as its last call; it issues `COMMIT` exactly
when `BEGIN` and the callback have both returned, and returns a value exactly
when `BEGIN`, the callback and `COMMIT` have all returned, the value being the
callback's result; in every other case it issues `ROLLBACK` after the failed
call and fails with an error.  The calls are those recorded by the client
itself, and recording changes neither the outcome nor the connection; on each
of the four paths the connection is left as `release` leaves it after the last
statement: `COMMIT` on success, `ROLLBACK` otherwise. -/
theorem transaction_outcome {σ α : Type} (c : TxClient σ α) (s : σ) :
    ((transaction c.traced (s, [])).1 = (transaction c s).1 ∧
      (transaction c.traced (s, [])).2.1 = (transaction c s).2) ∧
    ((transactionCalls c s).count TxOp.release = 1 ∧
      (transactionCalls c s).getLast? = some TxOp.release) ∧
    (TxOp.query "COMMIT" ∈ transactionCalls c s ↔
      ∃ u s1 v s2, c.query "BEGIN" s = (.ok u, s1) ∧ c.callback s1 = (.ok v, s2)) ∧
    (∀ v, (transaction c s).1 = .ok v ↔
      ∃ u s1 s2 w s3, c.query "BEGIN" s = (.ok u, s1) ∧ c.callback s1 = (.ok v, s2) ∧
        c.query "COMMIT" s2 = (.ok w, s3)) ∧
    ((∀ v, (transaction c s).1 ≠ .ok v) →
      (∃ e, (transaction c s).1 = .error e) ∧
      TxOp.query "ROLLBACK" ∈ transactionCalls c s ∧
      (transactionCalls c s).getLast? = some TxOp.release ∧
      (transactionCalls c s).dropLast.getLast? = some (TxOp.query "ROLLBACK")) ∧
    ((∃ v, (transaction c s).1 = .ok v) →
      transactionCalls c s = [.query "BEGIN", .callback, .query "COMMIT", .release]) ∧
    (∀ u s1 v s2 w s3, c.query "BEGIN" s = (.ok u, s1) → c.callback s1 = (.ok v, s2) →
      c.query "COMMIT" s2 = (.ok w, s3) →
      transaction c s = (.ok v, c.release s3) ∧
      transactionCalls c s = [.query "BEGIN", .callback, .query "COMMIT", .release]) ∧
    (∀ e s1 r s4, c.query "BEGIN" s = (.error e, s1) → c.query "ROLLBACK" s1 = (r, s4) →
      (transaction c s).2 = c.release s4 ∧
      (∃ e1, (transaction c s).1 = .error e1) ∧
      transactionCalls c s = [.query "BEGIN", .query "ROLLBACK", .release]) ∧
    (∀ u s1 e s2 r s4, c.query "BEGIN" s = (.ok u, s1) → c.callback s1 = (.error e, s2) →
      c.query "ROLLBACK" s2 = (r, s4) →
      (transaction c s).2 = c.release s4 ∧
      (∃ e1, (transaction c s).1 = .error e1) ∧
      transactionCalls c s = [.query "BEGIN", .callback, .query "ROLLBACK", .release]) ∧
    (∀ u s1 v s2 e s3 r s4, c.query "BEGIN" s = (.ok u, s1) → c.callback s1 = (.ok v, s2) →
      c.query "COMMIT" s2 = (.error e, s3) → c.query "ROLLBACK" s3 = (r, s4) →
      (transaction c s).2 = c.release s4 ∧
      (∃ e1, (transaction c s).1 = .error e1) ∧
      transactionCalls c s =
        [.query "BEGIN", .callback, .query "COMMIT", .query "ROLLBACK", .release]) := by
  unfold transactionCalls transaction transactionTry TxClient.traced
  dsimp only
  rcases hb : c.query "BEGIN" s with ⟨rb, s1⟩
  cases rb with
  | error e =>
    dsimp only
    rcases hr : c.query "ROLLBACK" s1 with ⟨rr, s4⟩
    cases rr <;> dsimp only <;>
      refine ⟨?_, ?_, ?_, ?_, ?_, ?_, ?_, ?_, ?_, ?_⟩ <;>
      first
        | (simp [hr]; done)
        | (intros; simp_all)
  | ok u =>
    dsimp only
    rcases hc : c.callback s1 with ⟨rc, s2⟩
    cases rc with
    | error e =>
      dsimp only
      rcases hr : c.query "ROLLBACK" s2 with ⟨rr, s4⟩
      cases rr <;> dsimp only <;>
        refine ⟨?_, ?_, ?_, ?_, ?_, ?_, ?_, ?_, ?_, ?_⟩ <;>
        first
          | (simp [hc, hr]; done)
          | (intros; simp_all)
    | ok v =>
      dsimp only
      rcases hm : c.query "COMMIT" s2 with ⟨rm, s3⟩
      cases rm with
      | error e =>
        dsimp only
        rcases hr : c.query "ROLLBACK" s3 with ⟨rr, s4⟩
        cases rr <;> dsimp only <;>
          refine ⟨?_, ?_, ?_, ?_, ?_, ?_, ?_, ?_, ?_, ?_⟩ <;>
          first
            | (simp [hc, hm, hr]; done)
            | (intros; simp_all)
      | ok w =>
        dsimp only
        refine ⟨?_, ?_, ?_, ?_, ?_, ?_, ?_, ?_, ?_, ?_⟩
        · simp
        · simp
        · simp [hc]
        · intro v1
          simp only [Except.ok.injEq]
          constructor
          · intro h
            exact ⟨u, s1, s2, w, s3, rfl, by rw [hc, h], hm⟩
          · rintro ⟨u1, s1', s2', w1, s3', h1, h2, h3⟩
            simp only [Prod.mk.injEq, Except.ok.injEq] at h1
            obtain ⟨_, rfl⟩ := h1
            rw [hc] at h2
            simp only [Prod.mk.injEq, Except.ok.injEq] at h2
            exact h2.1
        · intro h
          exact absurd rfl (h v)
        · simp
        all_goals (intros; simp_all)

theorem transaction_outcome_witness :
    (transaction (sampleTxClient false) [] = (.ok 7, ["BEGIN", "INSERT", "COMMIT", "released"]) ∧
      transactionCalls (sampleTxClient false) [] =
        [.query "BEGIN", .callback, .query "COMMIT", .release]) ∧
    ((transaction (sampleTxClient true) []).2 =
        ["BEGIN", "INSERT (failed)", "ROLLBACK", "released"] ∧
      (∃ e1, (transaction (sampleTxClient true) []).1 = .error e1) ∧
      transactionCalls (sampleTxClient true) [] =
        [.query "BEGIN", .callback, .query "ROLLBACK", .release]) :=
  ⟨(transaction_outcome (sampleTxClient false) []).2.2.2.2.2.2.1 () ["BEGIN"] 7
      ["BEGIN", "INSERT"] () ["BEGIN", "INSERT", "COMMIT"] rfl rfl rfl,
    (transaction_outcome (sampleTxClient true) []).2.2.2.2.2.2.2.2.1 () ["BEGIN"]
      "duplicate key" ["BEGIN", "INSERT (failed)"] (.ok ())
      ["BEGIN", "INSERT (failed)", "ROLLBACK"] rfl rfl rfl⟩

/-! ### C24: the two secrets -/

/-- C24, at the failing input: with `JWT_SECRET` set to `prod-secret`, the
auth routes sign with `prod-secret` while `authenticateToken` verifies with
the constant `1234`.  Under a signature check that accepts a token exactly
under the secret it was signed with, the token issued by login to the sample
user is refused by `GET /auth/me` with 403; with `JWT_SECRET` unset the same
login yields a token that is accepted.  In general the two secrets are equal
exactly when the variable is unset, empty or `1234`. -/
theorem secrets_differ_when_env_set :
    routeJwtSecret (keyedEnv (some "prod-secret")) = "prod-secret" ∧ JWT_SECRET = "1234" ∧
    (handle (keyedEnv (some "prod-secret")) sampleStore
      (.login (.str "user@test.com") (.str "user123"))).2 =
      { status := 200,
        body := .session "Вход выполнен успешно" "signed:prod-secret:2" sampleUser.toAuthUser } ∧
    (handle (keyedEnv (some "prod-secret")) sampleStore
      (.me (some "Bearer signed:prod-secret:2"))).2 =
      errorResponse 403 "Недействительный токен" ∧
    (handle (keyedEnv none) sampleStore
      (.login (.str "user@test.com") (.str "user123"))).2 =
      { status := 200,
        body := .session "Вход выполнен успешно" "signed:1234:2" sampleUser.toAuthUser } ∧
    (handle (keyedEnv none) sampleStore (.me (some "Bearer signed:1234:2"))).2 =
      { status := 200, body := .me sampleUser.toAuthUser } ∧
    (∀ E : Env, routeJwtSecret E = JWT_SECRET ↔
      E.envJwtSecret = none ∨ E.envJwtSecret = some "" ∨ E.envJwtSecret = some "1234") := by
  refine ⟨by decide, rfl, by decide, by decide, by decide, by decide, ?_⟩
  intro E
  unfold routeJwtSecret JWT_SECRET
  cases h : E.envJwtSecret with
  | none => simp
  | some s =>
    by_cases hs : s = ""
    · simp [hs]
    · simp [hs]

/-! ### Helper lemmas on the profile update -/

theorem sameButProfile_refl (u : User) : SameButProfile u u :=
  ⟨rfl, rfl, rfl, rfl, rfl⟩

theorem userAssign_apply_profile (now : Nat) (u u1 : User) (a : UserAssign)
    (ha : a.isProfile = true) (h : a.apply now u = some u1) : SameButProfile u u1 := by
  cases a with
  | name v =>
    simp only [UserAssign.apply, Option.map_eq_some'] at h
    obtain ⟨x, _, rfl⟩ := h
    exact ⟨rfl, rfl, rfl, rfl, rfl⟩
  | phone v =>
    simp only [UserAssign.apply, Option.map_eq_some'] at h
    obtain ⟨x, _, rfl⟩ := h
    exact ⟨rfl, rfl, rfl, rfl, rfl⟩
  | avatar_url v =>
    simp only [UserAssign.apply, Option.some.injEq] at h
    subst h
    exact ⟨rfl, rfl, rfl, rfl, rfl⟩
  | password v => simp [UserAssign.isProfile] at ha
  | updated_at =>
    simp only [UserAssign.apply, Option.some.injEq] at h
    subst h
    exact ⟨rfl, rfl, rfl, rfl, rfl⟩

theorem applyUserAssigns_profile (now : Nat) (set : List UserAssign)
    (hset : ∀ a ∈ set, a.isProfile = true) :
    ∀ (u u1 : User), applyUserAssigns now u set = some u1 → SameButProfile u u1 := by
  induction set with
  | nil =>
    intro u u1 h
    simp only [applyUserAssigns, Option.some.injEq] at h
    subst h
    exact sameButProfile_refl u
  | cons a rest ih =>
    intro u u1 h
    simp only [applyUserAssigns] at h
    split at h
    · rename_i u2 hu2
      obtain ⟨a1, a2, a3, a4, a5⟩ :=
        userAssign_apply_profile now u u2 a (hset a (List.mem_cons_self _ _)) hu2
      obtain ⟨b1, b2, b3, b4, b5⟩ :=
        ih (fun x hx => hset x (List.mem_cons_of_mem _ hx)) u2 u1 h
      exact ⟨a1.trans b1, a2.trans b2, a3.trans b3, a4.trans b4, a5.trans b5⟩
    · simp at h

theorem updateUserRows_profile (now : Nat) (k : Int) (set : List UserAssign)
    (hset : ∀ a ∈ set, a.isProfile = true) :
    ∀ (us us1 : List User), updateUserRows now k set us = some us1 →
    List.Forall₂ (fun x y => SameButProfile x y ∧ (y = x ∨ x.id = k)) us us1 := by
  intro us
  induction us with
  | nil =>
    intro us1 h
    simp only [updateUserRows, Option.some.injEq] at h
    subst h
    exact List.Forall₂.nil
  | cons u rest ih =>
    intro us1 h
    simp only [updateUserRows] at h
    split at h
    · simp at h
    · rename_i rest1 hrest
      split at h
      · rename_i hid
        split at h
        · rename_i u1 hu1
          simp only [Option.some.injEq] at h
          subst h
          exact List.Forall₂.cons ⟨applyUserAssigns_profile now set hset _ _ hu1, Or.inr hid⟩
            (ih rest1 hrest)
        · simp at h
      · simp only [Option.some.injEq] at h
        subst h
        exact List.Forall₂.cons ⟨sameButProfile_refl u, Or.inl rfl⟩ (ih rest1 hrest)

theorem profileAssigns_isProfile (name phone : JsVal) (av : Option String)
    (set : List UserAssign) (h : profileAssigns name phone av = some set) :
    ∀ a ∈ set, (∃ v, a = .name v) ∨ (∃ v, a = .phone v) ∨ (∃ v, a = .avatar_url v) := by
  unfold profileAssigns at h
  split at h
  · simp at h
  · rename_i a1 h1
    simp only [Option.some.injEq] at h
    subst h
    intro a ha
    simp only [List.mem_append] at ha
    rcases ha with (ha | ha) | ha
    · unfold trimmedAssign at h1
      split at h1
      · split at h1
        · simp only [Option.some.injEq] at h1
          subst h1
          split at ha
          · simp at ha
          · simp only [List.mem_singleton] at ha
            exact Or.inl ⟨_, ha⟩
        · simp at h1
      · simp only [Option.some.injEq] at h1
        subst h1
        simp at ha
    · split at ha
      · simp only [List.mem_singleton] at ha
        exact Or.inr (Or.inl ⟨_, ha⟩)
      · simp at ha
    · split at ha
      · simp only [List.mem_singleton] at ha
        exact Or.inr (Or.inr ⟨_, ha⟩)
      · simp at ha

theorem forall₂_self {α : Type} (R : α → α → Prop) (h : ∀ x, R x x) (l : List α) :
    List.Forall₂ R l l := by
  induction l with
  | nil => exact List.Forall₂.nil
  | cons x rest ih => exact List.Forall₂.cons (h x) ih

theorem putProfile_frame (E : Env) (st : Store) (a : Option String) (n ph : JsVal)
    (fs : List UploadFile) :
    List.Forall₂ (fun x y => SameButProfile x y ∧
        (y = x ∨ ∃ u, authenticateToken E st a = .next u ∧ x.id = u.id))
      st.users (putProfile E st a n ph fs).1.users := by
  have hrefl : ∀ (l : List User), List.Forall₂ (fun x y => SameButProfile x y ∧
        (y = x ∨ ∃ u, authenticateToken E st a = .next u ∧ x.id = u.id)) l l :=
    fun l => forall₂_self _ (fun x => ⟨sameButProfile_refl x, Or.inl rfl⟩) l
  unfold putProfile
  apply withAuth_cases E st a _ (fun p => List.Forall₂ (fun x y => SameButProfile x y ∧
        (y = x ∨ ∃ u, authenticateToken E st a = .next u ∧ x.id = u.id)) st.users p.1.users)
  · intro r _; exact hrefl _
  · intro u hu
    repeat' first | split | (dsimp only; split)
    all_goals try exact hrefl _
    rename_i _ _ _ _ set _ hset _ st1 _ _ hupd
    unfold updateUser at hupd
    split at hupd
    · simp at hupd
    · rename_i k hk
      split at hupd
      · simp at hupd
      · rename_i rows hrows
        simp only [Option.some.injEq, Prod.mk.injEq] at hupd
        obtain ⟨hst, _⟩ := hupd
        rw [← hst]
        have hk1 : k = u.id := by
          unfold pgInt4 at hk
          split at hk
          · simp only [Option.some.injEq] at hk; exact hk.symm
          · simp at hk
        have hprof : ∀ x ∈ set ++ [UserAssign.updated_at], x.isProfile = true := by
          intro x hx
          rcases List.mem_append.mp hx with hx | hx
          · rcases profileAssigns_isProfile _ _ _ _ hset x hx with ⟨v, rfl⟩ | ⟨v, rfl⟩ | ⟨v, rfl⟩ <;>
              rfl
          · simp only [List.mem_singleton] at hx
            subst hx
            rfl
        refine List.Forall₂.imp ?_ (updateUserRows_profile _ _ _ hprof _ _ hrows)
        rintro x y ⟨h1, h2⟩
        refine ⟨h1, ?_⟩
        rcases h2 with h2 | h2
        · exact Or.inl h2
        · exact Or.inr ⟨u, hu, h2.trans hk1⟩

theorem putProfile_identity (E : Env) (st : Store) (a : Option String) (n ph : JsVal)
    (fs : List UploadFile) :
    List.Forall₂ SameIdentity st.users (putProfile E st a n ph fs).1.users := by
  refine List.Forall₂.imp ?_ (putProfile_frame E st a n ph fs)
  rintro x y ⟨⟨h1, h2, _, h4, _⟩, _⟩
  exact ⟨h1, h2, h4⟩

theorem postChangePassword_identity (E : Env) (st : Store) (a : Option String) (c n : JsVal) :
    List.Forall₂ SameIdentity st.users (postChangePassword E st a c n).1.users := by
  have hrefl : List.Forall₂ SameIdentity st.users st.users :=
    forall₂_self _ (fun x => ⟨rfl, rfl, rfl⟩) _
  unfold postChangePassword
  apply withAuth_cases E st a _ (fun p => List.Forall₂ SameIdentity st.users p.1.users)
  · intro r _; exact hrefl
  · intro u _
    repeat' split
    all_goals try exact hrefl
    rename_i hupd
    exact (updateUser_spec _ _ _ _ _ _ hupd).1

/-! ### C11: role, email and id are out of the reach of the requester -/

theorem register_sample_body :
    sampleBody "role" = .str "admin" ∧
    (handle sampleEnv sampleStore (registerRequest sampleBody [])).1.users =
      sampleStore.users ++
        [{ id := 3, name := "Mallory", email := "mallory@test.com", password := "hash:secret1",
           phone := none, avatar_url := none, role := "user", created_at := 1000000,
           updated_at := 1000000 }] := by
  decide

/-- C11: whatever fields the body of `POST /auth/register` holds, the request
leaves table `users` as it is or adds one row, whose role is `user`.
`PUT /auth/profile` and `POST /auth/change-password` leave the id, email and
role of every stored user as they are.  The `SET` list of the profile update
holds assignments to `name`, `phone` and `avatar_url` only (`updated_at` is
appended to it), so every row keeps its id, email, password, role and
`created_at`, and a row changes only if the requester is authenticated and
the row's id is the requester's. -/
theorem role_email_id_frame (E : Env) (st : Store) :
    (∀ body files, (handle E st (registerRequest body files)).1.users = st.users ∨
      ∃ u, (handle E st (registerRequest body files)).1.users = st.users ++ [u] ∧
        u.role = "user") ∧
    (∀ a body files, List.Forall₂ SameIdentity st.users
      (handle E st (profileRequest a body files)).1.users) ∧
    (∀ a body, List.Forall₂ SameIdentity st.users
      (handle E st (changePasswordRequest a body)).1.users) ∧
    (∀ name phone avatarUrl set, profileAssigns name phone avatarUrl = some set →
      ∀ x ∈ set, (∃ v, x = .name v) ∨ (∃ v, x = .phone v) ∨ (∃ v, x = .avatar_url v)) ∧
    (∀ a body files, List.Forall₂
      (fun x y => SameButProfile x y ∧
        (y = x ∨ ∃ u, authenticateToken E st a = .next u ∧ x.id = u.id))
      st.users (handle E st (profileRequest a body files)).1.users) := by
  refine ⟨?_, ?_, ?_, ?_, ?_⟩
  · intro body files
    simp only [registerRequest, handle]
    rcases postRegister_users E st (body "name") (body "email") (body "password") (body "phone")
      files with ⟨hu, _⟩ | ⟨u, _, _, _, hu, _, _, _, hr, _⟩
    · exact Or.inl hu
    · exact Or.inr ⟨u, hu, hr⟩
  · intro a body files
    exact putProfile_identity E st a _ _ files
  · intro a body
    exact postChangePassword_identity E st a _ _
  · intro name phone av set h
    exact profileAssigns_isProfile name phone av set h
  · intro a body files
    exact putProfile_frame E st a _ _ files

/-! ### C14: no response carries a password hash -/

theorem forall₂_filter_agree {α β : Type} {R : α → β → Prop} {p : α → Bool} {q : β → Bool}
    (h : ∀ a b, R a b → p a = q b) {l : List α} {l' : List β} (hl : List.Forall₂ R l l') :
    List.Forall₂ R (l.filter p) (l'.filter q) := by
  induction hl with
  | nil => exact List.Forall₂.nil
  | @cons a b l1 l2 hab _ ih =>
    have hpq := h a b hab
    cases hq : q b with
    | true =>
      rw [hq] at hpq
      rw [List.filter_cons_of_pos hpq, List.filter_cons_of_pos hq]
      exact List.Forall₂.cons hab ih
    | false =>
      rw [hq] at hpq
      rw [List.filter_cons_of_neg (by simp [hpq]), List.filter_cons_of_neg (by simp [hq])]
      exact ih

theorem forall₂_map_agree {α β γ : Type} {R : α → β → Prop} {f : α → γ} {g : β → γ}
    (h : ∀ a b, R a b → f a = g b) {l : List α} {l' : List β} (hl : List.Forall₂ R l l') :
    l.map f = l'.map g := by
  induction hl with
  | nil => rfl
  | @cons a b l1 l2 hab _ ih =>
    simp only [List.map_cons, h _ _ hab, ih]

theorem forall₂_orderedInsert_agree {α β : Type} {R : α → β → Prop} (key : α → Nat)
    (key' : β → Nat) (h : ∀ a b, R a b → key a = key' b) {a : α} {b : β} (hab : R a b)
    {l : List α} {l' : List β} (hl : List.Forall₂ R l l') :
    List.Forall₂ R (l.orderedInsert (fun x y => key y ≤ key x) a)
      (l'.orderedInsert (fun x y => key' y ≤ key' x) b) := by
  induction hl with
  | nil => exact List.Forall₂.cons hab List.Forall₂.nil
  | @cons c d l1 l2 hcd hrest ih =>
    have e1 := h a b hab
    have e2 := h c d hcd
    by_cases hle : key' d ≤ key' b
    · have hle1 : key c ≤ key a := by rw [e1, e2]; exact hle
      simp only [List.orderedInsert, hle, hle1, if_true]
      exact List.Forall₂.cons hab (List.Forall₂.cons hcd hrest)
    · have hle1 : ¬ key c ≤ key a := by rw [e1, e2]; exact hle
      simp only [List.orderedInsert, hle, hle1, if_false]
      exact List.Forall₂.cons hcd ih

theorem forall₂_insertionSort_agree {α β : Type} {R : α → β → Prop} (key : α → Nat)
    (key' : β → Nat) (h : ∀ a b, R a b → key a = key' b)
    {l : List α} {l' : List β} (hl : List.Forall₂ R l l') :
    List.Forall₂ R (l.insertionSort (fun x y => key y ≤ key x))
      (l'.insertionSort (fun x y => key' y ≤ key' x)) := by
  induction hl with
  | nil => exact List.Forall₂.nil
  | @cons a b l1 l2 hab _ ih =>
    simp only [List.insertionSort]
    exact forall₂_orderedInsert_agree key key' h hab ih

theorem forall₂_pageOf_agree {α β : Type} {R : α → β → Prop} (key : α → Nat)
    (key' : β → Nat) (h : ∀ a b, R a b → key a = key' b)
    {l : List α} {l' : List β} (hl : List.Forall₂ R l l') (n o : Nat) :
    List.Forall₂ R (pageOf key l n o) (pageOf key' l' n o) := by
  unfold pageOf
  exact List.forall₂_take n (List.forall₂_drop o (forall₂_insertionSort_agree key key' h hl))

theorem selectAuthUser_sameButHash (E : Env) (st : Store) (users : List User)
    (h : List.Forall₂ (SameButHash E) st.users users) (id : Int) :
    selectAuthUser { st with users := users } id = selectAuthUser st id := by
  unfold selectAuthUser
  cases pgInt4 id with
  | none => rfl
  | some k =>
    dsimp only
    congr 1
    symm
    apply forall₂_map_agree (R := SameButHash E)
    · intro a b hab
      obtain ⟨h1, h2, h3, h4, h5, h6, h7, _, _⟩ := hab
      simp [User.toAuthUser, h1, h2, h3, h4, h5, h6, h7]
    · apply forall₂_filter_agree _ h
      intro a b hab
      rw [hab.1]

theorem authenticateToken_sameButHash (E : Env) (st : Store) (users : List User)
    (h : List.Forall₂ (SameButHash E) st.users users) (a : Option String) :
    authenticateToken E { st with users := users } a = authenticateToken E st a := by
  unfold authenticateToken
  simp only [selectAuthUser_sameButHash E st users h]

theorem adminChain_sameButHash (E : Env) (st : Store) (users : List User)
    (h : List.Forall₂ (SameButHash E) st.users users) (a : Option String) :
    adminChain E { st with users := users } a = adminChain E st a := by
  unfold adminChain
  rw [authenticateToken_sameButHash E st users h]

theorem withAuth_sameButHash (E : Env) (st : Store) (users : List User)
    (h : List.Forall₂ (SameButHash E) st.users users) (a : Option String)
    (f g : AuthUser → Store × Response) (hfg : ∀ u, (f u).2 = (g u).2) :
    (withAuth E { st with users := users } a f).2 = (withAuth E st a g).2 := by
  unfold withAuth
  rw [authenticateToken_sameButHash E st users h]
  cases authenticateToken E st a with
  | respond r => rfl
  | next u => exact hfg u

theorem withAdmin_sameButHash (E : Env) (st : Store) (users : List User)
    (h : List.Forall₂ (SameButHash E) st.users users) (a : Option String)
    (f g : AuthUser → Store × Response) (hfg : ∀ u, (f u).2 = (g u).2) :
    (withAdmin E { st with users := users } a f).2 = (withAdmin E st a g).2 := by
  unfold withAdmin
  rw [adminChain_sameButHash E st users h]
  cases adminChain E st a with
  | respond r => rfl
  | next u => exact hfg u

theorem withOwnership_sameButHash (E : Env) (st : Store) (users : List User)
    (h : List.Forall₂ (SameButHash E) st.users users) (a : Option String) (id : String)
    (f g : AuthUser → Store × Response) (hfg : ∀ u, (f u).2 = (g u).2) :
    (withOwnership E { st with users := users } a id f).2 = (withOwnership E st a id g).2 := by
  unfold withOwnership
  apply withAuth_sameButHash E st users h
  intro u
  have : requireOwnership E { st with users := users } u id = requireOwnership E st u id := rfl
  rw [this]
  cases requireOwnership E st u id with
  | respond r => rfl
  | next v => exact hfg v

theorem sameButHash_length (E : Env) {l l' : List User}
    (h : List.Forall₂ (SameButHash E) l l') : l'.length = l.length :=
  h.length_eq.symm

theorem sameButHash_toAuthUser (E : Env) (u v : User) (h : SameButHash E u v) :
    v.toAuthUser = u.toAuthUser := by
  obtain ⟨h1, h2, h3, h4, h5, h6, h7, _, _⟩ := h
  simp [User.toAuthUser, h1, h2, h3, h4, h5, h6, h7]

theorem sameButHash_session (E : Env) (u v : User) (h : SameButHash E u v) (code : Nat)
    (msg : String) : sessionResponse E code msg v = sessionResponse E code msg u := by
  unfold sessionResponse
  rw [sameButHash_toAuthUser E u v h, h.1, h.2.2.1, h.2.2.2.2.2.1]

theorem selectUserByEmail_sameButHash (E : Env) (st : Store) (users : List User)
    (h : List.Forall₂ (SameButHash E) st.users users) (e : String) :
    List.Forall₂ (SameButHash E) (selectUserByEmail st e)
      (selectUserByEmail { st with users := users } e) := by
  unfold selectUserByEmail
  apply forall₂_filter_agree _ h
  intro a b hab
  rw [hab.2.2.1]

theorem selectUserById_sameButHash (E : Env) (st : Store) (users : List User)
    (h : List.Forall₂ (SameButHash E) st.users users) (id : Int) :
    List.Forall₂ (SameButHash E) (selectUserById st id)
      (selectUserById { st with users := users } id) := by
  unfold selectUserById
  apply forall₂_filter_agree _ h
  intro a b hab
  rw [hab.1]

theorem forall₂_isEmpty {α β : Type} {R : α → β → Prop} {l : List α} {l' : List β}
    (h : List.Forall₂ R l l') : l'.isEmpty = l.isEmpty := by
  cases h <;> rfl

theorem insertUser_sameButHash (E : Env) (st : Store) (users : List User)
    (h : List.Forall₂ (SameButHash E) st.users users) (n e p : String)
    (ph av : Option String) (role : String) :
    (insertUser E { st with users := users } n e p ph av role).2 =
      (insertUser E st n e p ph av role).2 := by
  have h1 := fun e => forall₂_isEmpty (selectUserByEmail_sameButHash E st users h e)
  have h2 := forall₂_isEmpty (selectUserById_sameButHash E st users h st.nextUserId)
  unfold insertUser
  dsimp only
  cases varchar 255 n <;> cases varchar 255 e <;> cases varchar 255 p <;>
    cases varcharNull 20 ph <;> try rfl
  rename_i n1 e1 p1 ph1
  dsimp only
  rw [h1 e1, h2]
  split <;> rfl

theorem postRegister_sameButHash (E : Env) (st : Store) (users : List User)
    (h : List.Forall₂ (SameButHash E) st.users users) (n e p ph : JsVal)
    (fs : List UploadFile) :
    (postRegister E { st with users := users } n e p ph fs).2 =
      (postRegister E st n e p ph fs).2 := by
  have hlen := fun x => (selectUserByEmail_sameButHash E st users h x).length_eq
  unfold postRegister
  cases avatarUpload.run fs with
  | error err => rfl
  | ok acc =>
    dsimp only
    split
    · rfl
    split
    · rfl
    split
    · rfl
    split
    · rename_i e1 pw n1 _ _ _
      rw [← hlen]
      split
      · rfl
      · have hi := insertUser_sameButHash E st users h (jsTrim n1) (E.toLowerCase e1)
          (E.bcryptHash pw) ph.orNull
          (acc.head?.map (fun f => "/uploads/avatars/" ++ storedName E "avatar" f)) "user"
        rcases hx : insertUser E { st with users := users } (jsTrim n1) (E.toLowerCase e1)
          (E.bcryptHash pw) ph.orNull
          (acc.head?.map (fun f => "/uploads/avatars/" ++ storedName E "avatar" f)) "user"
          with ⟨s1, o1⟩
        rcases hy : insertUser E st (jsTrim n1) (E.toLowerCase e1)
          (E.bcryptHash pw) ph.orNull
          (acc.head?.map (fun f => "/uploads/avatars/" ++ storedName E "avatar" f)) "user"
          with ⟨s2, o2⟩
        rw [hx, hy] at hi
        dsimp only at hi
        subst hi
        cases o1 <;> rfl
    · rw [← hlen]
      split <;> rfl
    · rfl

theorem postLogin_sameButHash (E : Env) (st : Store) (users : List User)
    (h : List.Forall₂ (SameButHash E) st.users users) (e p : JsVal) :
    (postLogin E { st with users := users } e p).2 = (postLogin E st e p).2 := by
  unfold postLogin
  split
  · rfl
  cases e with
  | str e1 =>
    dsimp only
    have hs := selectUserByEmail_sameButHash E st users h (E.toLowerCase e1)
    revert hs
    generalize selectUserByEmail st (E.toLowerCase e1) = l1
    generalize selectUserByEmail { st with users := users } (E.toLowerCase e1) = l2
    intro hs
    cases hs with
    | nil => rfl
    | @cons u v l1 l2 huv _ =>
      dsimp only
      cases p with
      | str pw =>
        dsimp only
        rw [huv.2.2.2.2.2.2.2.2 pw, sameButHash_session E u v huv]
        split <;> rfl
      | _ => rfl
  | _ => rfl

theorem userAssign_apply_sameButHash (E : Env) (now : Nat) (u v : User)
    (h : SameButHash E u v) (a : UserAssign) :
    Option.Rel (SameButHash E) (a.apply now u) (a.apply now v) := by
  obtain ⟨h1, h2, h3, h4, h5, h6, h7, h8, h9⟩ := h
  cases a with
  | name x =>
    simp only [UserAssign.apply]
    cases varchar 255 x with
    | none => exact Option.Rel.none
    | some y => exact Option.Rel.some ⟨h1, rfl, h3, h4, h5, h6, h7, h8, h9⟩
  | phone x =>
    simp only [UserAssign.apply]
    cases varcharNull 20 x with
    | none => exact Option.Rel.none
    | some y => exact Option.Rel.some ⟨h1, h2, h3, rfl, h5, h6, h7, h8, h9⟩
  | avatar_url x => exact Option.Rel.some ⟨h1, h2, h3, h4, rfl, h6, h7, h8, h9⟩
  | password x =>
    simp only [UserAssign.apply]
    cases varchar 255 x with
    | none => exact Option.Rel.none
    | some y => exact Option.Rel.some ⟨h1, h2, h3, h4, h5, h6, h7, h8, fun _ => rfl⟩
  | updated_at => exact Option.Rel.some ⟨h1, h2, h3, h4, h5, h6, h7, rfl, h9⟩

theorem applyUserAssigns_sameButHash (E : Env) (now : Nat) (set : List UserAssign) :
    ∀ u v, SameButHash E u v →
      Option.Rel (SameButHash E) (applyUserAssigns now u set) (applyUserAssigns now v set) := by
  induction set with
  | nil => intro u v h; exact Option.Rel.some h
  | cons a rest ih =>
    intro u v h
    unfold applyUserAssigns
    have ha := userAssign_apply_sameButHash E now u v h a
    revert ha
    generalize a.apply now u = x
    generalize a.apply now v = y
    intro ha
    cases ha with
    | none => exact Option.Rel.none
    | some huv => exact ih _ _ huv

theorem updateUserRows_sameButHash (E : Env) (now : Nat) (id : Int) (set : List UserAssign)
    {l l' : List User} (h : List.Forall₂ (SameButHash E) l l') :
    Option.Rel (List.Forall₂ (SameButHash E)) (updateUserRows now id set l)
      (updateUserRows now id set l') := by
  induction h with
  | nil => exact Option.Rel.some List.Forall₂.nil
  | @cons u v l1 l2 huv _ ih =>
    unfold updateUserRows
    revert ih
    generalize updateUserRows now id set l1 = x
    generalize updateUserRows now id set l2 = y
    intro ih
    cases ih with
    | none => exact Option.Rel.none
    | @some r1 r2 hr =>
      dsimp only
      rw [huv.1]
      by_cases hid : u.id = id
      · simp only [hid, if_true]
        have ha := applyUserAssigns_sameButHash E now set u v huv
        revert ha
        generalize applyUserAssigns now u set = x1
        generalize applyUserAssigns now v set = y1
        intro ha
        cases ha with
        | none => exact Option.Rel.none
        | some h1 => exact Option.Rel.some (List.Forall₂.cons h1 hr)
      · simp only [hid, if_false]
        exact Option.Rel.some (List.Forall₂.cons huv hr)

theorem updateUser_sameButHash (E : Env) (st : Store) (users : List User)
    (h : List.Forall₂ (SameButHash E) st.users users) (id : Int) (set : List UserAssign) :
    Option.Rel (fun p q => List.Forall₂ (SameButHash E) p.2 q.2)
      (updateUser E st id set) (updateUser E { st with users := users } id set) := by
  unfold updateUser
  cases pgInt4 id with
  | none => exact Option.Rel.none
  | some k =>
    dsimp only
    have hr := updateUserRows_sameButHash E E.now k (set ++ [.updated_at]) h
    revert hr
    generalize updateUserRows E.now k (set ++ [.updated_at]) st.users = x
    generalize updateUserRows E.now k (set ++ [.updated_at]) users = y
    intro hr
    cases hr with
    | none => exact Option.Rel.none
    | some hrows =>
      apply Option.Rel.some
      dsimp only
      apply forall₂_filter_agree _ hrows
      intro a b hab
      rw [hab.1]

theorem putProfile_sameButHash (E : Env) (st : Store) (users : List User)
    (h : List.Forall₂ (SameButHash E) st.users users) (a : Option String) (n ph : JsVal)
    (fs : List UploadFile) :
    (putProfile E { st with users := users } a n ph fs).2 = (putProfile E st a n ph fs).2 := by
  unfold putProfile
  apply withAuth_sameButHash E st users h
  intro user
  cases avatarUpload.run fs with
  | error e => rfl
  | ok acc =>
    dsimp only
    cases profileAssigns n ph (acc.head?.map
        (fun f => "/uploads/avatars/" ++ storedName E "avatar" f)) with
    | none => rfl
    | some set =>
      cases set with
      | nil => rfl
      | cons s1 rest =>
        dsimp only
        have hu := updateUser_sameButHash E st users h user.id (s1 :: rest)
        revert hu
        generalize updateUser E st user.id (s1 :: rest) = x
        generalize updateUser E { st with users := users } user.id (s1 :: rest) = y
        intro hu
        cases hu with
        | none => rfl
        | @some p q hpq =>
          obtain ⟨p1, p2⟩ := p
          obtain ⟨q1, q2⟩ := q
          dsimp only at hpq
          cases hpq with
          | nil => rfl
          | @cons u v l1 l2 huv _ =>
            dsimp only
            obtain ⟨h1, h2, h3, h4, h5, h6, h7, h8, _⟩ := huv
            simp [User.toProfileUser, h1, h2, h3, h4, h5, h6, h7, h8]

theorem postChangePassword_sameButHash (E : Env) (st : Store) (users : List User)
    (h : List.Forall₂ (SameButHash E) st.users users) (a : Option String) (c n : JsVal) :
    (postChangePassword E { st with users := users } a c n).2 =
      (postChangePassword E st a c n).2 := by
  unfold postChangePassword
  apply withAuth_sameButHash E st users h
  intro user
  split
  · rfl
  split
  · rfl
  have hs := selectUserById_sameButHash E st users h user.id
  revert hs
  generalize selectUserById st user.id = l1
  generalize selectUserById { st with users := users } user.id = l2
  intro hs
  cases hs with
  | nil => rfl
  | @cons u v l1 l2 huv _ =>
    dsimp only
    cases c with
    | str cur =>
      dsimp only
      rw [huv.2.2.2.2.2.2.2.2 cur]
      split
      · rfl
      cases n with
      | str new =>
        dsimp only
        have hu := updateUser_sameButHash E st users h user.id [.password (E.bcryptHash new)]
        revert hu
        generalize updateUser E st user.id [.password (E.bcryptHash new)] = x
        generalize updateUser E { st with users := users } user.id
          [.password (E.bcryptHash new)] = y
        intro hu
        cases hu with
        | none => rfl
        | some hpq => rfl
      | _ => rfl
    | _ => rfl

theorem joinUsers_sameButHash (E : Env) (st : Store) (users : List User)
    (h : List.Forall₂ (SameButHash E) st.users users) :
    List.Forall₂ (fun cu cv => cv.1 = cu.1 ∧ SameButHash E cu.2 cv.2) (joinUsers st)
      (joinUsers { st with users := users }) := by
  unfold joinUsers
  dsimp only
  induction st.complaints with
  | nil => exact List.Forall₂.nil
  | cons c cs ih =>
    simp only [List.flatMap_cons]
    apply List.rel_append _ ih
    rw [List.forall₂_map_left_iff, List.forall₂_map_right_iff]
    have hf : List.Forall₂ (SameButHash E) (st.users.filter (fun u => u.id = c.user_id))
        (users.filter (fun u => u.id = c.user_id)) := by
      apply forall₂_filter_agree _ h
      intro a b hab
      rw [hab.1]
    exact hf.imp (fun a b hab => ⟨rfl, hab⟩)

theorem getPublicComplaints_sameButHash (E : Env) (st : Store) (users : List User)
    (h : List.Forall₂ (SameButHash E) st.users users) (s l o : Option String) :
    (getPublicComplaints { st with users := users } s l o).2 =
      (getPublicComplaints st s l o).2 := by
  unfold getPublicComplaints
  cases pgCount (parseIntOr 100 l) with
  | none => rfl
  | some l1 =>
    cases pgCount (parseIntOr 0 o) with
    | none => rfl
    | some o1 =>
      dsimp only
      have hj := joinUsers_sameButHash E st users h
      have hf := forall₂_filter_agree
        (p := fun cu => statusMatches (statusFilter s) cu.1)
        (q := fun cu => statusMatches (statusFilter s) cu.1)
        (fun a b hab => by simp only [hab.1]) hj
      have hp := forall₂_pageOf_agree (fun cu : Complaint × User => cu.1.created_at)
        (fun cu : Complaint × User => cu.1.created_at) (fun a b hab => by simp only [hab.1]) hf l1 o1
      have hm := forall₂_map_agree (f := publicRow) (g := publicRow)
        (fun a b hab => by
          obtain ⟨h1, h2⟩ := hab
          simp [publicRow, h1, h2.2.1]) hp
      rw [hm]

theorem getComplaint_sameButHash (E : Env) (st : Store) (users : List User)
    (h : List.Forall₂ (SameButHash E) st.users users) (id : String) :
    (getComplaint { st with users := users } id).2 = (getComplaint st id).2 := by
  unfold getComplaint
  cases parseInt id with
  | none => rfl
  | some n =>
    dsimp only
    cases pgInt4 n with
    | none => rfl
    | some k =>
      dsimp only
      have hj := joinUsers_sameButHash E st users h
      have hf := forall₂_filter_agree
        (p := fun cu : Complaint × User => decide (cu.1.id = k))
        (q := fun cu : Complaint × User => decide (cu.1.id = k))
        (fun a b hab => by simp only [hab.1]) hj
      revert hf
      generalize (joinUsers st).filter (fun cu => decide (cu.1.id = k)) = x
      generalize (joinUsers { st with users := users }).filter
        (fun cu => decide (cu.1.id = k)) = y
      intro hf
      cases hf with
      | nil => rfl
      | @cons a b l1 l2 hab _ =>
        dsimp only
        rw [hab.1, hab.2.2.1, hab.2.2.2.1]

theorem getAdminComplaints_sameButHash (E : Env) (st : Store) (users : List User)
    (h : List.Forall₂ (SameButHash E) st.users users) (a s l o q : Option String) :
    (getAdminComplaints E { st with users := users } a s l o q).2 =
      (getAdminComplaints E st a s l o q).2 := by
  unfold getAdminComplaints
  apply withAdmin_sameButHash E st users h
  intro _
  cases pgCount (parseIntOr 100 l) with
  | none => rfl
  | some l1 =>
    cases pgCount (parseIntOr 0 o) with
    | none => rfl
    | some o1 =>
      dsimp only
      have hj := joinUsers_sameButHash E st users h
      have hf := forall₂_filter_agree
        (p := fun cu => statusMatches (statusFilter s) cu.1 &&
          searchMatches E (searchPattern q) cu.1)
        (q := fun cu => statusMatches (statusFilter s) cu.1 &&
          searchMatches E (searchPattern q) cu.1)
        (fun a b hab => by simp only [hab.1]) hj
      have hp := forall₂_pageOf_agree (fun cu : Complaint × User => cu.1.created_at)
        (fun cu : Complaint × User => cu.1.created_at) (fun a b hab => by simp only [hab.1]) hf l1 o1
      have hm := forall₂_map_agree (f := adminRow) (g := adminRow)
        (fun a b hab => by
          obtain ⟨h1, h2⟩ := hab
          simp [adminRow, h1, h2.2.1, h2.2.2.1, h2.2.2.2.1]) hp
      rw [hm]

theorem getDashboard_sameButHash (E : Env) (st : Store) (users : List User)
    (h : List.Forall₂ (SameButHash E) st.users users) (a : Option String) :
    (getDashboard E { st with users := users } a).2 = (getDashboard E st a).2 := by
  unfold getDashboard
  apply withAdmin_sameButHash E st users h
  intro _
  have e0 := h.length_eq
  have e1 := (forall₂_filter_agree (p := fun u : User => decide (u.role = "admin"))
    (q := fun u : User => decide (u.role = "admin"))
    (fun a b hab => by simp only [hab.2.2.2.2.2.1]) h).length_eq
  have e2 := (forall₂_filter_agree
    (p := fun u : User => decide (E.currentDate ≤ u.created_at + sevenDays))
    (q := fun u : User => decide (E.currentDate ≤ u.created_at + sevenDays))
    (fun a b hab => by simp only [hab.2.2.2.2.2.2.1]) h).length_eq
  have e3 := (forall₂_filter_agree
    (p := fun u : User => decide (E.currentDate ≤ u.created_at + thirtyDays))
    (q := fun u : User => decide (E.currentDate ≤ u.created_at + thirtyDays))
    (fun a b hab => by simp only [hab.2.2.2.2.2.2.1]) h).length_eq
  simp only [userStats, e0, e1, e2, e3]

theorem getAdminUsers_sameButHash (E : Env) (st : Store) (users : List User)
    (h : List.Forall₂ (SameButHash E) st.users users) (a l o q : Option String) :
    (getAdminUsers E { st with users := users } a l o q).2 =
      (getAdminUsers E st a l o q).2 := by
  unfold getAdminUsers
  apply withAdmin_sameButHash E st users h
  intro _
  cases pgCount (parseIntOr 50 l) with
  | none => rfl
  | some l1 =>
    cases pgCount (parseIntOr 0 o) with
    | none => rfl
    | some o1 =>
      dsimp only
      have key : ∀ p : User → Bool, (∀ a b, SameButHash E a b → p a = p b) →
          List.map (adminUserRow { st with users := users })
              (pageOf (fun u => u.created_at) (users.filter p) l1 o1) =
            List.map (adminUserRow st)
              (pageOf (fun u => u.created_at) (st.users.filter p) l1 o1) := by
        intro p hp
        have hf := forall₂_filter_agree hp h
        have hpg := forall₂_pageOf_agree (fun u : User => u.created_at)
          (fun u : User => u.created_at) (fun a b hab => by simp only [hab.2.2.2.2.2.2.1])
          hf l1 o1
        exact (forall₂_map_agree (f := adminUserRow st)
          (g := adminUserRow { st with users := users })
          (fun a b hab => by
            obtain ⟨h1, h2, h3, h4, h5, h6, h7, _, _⟩ := hab
            simp [adminUserRow, h1, h2, h3, h4, h5, h6, h7]) hpg).symm
      rw [key, h.length_eq]
      intro a b hab
      simp only [hab.2.1, hab.2.2.1]

theorem postRegister_freshHash (E : Env) (st : Store) (hash : String → String)
    (hh : ∀ p, (varchar 255 (hash p)).isSome = (varchar 255 (E.bcryptHash p)).isSome)
    (n e p ph : JsVal) (fs : List UploadFile) :
    (postRegister { E with bcryptHash := hash } st n e p ph fs).2 =
      (postRegister E st n e p ph fs).2 := by
  unfold postRegister
  cases avatarUpload.run fs with
  | error err => rfl
  | ok acc =>
    dsimp only
    split
    · rfl
    split
    · rfl
    split
    · rfl
    split
    · rename_i e1 pw n1 _ _ _
      split
      · rfl
      · unfold insertUser
        dsimp only
        have h1 := hh pw
        cases hx : varchar 255 (hash pw) with
        | none =>
          rw [hx] at h1
          cases hy : varchar 255 (E.bcryptHash pw) with
          | none =>
            cases varchar 255 (jsTrim n1) <;> cases varchar 255 (E.toLowerCase e1) <;>
              cases varcharNull 20 ph.orNull <;> rfl
          | some y => rw [hy] at h1; simp at h1
        | some x =>
          rw [hx] at h1
          cases hy : varchar 255 (E.bcryptHash pw) with
          | none => rw [hy] at h1; simp at h1
          | some y =>
            cases varchar 255 (jsTrim n1) <;> cases varchar 255 (E.toLowerCase e1) <;>
              cases varcharNull 20 ph.orNull <;> try rfl
            dsimp only
            split_ifs <;> rfl
    · rfl
    · rfl

theorem updateUserRows_freshHash (now : Nat) (k : Int) (x y : String)
    (h : (varchar 255 x).isSome = (varchar 255 y).isSome) (l : List User) :
    (updateUserRows now k ([.password x] ++ [.updated_at]) l).isSome =
      (updateUserRows now k ([.password y] ++ [.updated_at]) l).isSome := by
  induction l with
  | nil => rfl
  | cons u rest ih =>
    unfold updateUserRows
    revert ih
    generalize updateUserRows now k ([.password x] ++ [.updated_at]) rest = r1
    generalize updateUserRows now k ([.password y] ++ [.updated_at]) rest = r2
    intro ih
    cases r1 <;> cases r2 <;> simp at ih <;> try rfl
    dsimp only
    by_cases hid : u.id = k
    · simp only [hid, if_true, List.singleton_append, applyUserAssigns, UserAssign.apply]
      cases hx : varchar 255 x <;> cases hy : varchar 255 y <;> rw [hx, hy] at h <;>
        simp at h <;> rfl
    · simp only [hid, if_false, Option.isSome_some]

theorem postChangePassword_freshHash (E : Env) (st : Store) (hash : String → String)
    (hh : ∀ p, (varchar 255 (hash p)).isSome = (varchar 255 (E.bcryptHash p)).isSome)
    (a : Option String) (c n : JsVal) :
    (postChangePassword { E with bcryptHash := hash } st a c n).2 =
      (postChangePassword E st a c n).2 := by
  unfold postChangePassword withAuth
  have ha : authenticateToken { E with bcryptHash := hash } st a = authenticateToken E st a :=
    rfl
  rw [ha]
  cases authenticateToken E st a with
  | respond r => rfl
  | next user =>
    dsimp only
    split
    · rfl
    split
    · rfl
    cases selectUserById st user.id with
    | nil => rfl
    | cons u rest =>
      dsimp only
      cases c with
      | str cur =>
        dsimp only
        split
        · rfl
        cases n with
        | str new =>
          dsimp only
          unfold updateUser
          cases pgInt4 user.id with
          | none => rfl
          | some k =>
            dsimp only
            have hu := updateUserRows_freshHash E.now k (hash new) (E.bcryptHash new) (hh new)
              st.users
            revert hu
            generalize updateUserRows E.now k ([.password (hash new)] ++ [.updated_at])
              st.users = r1
            generalize updateUserRows E.now k ([.password (E.bcryptHash new)] ++ [.updated_at])
              st.users = r2
            intro hu
            cases r1 <;> cases r2 <;> simp at hu <;> rfl
        | _ => rfl
      | _ => rfl

theorem handle_freshHash (E : Env) (st : Store) (hash : String → String)
    (hh : ∀ p, (varchar 255 (hash p)).isSome = (varchar 255 (E.bcryptHash p)).isSome)
    (r : Request) :
    (handle { E with bcryptHash := hash } st r).2 = (handle E st r).2 := by
  cases r with
  | register n e p ph fs => exact postRegister_freshHash E st hash hh n e p ph fs
  | changePassword a c n => exact postChangePassword_freshHash E st hash hh a c n
  | _ => rfl

theorem updateComplaint_otherUsers (E : Env) (st : Store) (users : List User) (id : Option Int)
    (set : List ComplaintAssign) :
    updateComplaint E { st with users := users } id set =
      (updateComplaint E st id set).map (fun p => ({ p.1 with users := users }, p.2)) := by
  unfold updateComplaint
  cases id.bind pgInt4 with
  | none => rfl
  | some k =>
    dsimp only
    cases updateComplaintRows E.now k (set ++ [.updated_at]) st.complaints <;> rfl

theorem deleteComplaint_otherUsers (st : Store) (users : List User) (id : Option Int) :
    deleteComplaint { st with users := users } id =
      (deleteComplaint st id).map (fun p => ({ p.1 with users := users }, p.2)) := by
  unfold deleteComplaint
  cases id.bind pgInt4 <;> rfl

theorem insertComplaint_sameButHash (E : Env) (st : Store) (users : List User)
    (h : List.Forall₂ (SameButHash E) st.users users) (uid : Int) (n : String) (la lo : JsNum)
    (a : Option String) (d : String) (p : Option String) (s : String) :
    (insertComplaint E { st with users := users } uid n la lo a d p s).2 =
      (insertComplaint E st uid n la lo a d p s).2 := by
  have h2 := forall₂_isEmpty (selectUserById_sameButHash E st users h uid)
  unfold insertComplaint
  dsimp only
  cases varchar 255 n <;> cases storeCoordinate 2 90 la <;> cases storeCoordinate 3 180 lo <;>
    cases varchar 50 s <;> try rfl
  dsimp only
  rw [h2]
  split_ifs <;> rfl

theorem postComplaint_sameButHash (E : Env) (st : Store) (users : List User)
    (h : List.Forall₂ (SameButHash E) st.users users) (a : Option String)
    (n d la lo ad : JsVal) (fs : List UploadFile) :
    (postComplaint E { st with users := users } a n d la lo ad fs).2 =
      (postComplaint E st a n d la lo ad fs).2 := by
  unfold postComplaint
  apply withAuth_sameButHash E st users h
  intro user
  cases photoUpload.run fs with
  | error e => rfl
  | ok acc =>
    dsimp only
    split_ifs
    · rfl
    · rfl
    · rfl
    · cases n.trim <;> cases ad.trimOrNull <;> cases d.trim <;> try rfl
      rename_i n1 a1 d1
      dsimp only
      have hi := insertComplaint_sameButHash E st users h user.id n1 (la.parseFloat E)
        (lo.parseFloat E) a1 d1 (photoUrlOf E acc) "pending"
      revert hi
      generalize insertComplaint E { st with users := users } user.id n1 (la.parseFloat E)
        (lo.parseFloat E) a1 d1 (photoUrlOf E acc) "pending" = x
      generalize insertComplaint E st user.id n1 (la.parseFloat E)
        (lo.parseFloat E) a1 d1 (photoUrlOf E acc) "pending" = y
      intro hi
      obtain ⟨x1, x2⟩ := x
      obtain ⟨y1, y2⟩ := y
      dsimp only at hi
      subst hi
      cases x2 <;> rfl

theorem getMyComplaints_sameButHash (E : Env) (st : Store) (users : List User)
    (h : List.Forall₂ (SameButHash E) st.users users) (a s l o : Option String) :
    (getMyComplaints E { st with users := users } a s l o).2 =
      (getMyComplaints E st a s l o).2 := by
  unfold getMyComplaints
  apply withAuth_sameButHash E st users h
  intro user
  cases pgCount (parseIntOr 50 l) <;> cases pgCount (parseIntOr 0 o) <;> rfl

theorem putComplaint_sameButHash (E : Env) (st : Store) (users : List User)
    (h : List.Forall₂ (SameButHash E) st.users users) (a : Option String) (id : String)
    (n d ad : JsVal) (fs : List UploadFile) :
    (putComplaint E { st with users := users } a id n d ad fs).2 =
      (putComplaint E st a id n d ad fs).2 := by
  unfold putComplaint
  apply withOwnership_sameButHash E st users h
  intro _
  cases photoUpload.run fs with
  | error e => rfl
  | ok acc =>
    dsimp only
    cases complaintAssigns n d ad (photoUrlOf E acc) with
    | none => rfl
    | some set =>
      cases set with
      | nil => rfl
      | cons s1 rest =>
        dsimp only
        rw [updateComplaint_otherUsers]
        cases updateComplaint E st (parseInt id) (s1 :: rest) <;> rfl

theorem deleteOwnComplaint_sameButHash (E : Env) (st : Store) (users : List User)
    (h : List.Forall₂ (SameButHash E) st.users users) (a : Option String) (id : String) :
    (deleteOwnComplaint E { st with users := users } a id).2 =
      (deleteOwnComplaint E st a id).2 := by
  unfold deleteOwnComplaint
  apply withOwnership_sameButHash E st users h
  intro _
  rw [deleteComplaint_otherUsers]
  cases deleteComplaint st (parseInt id) <;> rfl

theorem patchComplaintStatus_sameButHash (E : Env) (st : Store) (users : List User)
    (h : List.Forall₂ (SameButHash E) st.users users) (a : Option String) (id : String)
    (s : JsVal) :
    (patchComplaintStatus E { st with users := users } a id s).2 =
      (patchComplaintStatus E st a id s).2 := by
  unfold patchComplaintStatus
  apply withAdmin_sameButHash E st users h
  intro _
  split_ifs
  · rfl
  · cases parseInt id with
    | none => rfl
    | some k =>
      dsimp only
      rw [updateComplaint_otherUsers]
      cases updateComplaint E st (some k) [.status (s.strOr "")] with
      | none => rfl
      | some p =>
        obtain ⟨p1, p2⟩ := p
        cases p2 <;> rfl

theorem deleteAdminComplaint_sameButHash (E : Env) (st : Store) (users : List User)
    (h : List.Forall₂ (SameButHash E) st.users users) (a : Option String) (id : String) :
    (deleteAdminComplaint E { st with users := users } a id).2 =
      (deleteAdminComplaint E st a id).2 := by
  unfold deleteAdminComplaint
  apply withAdmin_sameButHash E st users h
  intro _
  cases parseInt id with
  | none => rfl
  | some k =>
    dsimp only
    rw [deleteComplaint_otherUsers]
    cases deleteComplaint st (some k) with
    | none => rfl
    | some p =>
      obtain ⟨p1, p2⟩ := p
      cases p2 <;> rfl

theorem postUpload_sameButHash (E : Env) (st : Store) (users : List User)
    (h : List.Forall₂ (SameButHash E) st.users users) (a : Option String) (t : JsVal)
    (fs : List UploadFile) :
    (postUpload E { st with users := users } a t fs).2 = (postUpload E st a t fs).2 := by
  unfold postUpload
  apply withAuth_sameButHash E st users h
  intro _
  cases generalUpload.run fs with
  | error e => rfl
  | ok l => cases l <;> rfl

theorem postUploadMultiple_sameButHash (E : Env) (st : Store) (users : List User)
    (h : List.Forall₂ (SameButHash E) st.users users) (a : Option String) (t : JsVal)
    (fs : List UploadFile) :
    (postUploadMultiple E { st with users := users } a t fs).2 =
      (postUploadMultiple E st a t fs).2 := by
  unfold postUploadMultiple
  apply withAuth_sameButHash E st users h
  intro _
  cases generalUploadArray.run fs with
  | error e => rfl
  | ok l => cases l <;> rfl

/-- C14: no response depends on a password hash beyond what `bcrypt.compare`
tells about it.  In two stores that differ only in the password hashes of
their users, each pair of hashes accepting the same passwords, every request
is answered with the same response, and `authenticateToken` attaches the same
user: no response and no `req.user` carries a stored hash, although login and
the password change read it.  And every request is answered with the same
response under another hash function whose values fit the `password` column
when those of `bcrypt.hash` do: no response carries the hash that register or
the password change computes. -/
theorem no_password_in_responses (E : Env) (st : Store) (users : List User) (r : Request)
    (hash : String → String)
    (h : List.Forall₂ (SameButHash E) st.users users)
    (hh : ∀ p, (varchar 255 (hash p)).isSome = (varchar 255 (E.bcryptHash p)).isSome) :
    (handle E { st with users := users } r).2 = (handle E st r).2 ∧
    (∀ a, authenticateToken E { st with users := users } a = authenticateToken E st a) ∧
    (handle { E with bcryptHash := hash } st r).2 = (handle E st r).2 := by
  refine ⟨?_, authenticateToken_sameButHash E st users h, handle_freshHash E st hash hh r⟩
  cases r with
  | register n e p ph fs => exact postRegister_sameButHash E st users h n e p ph fs
  | login e p => exact postLogin_sameButHash E st users h e p
  | me a =>
    simp only [handle]
    unfold getMe
    exact withAuth_sameButHash E st users h a _ _ (fun _ => rfl)
  | profile a n ph fs => exact putProfile_sameButHash E st users h a n ph fs
  | changePassword a c n => exact postChangePassword_sameButHash E st users h a c n
  | createComplaint a n d la lo ad fs =>
    exact postComplaint_sameButHash E st users h a n d la lo ad fs
  | publicComplaints s l o => exact getPublicComplaints_sameButHash E st users h s l o
  | myComplaints a s l o => exact getMyComplaints_sameButHash E st users h a s l o
  | complaint id => exact getComplaint_sameButHash E st users h id
  | updateComplaint a id n d ad fs =>
    exact putComplaint_sameButHash E st users h a id n d ad fs
  | deleteComplaint a id => exact deleteOwnComplaint_sameButHash E st users h a id
  | adminComplaints a s l o q => exact getAdminComplaints_sameButHash E st users h a s l o q
  | adminSetStatus a id s => exact patchComplaintStatus_sameButHash E st users h a id s
  | adminDeleteComplaint a id => exact deleteAdminComplaint_sameButHash E st users h a id
  | adminDashboard a => exact getDashboard_sameButHash E st users h a
  | adminUsers a l o q => exact getAdminUsers_sameButHash E st users h a l o q
  | adminOther a m p =>
    simp only [handle]
    exact withAdmin_sameButHash E st users h a _ _ (fun _ => rfl)
  | upload a t fs => exact postUpload_sameButHash E st users h a t fs
  | uploadMultiple a t fs => exact postUploadMultiple_sameButHash E st users h a t fs
  | apiInfo => rfl
  | health => rfl
  | other m p => rfl

theorem saltedUsers_sameButHash :
    List.Forall₂ (SameButHash saltedEnv) (saltedStore "a").users (saltedUsers "b") := by
  refine List.Forall₂.cons ⟨rfl, rfl, rfl, rfl, rfl, rfl, rfl, rfl, fun pw => ?_⟩
    (List.Forall₂.cons ⟨rfl, rfl, rfl, rfl, rfl, rfl, rfl, rfl, fun pw => ?_⟩ List.Forall₂.nil)
  · show decide (String.drop "b$hash:admin123" 2 = "hash:" ++ pw) =
      decide (String.drop "a$hash:admin123" 2 = "hash:" ++ pw)
    rw [show String.drop "b$hash:admin123" 2 = String.drop "a$hash:admin123" 2 by decide]
  · show decide (String.drop "b$hash:user123" 2 = "hash:" ++ pw) =
      decide (String.drop "a$hash:user123" 2 = "hash:" ++ pw)
    rw [show String.drop "b$hash:user123" 2 = String.drop "a$hash:user123" 2 by decide]

theorem salted_hash_fits (p : String) :
    (varchar 255 ("b$hash:" ++ p)).isSome = (varchar 255 (saltedEnv.bcryptHash p)).isSome := by
  show (varchar 255 ("b$hash:" ++ p)).isSome = (varchar 255 ("a$hash:" ++ p)).isSome
  have hl : ("b$hash:" ++ p).length = ("a$hash:" ++ p).length := by
    rw [String.length_append, String.length_append]
    rfl
  have hd : ("b$hash:" ++ p).toList.drop 255 = ("a$hash:" ++ p).toList.drop 255 := by
    show ("b$hash:" ++ p).data.drop 255 = ("a$hash:" ++ p).data.drop 255
    rw [String.data_append, String.data_append, List.drop_append_eq_append_drop,
      List.drop_append_eq_append_drop]
    rfl
  unfold varchar
  rw [hl, hd]
  split_ifs <;> rfl

theorem no_password_in_responses_witness :
    (handle saltedEnv (saltedStore "b") (.login (.str "user@test.com") (.str "user123"))).2 =
      (handle saltedEnv (saltedStore "a") (.login (.str "user@test.com") (.str "user123"))).2 ∧
    (handle saltedEnv (saltedStore "a")
      (.login (.str "user@test.com") (.str "user123"))).2.status = 200 ∧
    ((saltedStore "b").users.map (fun u => u.password) ≠
      (saltedStore "a").users.map (fun u => u.password)) ∧
    (handle { saltedEnv with bcryptHash := fun p => "b$hash:" ++ p } (saltedStore "a")
        (.register (.str "Alice") (.str "alice@x.com") (.str "secret1") .undefined [])).2 =
      (handle saltedEnv (saltedStore "a")
        (.register (.str "Alice") (.str "alice@x.com") (.str "secret1") .undefined [])).2 ∧
    (handle saltedEnv (saltedStore "a")
      (.register (.str "Alice") (.str "alice@x.com") (.str "secret1") .undefined [])).2.status =
      201 ∧
    (handle { saltedEnv with bcryptHash := fun p => "b$hash:" ++ p } (saltedStore "a")
        (.register (.str "Alice") (.str "alice@x.com") (.str "secret1") .undefined [])).1 ≠
      (handle saltedEnv (saltedStore "a")
        (.register (.str "Alice") (.str "alice@x.com") (.str "secret1") .undefined [])).1 :=
  ⟨(no_password_in_responses saltedEnv (saltedStore "a") (saltedUsers "b")
      (.login (.str "user@test.com") (.str "user123")) (fun p => "b$hash:" ++ p)
      saltedUsers_sameButHash salted_hash_fits).1,
    by decide, by decide,
    (no_password_in_responses saltedEnv (saltedStore "a") (saltedUsers "b")
      (.register (.str "Alice") (.str "alice@x.com") (.str "secret1") .undefined [])
      (fun p => "b$hash:" ++ p) saltedUsers_sameButHash salted_hash_fits).2.2,
    by decide, by decide⟩


/-! ### C15: login -/

/-- C15: for `POST /auth/login` with an email and a password that are
non-empty strings: when no stored user has the lower-cased email the response
is 401 with the message for bad credentials; when the first user with that
email has a password hash the password does not match, the response is the
same 401; in both cases the body is the error object, without token, and the
store is as before.  Otherwise the response is 200 with the token signed for
exactly that user's id, email and role, and the user's projection. -/
theorem login_outcome (E : Env) (st : Store) (email password : String)
    (he : email ≠ "") (hp : password ≠ "") :
    ((∀ u ∈ st.users, u.email ≠ E.toLowerCase email) →
      handle E st (.login (.str email) (.str password)) =
        (st, errorResponse 401 "Неверный email или пароль")) ∧
    (∀ u, st.users.find? (fun x => x.email = E.toLowerCase email) = some u →
      (E.bcryptCompare password u.password = false →
        handle E st (.login (.str email) (.str password)) =
          (st, errorResponse 401 "Неверный email или пароль")) ∧
      (E.bcryptCompare password u.password = true →
        handle E st (.login (.str email) (.str password)) =
          (st, { status := 200,
                 body := .session "Вход выполнен успешно"
                   (E.jwtSign { userId := u.id, email := u.email, role := u.role }
                     (routeJwtSecret E)) u.toAuthUser }))) := by
  have hte : (JsVal.str email).truthy = true := by simp [JsVal.truthy, he]
  have htp : (JsVal.str password).truthy = true := by simp [JsVal.truthy, hp]
  constructor
  · intro hnone
    have : selectUserByEmail st (E.toLowerCase email) = [] := by
      unfold selectUserByEmail
      rw [List.filter_eq_nil_iff]
      intro u hu
      simpa using hnone u hu
    simp [handle, postLogin, hte, htp, this]
  · intro u hu
    have hsel : ∃ rest, selectUserByEmail st (E.toLowerCase email) = u :: rest := by
      unfold selectUserByEmail
      generalize st.users = l at hu
      induction l with
      | nil => simp at hu
      | cons x xs ih =>
        simp only [List.find?_cons] at hu
        split at hu
        · rename_i hx
          simp only [Option.some.injEq] at hu
          subst hu
          exact ⟨xs.filter (fun x => decide (x.email = E.toLowerCase email)), by
            simp only [List.filter_cons, hx, if_true]⟩
        · rename_i hx
          obtain ⟨rest, hrest⟩ := ih hu
          refine ⟨rest, ?_⟩
          simp only [List.filter_cons, hx]
          simpa using hrest
    obtain ⟨rest, hrest⟩ := hsel
    constructor
    · intro hc
      simp [handle, postLogin, hte, htp, hrest, hc]
    · intro hc
      simp [handle, postLogin, hte, htp, hrest, hc, sessionResponse]

theorem login_outcome_witness :
    handle sampleEnv sampleStore (.login (.str "user@test.com") (.str "user123")) =
      (sampleStore, { status := 200,
                      body := .session "Вход выполнен успешно" "signed:1234:2"
                        sampleUser.toAuthUser }) ∧
    handle sampleEnv sampleStore (.login (.str "user@test.com") (.str "wrong")) =
      (sampleStore, errorResponse 401 "Неверный email или пароль") ∧
    handle sampleEnv sampleStore (.login (.str "nobody@test.com") (.str "user123")) =
      (sampleStore, errorResponse 401 "Неверный email или пароль") :=
  ⟨((login_outcome sampleEnv sampleStore "user@test.com" "user123" (by decide) (by decide)).2
      sampleUser (by decide)).2 (by decide),
   ((login_outcome sampleEnv sampleStore "user@test.com" "wrong" (by decide) (by decide)).2
      sampleUser (by decide)).1 (by decide),
   (login_outcome sampleEnv sampleStore "nobody@test.com" "user123" (by decide) (by decide)).1
      (by decide)⟩

/-! ### C19 and C21: the listing queries -/

theorem statusFilter_none_of_unrecognized (status : Option String)
    (h : status ≠ some "pending" ∧ status ≠ some "in_progress" ∧ status ≠ some "resolved") :
    statusFilter status = none := by
  unfold statusFilter
  cases status with
  | none => rfl
  | some s =>
    obtain ⟨h1, h2, h3⟩ := h
    have h1s : s ≠ "pending" := fun e => h1 (by rw [e])
    have h2s : s ≠ "in_progress" := fun e => h2 (by rw [e])
    have h3s : s ≠ "resolved" := fun e => h3 (by rw [e])
    simp [validStatuses, h1s, h2s, h3s]

/-- C19: for a status query value that is none of `pending`, `in_progress`,
`resolved` (the empty string included), the query text and the parameter list
built by the public listing, by the requester's listing and by the admin
listing are those built without a status, and each of the three routes
answers exactly as it does without a status: the value causes no error
response. -/
theorem unrecognized_status_ignored (status : Option String)
    (h : status ≠ some "pending" ∧ status ≠ some "in_progress" ∧ status ≠ some "resolved") :
    (∀ limit offset, publicQuery status limit offset = publicQuery none limit offset) ∧
    (∀ userId limit offset,
      myQuery userId status limit offset = myQuery userId none limit offset) ∧
    (∀ limit offset search,
      adminQuery status limit offset search = adminQuery none limit offset search) ∧
    (∀ (E : Env) (st : Store) (a limit offset search : Option String),
      handle E st (.publicComplaints status limit offset) =
        handle E st (.publicComplaints none limit offset) ∧
      handle E st (.myComplaints a status limit offset) =
        handle E st (.myComplaints a none limit offset) ∧
      handle E st (.adminComplaints a status limit offset search) =
        handle E st (.adminComplaints a none limit offset search)) := by
  have hs := statusFilter_none_of_unrecognized status h
  have hn : statusFilter none = none := rfl
  refine ⟨?_, ?_, ?_, ?_⟩
  · intro limit offset
    simp only [publicQuery, QueryBuild.appendStatus, hs, hn]
  · intro userId limit offset
    simp only [myQuery, QueryBuild.appendStatus, hs, hn]
  · intro limit offset search
    simp only [adminQuery, QueryBuild.pushStatus, hs, hn]
  · intro E st a limit offset search
    refine ⟨?_, ?_, ?_⟩
    · simp only [handle, getPublicComplaints, hs, hn]
    · simp only [handle, getMyComplaints, hs, hn]
    · simp only [handle, getAdminComplaints, hs, hn]

theorem unrecognized_status_ignored_witness :
    publicQuery (some "") none none = publicQuery none none none ∧
    adminQuery (some "done") (some "10") none (some "вода") =
      adminQuery none (some "10") none (some "вода") ∧
    handle sampleEnv sampleStore (.publicComplaints (some "Pending") none none) =
      handle sampleEnv sampleStore (.publicComplaints none none none) :=
  ⟨(unrecognized_status_ignored (some "") (by decide)).1 none none,
   (unrecognized_status_ignored (some "done") (by decide)).2.2.1 (some "10") none (some "вода"),
   ((unrecognized_status_ignored (some "Pending") (by decide)).2.2.2
      sampleEnv sampleStore none none none none).1⟩

theorem jsTrim_empty : jsTrim "" = "" := by decide

theorem adminPredicates_cases (status search : Option String) :
    adminPredicates status search =
      (match statusFilter status with
       | some s => [(fun k => "c.status = $" ++ k, SqlParam.text s)]
       | none => []) ++
      (match searchPattern search with
       | some p =>
         [(fun k => "(c.name ILIKE $" ++ k ++ " OR c.description ILIKE $" ++ k ++
             " OR c.location_address ILIKE $" ++ k ++ ")", SqlParam.text p)]
       | none => []) := by
  unfold adminPredicates statusFilter searchPattern
  congr 1
  · cases status with
    | none => rfl
    | some s =>
      by_cases hs : s ∈ validStatuses
      · have hne : s ≠ "" := by
          intro e; rw [e] at hs; exact absurd hs (by decide)
        simp [hs, hne]
      · simp [hs]
  · cases search with
    | none => rfl
    | some t =>
      by_cases ht : jsTrim t = ""
      · simp [ht]
      · have hne : t ≠ "" := by
          intro e; rw [e] at ht; exact ht jsTrim_empty
        simp [ht, hne]

set_option maxRecDepth 100000 in
theorem adminQuery_eq (status limit offset search : Option String) :
    adminQuery status limit offset search =
      match statusFilter status, searchPattern search with
      | none, none =>
        { text := adminSelect ++ " ORDER BY c.created_at DESC LIMIT $1 OFFSET $2",
          params := [.number (parseIntOr 100 limit), .number (parseIntOr 0 offset)] }
      | some s, none =>
        { text := adminSelect ++ " WHERE c.status = $1" ++
            " ORDER BY c.created_at DESC LIMIT $2 OFFSET $3",
          params := [.text s, .number (parseIntOr 100 limit), .number (parseIntOr 0 offset)] }
      | none, some p =>
        { text := adminSelect ++ " WHERE (c.name ILIKE $1 OR c.description ILIKE $1 OR " ++
            "c.location_address ILIKE $1)" ++ " ORDER BY c.created_at DESC LIMIT $2 OFFSET $3",
          params := [.text p, .number (parseIntOr 100 limit), .number (parseIntOr 0 offset)] }
      | some s, some p =>
        { text := adminSelect ++ " WHERE c.status = $1 AND (c.name ILIKE $2 OR " ++
            "c.description ILIKE $2 OR c.location_address ILIKE $2)" ++
            " ORDER BY c.created_at DESC LIMIT $3 OFFSET $4",
          params := [.text s, .text p, .number (parseIntOr 100 limit),
            .number (parseIntOr 0 offset)] } := by
  unfold adminQuery QueryBuild.pushStatus QueryBuild.pushSearch QueryBuild.appendWhere
    QueryBuild.finish
  cases hs : statusFilter status <;> cases hq : searchPattern search <;> dsimp only <;>
    simp only [List.nil_append, List.cons_append, List.length_cons, List.length_nil, gt_iff_lt,
      Nat.zero_lt_succ, if_true, lt_self_iff_false, if_false] <;> rfl

set_option maxRecDepth 100000 in
theorem adminQueryDescribed_eq (status limit offset search : Option String) :
    adminQueryDescribed status limit offset search =
      match statusFilter status, searchPattern search with
      | none, none =>
        { text := adminSelect ++ " ORDER BY c.created_at DESC LIMIT $1 OFFSET $2",
          params := [.number (parseIntOr 100 limit), .number (parseIntOr 0 offset)] }
      | some s, none =>
        { text := adminSelect ++ " WHERE c.status = $1" ++
            " ORDER BY c.created_at DESC LIMIT $2 OFFSET $3",
          params := [.text s, .number (parseIntOr 100 limit), .number (parseIntOr 0 offset)] }
      | none, some p =>
        { text := adminSelect ++ " WHERE (c.name ILIKE $1 OR c.description ILIKE $1 OR " ++
            "c.location_address ILIKE $1)" ++ " ORDER BY c.created_at DESC LIMIT $2 OFFSET $3",
          params := [.text p, .number (parseIntOr 100 limit), .number (parseIntOr 0 offset)] }
      | some s, some p =>
        { text := adminSelect ++ " WHERE c.status = $1 AND (c.name ILIKE $2 OR " ++
            "c.description ILIKE $2 OR c.location_address ILIKE $2)" ++
            " ORDER BY c.created_at DESC LIMIT $3 OFFSET $4",
          params := [.text s, .text p, .number (parseIntOr 100 limit),
            .number (parseIntOr 0 offset)] } := by
  unfold adminQueryDescribed
  rw [adminPredicates_cases]
  cases hs : statusFilter status <;> cases hq : searchPattern search <;> dsimp only <;>
    simp only [List.nil_append, List.cons_append, List.isEmpty_cons, List.isEmpty_nil,
      numberedFrom, List.length_cons, List.length_nil, List.map_cons, List.map_nil, if_true,
      if_false, Bool.false_eq_true] <;> rfl

set_option maxRecDepth 100000 in
/-- C21: the query built by `GET /admin/complaints` is the one the
specification describes: the predicates that apply (status for a recognized
status, the three-column search for a search that is not blank) numbered from
1, joined with `AND` after `WHERE`, and no `WHERE` without a predicate; one
parameter per predicate, the status itself and the pattern `%term%` of the
trimmed search; then `ORDER BY c.created_at DESC LIMIT $(n-1) OFFSET $n` with
the parsed limit and offset as the last two of the `n` parameters.  The
distinct placeholders of the text, in order of first appearance, are
`$1..$n`. -/
theorem adminQuery_well_formed (status limit offset search : Option String) :
    adminQuery status limit offset search = adminQueryDescribed status limit offset search ∧
    (adminQuery status limit offset search).params.length =
      (adminPredicates status search).length + 2 ∧
    distinctInOrder (placeholders (adminQuery status limit offset search).text) =
      List.range' 1 (adminQuery status limit offset search).params.length ∧
    (" WHERE ".toList <:+: (adminQuery status limit offset search).text.toList ↔
      adminPredicates status search ≠ []) ∧
    (adminQuery status limit offset search).params.drop (adminPredicates status search).length =
      [.number (match limit with
          | none => some 100
          | some s => parseInt s),
        .number (match offset with
          | none => some 0
          | some s => parseInt s)] ∧
    (" ORDER BY c.created_at DESC LIMIT $" ++
        toString ((adminQuery status limit offset search).params.length - 1) ++ " OFFSET $" ++
        toString (adminQuery status limit offset search).params.length).toList <:+
      (adminQuery status limit offset search).text.toList := by
  rw [adminQueryDescribed_eq, adminQuery_eq, adminPredicates_cases]
  cases hs : statusFilter status with
  | none =>
    cases hq : searchPattern search with
    | none =>
      dsimp only
      refine ⟨rfl, rfl, by simp only [List.length_cons, List.length_nil]; decide, ?_, rfl,
        by simp only [List.length_cons, List.length_nil]; decide⟩
      exact ⟨fun h => absurd h (by decide), fun h => absurd rfl h⟩
    | some p =>
      dsimp only
      refine ⟨rfl, rfl, by simp only [List.length_cons, List.length_nil]; decide, ?_, rfl,
        by simp only [List.length_cons, List.length_nil]; decide⟩
      exact ⟨fun _ => by simp, fun _ => by decide⟩
  | some s =>
    cases hq : searchPattern search with
    | none =>
      dsimp only
      refine ⟨rfl, rfl, by simp only [List.length_cons, List.length_nil]; decide, ?_, rfl,
        by simp only [List.length_cons, List.length_nil]; decide⟩
      exact ⟨fun _ => by simp, fun _ => by decide⟩
    | some p =>
      dsimp only
      refine ⟨rfl, rfl, by simp only [List.length_cons, List.length_nil]; decide, ?_, rfl,
        by simp only [List.length_cons, List.length_nil]; decide⟩
      exact ⟨fun _ => by simp, fun _ => by decide⟩

set_option maxRecDepth 100000 in
theorem adminQuery_well_formed_witness :
    adminQuery (some "pending") (some "25") (some "50") (some " вода ") =
      { text := adminSelect ++ " WHERE c.status = $1 AND (c.name ILIKE $2 OR " ++
          "c.description ILIKE $2 OR c.location_address ILIKE $2)" ++
          " ORDER BY c.created_at DESC LIMIT $3 OFFSET $4",
        params := [.text "pending", .text "%вода%", .number (some 25), .number (some 50)] } ∧
    (adminQuery (some "done") none (some "x") (some "  ")).params =
      [.number (some 100), .number none] ∧
    distinctInOrder (placeholders
      (adminQuery (some "pending") (some "25") (some "50") (some " вода ")).text) =
      [1, 2, 3, 4] :=
  ⟨(adminQuery_well_formed (some "pending") (some "25") (some "50") (some " вода ")).1.trans
      (by decide),
    (adminQuery_well_formed (some "done") none (some "x") (some "  ")).2.2.2.2.1,
    (adminQuery_well_formed (some "pending") (some "25") (some "50")
      (some " вода ")).2.2.1.trans (by decide)⟩

/-! ### C12: creating a complaint -/

theorem round8_bounds (d : Decimal) (lo hi : Nat)
    (h1 : (lo : Int) * 10 ^ d.scale ≤ d.mant) (h2 : d.mant ≤ (hi : Int) * 10 ^ d.scale) :
    (lo : Int) * 10 ^ 8 ≤ round8 d ∧ round8 d ≤ (hi : Int) * 10 ^ 8 := by
  have hA : (0 : Int) < 10 ^ d.scale := by positivity
  have hm0 : 0 ≤ d.mant := le_trans (by positivity) h1
  obtain ⟨m, hm⟩ := Int.eq_ofNat_of_zero_le hm0
  have hneg : ¬ d.mant < 0 := not_lt.mpr hm0
  unfold round8
  simp only [hneg, if_false]
  rw [hm, Int.natAbs_ofNat]
  rw [hm] at h1 h2
  have h1n : lo * 10 ^ d.scale ≤ m := by exact_mod_cast h1
  have h2n : m ≤ hi * 10 ^ d.scale := by exact_mod_cast h2
  have hAn : 0 < 10 ^ d.scale := by positivity
  generalize 10 ^ d.scale = A at h1n h2n hAn
  have hden : 0 < 2 * A := by omega
  constructor
  · have : lo * 10 ^ 8 ≤ (2 * (m * 10 ^ 8) + A) / (2 * A) := by
      rw [Nat.le_div_iff_mul_le hden]
      have := Nat.mul_le_mul_right (2 * 10 ^ 8) h1n
      nlinarith
    exact_mod_cast this
  · have : (2 * (m * 10 ^ 8) + A) / (2 * A) < hi * 10 ^ 8 + 1 := by
      rw [Nat.div_lt_iff_lt_mul hden]
      have := Nat.mul_le_mul_right (2 * 10 ^ 8) h2n
      nlinarith
    have h3 : (2 * (m * 10 ^ 8) + A) / (2 * A) ≤ hi * 10 ^ 8 := by omega
    exact_mod_cast h3

theorem storeCoordinate_lat (d : Decimal)
    (h1 : ¬ d.mant < 40 * 10 ^ d.scale) (h2 : ¬ d.mant > 56 * 10 ^ d.scale) :
    storeCoordinate 2 90 (.fin d) = some (round8 d) ∧
      40 * 10 ^ 8 ≤ round8 d ∧ round8 d ≤ 56 * 10 ^ 8 := by
  obtain ⟨hlo, hhi⟩ := round8_bounds d 40 56 (by push_cast; omega) (by push_cast; omega)
  have hlo1 : (4000000000 : Int) ≤ round8 d := by norm_num at hlo; exact hlo
  have hhi1 : round8 d ≤ (5600000000 : Int) := by norm_num at hhi; exact hhi
  refine ⟨?_, by norm_num; exact hlo1, by norm_num; exact hhi1⟩
  unfold storeCoordinate
  have hc : (round8 d).natAbs < 10 ^ (2 + 8) ∧ -90 * 10 ^ 8 ≤ round8 d ∧
      round8 d ≤ 90 * 10 ^ 8 := by
    norm_num
    omega
  simp only [hc, and_self, if_true]

theorem storeCoordinate_lng (d : Decimal)
    (h1 : ¬ d.mant < 46 * 10 ^ d.scale) (h2 : ¬ d.mant > 88 * 10 ^ d.scale) :
    storeCoordinate 3 180 (.fin d) = some (round8 d) ∧
      46 * 10 ^ 8 ≤ round8 d ∧ round8 d ≤ 88 * 10 ^ 8 := by
  obtain ⟨hlo, hhi⟩ := round8_bounds d 46 88 (by push_cast; omega) (by push_cast; omega)
  have hlo1 : (4600000000 : Int) ≤ round8 d := by norm_num at hlo; exact hlo
  have hhi1 : round8 d ≤ (8800000000 : Int) := by norm_num at hhi; exact hhi
  refine ⟨?_, by norm_num; exact hlo1, by norm_num; exact hhi1⟩
  unfold storeCoordinate
  have hc : (round8 d).natAbs < 10 ^ (3 + 8) ∧ -180 * 10 ^ 8 ≤ round8 d ∧
      round8 d ≤ 180 * 10 ^ 8 := by
    norm_num
    omega
  simp only [hc, and_self, if_true]

theorem coordinate_in_box (x : JsNum) (lo hi : Int) (hnan : x.isNaN = false)
    (hlt : x.ltInt lo = false) (hgt : x.gtInt hi = false) :
    ∃ d, x = .fin d ∧ ¬ d.mant < lo * 10 ^ d.scale ∧ ¬ d.mant > hi * 10 ^ d.scale := by
  cases x with
  | nan => simp [JsNum.isNaN] at hnan
  | inf negative =>
    cases negative
    · simp [JsNum.gtInt] at hgt
    · simp [JsNum.ltInt] at hlt
  | fin d =>
    refine ⟨d, rfl, ?_, ?_⟩
    · simpa [JsNum.ltInt] using hlt
    · simpa [JsNum.gtInt] using hgt

theorem selectUserById_of_auth (E : Env) (st : Store) (a : Option String) (u : AuthUser)
    (h : authenticateToken E st a = .next u) : (selectUserById st u.id).isEmpty = false := by
  obtain ⟨t, c, row, _, _, hf, hrow⟩ := authenticateToken_next E st a u h
  have hmem := List.mem_of_find?_eq_some hf
  have hid : row.id = c.userId := by
    have := List.find?_some hf
    simpa using this
  have huid : u.id = row.id := by rw [hrow]; rfl
  unfold selectUserById
  cases hfil : st.users.filter (fun x => decide (x.id = u.id)) with
  | nil =>
    rw [List.filter_eq_nil_iff] at hfil
    have := hfil row hmem
    simp [huid] at this
  | cons x xs => rfl

set_option maxRecDepth 100000 in
/-- C12, as stated, fails.  On the sample store, the test user sends name,
description and coordinates that pass every check of the handler: with a photo
declared `image/bmp` the upload middleware rejects the request and the final
error handler answers 500; with a name of 256 letters the `INSERT` fails on
`VARCHAR(255)` and the handler answers 500.  In both cases no complaint is
inserted, and the response is neither 400 nor 201. -/
theorem createComplaint_not_400_or_201 :
    complaintRejected sampleEnv (.str "Иван") (.str "Мутная вода") (.str "43.0") (.str "76.0") =
      false ∧
    handle sampleEnv sampleStore
      (.createComplaint (some "Bearer tok-user") (.str "Иван") (.str "Мутная вода") (.str "43.0")
        (.str "76.0") .undefined [samplePhotoBmp]) =
      (sampleStore, { status := 500, body := .serverError "Внутренняя ошибка сервера" none }) ∧
    complaintRejected sampleEnv (.str longName) (.str "Мутная вода") (.str "43.0")
      (.str "76.0") = false ∧
    (handle sampleEnv sampleStore
      (.createComplaint (some "Bearer tok-user") (.str longName) (.str "Мутная вода")
        (.str "43.0") (.str "76.0") .undefined [])).2 =
      errorResponse 500 "Ошибка при создании жалобы" ∧
    (handle sampleEnv sampleStore
      (.createComplaint (some "Bearer tok-user") (.str longName) (.str "Мутная вода")
        (.str "43.0") (.str "76.0") .undefined [])).1.complaints = sampleStore.complaints := by
  decide

/-- C12, amended: for an authenticated `POST /complaints` whose file part, if
any, the upload middleware accepts.  If name, description or a coordinate is
missing or empty, or a coordinate does not parse, or the parsed latitude is
outside `[40, 56]` or the parsed longitude outside `[46, 88]`, the response is
400 and the store is unchanged.  Otherwise, when name and description are
strings, the address is a string or absent, the trimmed name has at most 255
characters and no complaint has the next id of the sequence, exactly one
complaint is inserted, with that id, the requester's id as `user_id`, the
trimmed texts, the parsed coordinates rounded to 8 decimal places and status
`pending`, and the response is 201.  Its latitude is within `[40, 56]` and its
longitude within `[46, 88]`, hence within `[-90, 90]` and `[-180, 180]`. -/
theorem createComplaint_outcome (E : Env) (st : Store) (a : Option String) (u : AuthUser)
    (name description location_lat location_lng location_address : JsVal)
    (files accepted : List UploadFile)
    (hauth : authenticateToken E st a = .next u)
    (hfiles : photoUpload.run files = .ok accepted) :
    (complaintRejected E name description location_lat location_lng = true →
      (handle E st (.createComplaint a name description location_lat location_lng
        location_address files)).1 = st ∧
      (handle E st (.createComplaint a name description location_lat location_lng
        location_address files)).2.status = 400) ∧
    (complaintRejected E name description location_lat location_lng = false →
      ∀ n d addr, name = .str n → description = .str d →
        location_address.trimOrNull = some addr → (jsTrim n).length ≤ 255 →
        (∀ c ∈ st.complaints, c.id ≠ st.nextComplaintId) →
        ∃ dlat dlng, location_lat.parseFloat E = .fin dlat ∧
          location_lng.parseFloat E = .fin dlng ∧
          handle E st (.createComplaint a name description location_lat location_lng
            location_address files) =
            ({ st with
                complaints := st.complaints ++
                  [{ id := st.nextComplaintId, user_id := u.id, name := jsTrim n,
                     location_lat := round8 dlat, location_lng := round8 dlng,
                     location_address := addr, description := jsTrim d,
                     photo_url := photoUrlOf E accepted, status := "pending",
                     created_at := E.now, updated_at := E.now }],
                nextComplaintId := st.nextComplaintId + 1 },
              { status := 201,
                body := .created "Жалоба успешно отправлена" st.nextComplaintId E.now }) ∧
          40 * 10 ^ 8 ≤ round8 dlat ∧ round8 dlat ≤ 56 * 10 ^ 8 ∧
          46 * 10 ^ 8 ≤ round8 dlng ∧ round8 dlng ≤ 88 * 10 ^ 8 ∧
          -90 * 10 ^ 8 ≤ round8 dlat ∧ round8 dlat ≤ 90 * 10 ^ 8 ∧
          -180 * 10 ^ 8 ≤ round8 dlng ∧ round8 dlng ≤ 180 * 10 ^ 8) := by
  constructor
  · intro hrej
    unfold complaintRejected at hrej
    simp only [handle, postComplaint, withAuth, hauth, hfiles]
    split
    · exact ⟨rfl, rfl⟩
    · rename_i h1
      split
      · exact ⟨rfl, rfl⟩
      · rename_i h2
        split
        · exact ⟨rfl, rfl⟩
        · rename_i h3
          exfalso
          simp only [Bool.or_eq_true, not_or] at hrej h1 h2 h3
          tauto
  · intro hrej n d addr hn hd haddr hlen hfresh
    unfold complaintRejected at hrej
    simp only [Bool.or_eq_false_iff, Bool.not_eq_false'] at hrej
    obtain ⟨⟨⟨⟨⟨⟨⟨⟨⟨t1, t2⟩, t3⟩, t4⟩, n1⟩, n2⟩, b1⟩, b2⟩, b3⟩, b4⟩ := hrej
    obtain ⟨dlat, hdlat, hlat1, hlat2⟩ := coordinate_in_box _ 40 56 n1 b1 b2
    obtain ⟨dlng, hdlng, hlng1, hlng2⟩ := coordinate_in_box _ 46 88 n2 b3 b4
    obtain ⟨hsla, hla1, hla2⟩ := storeCoordinate_lat dlat hlat1 hlat2
    obtain ⟨hslo, hlo1, hlo2⟩ := storeCoordinate_lng dlng hlng1 hlng2
    refine ⟨dlat, dlng, hdlat, hdlng, ?_, hla1, hla2, hlo1, hlo2, by omega, by omega, by omega,
      by omega⟩
    have hfk := selectUserById_of_auth E st a u hauth
    have hpk : (st.complaints.filter (fun c => decide (c.id = st.nextComplaintId))).isEmpty =
        true := by
      rw [List.isEmpty_iff, List.filter_eq_nil_iff]
      intro c hc
      simpa using hfresh c hc
    have hvn := varchar_of_le 255 (jsTrim n) hlen
    have hvs : varchar 50 "pending" = some "pending" := by decide
    have hins : insertComplaint E st u.id (jsTrim n) (.fin dlat) (.fin dlng) addr (jsTrim d)
        (photoUrlOf E accepted) "pending" =
        ({ st with
            complaints := st.complaints ++
              [{ id := st.nextComplaintId, user_id := u.id, name := jsTrim n,
                 location_lat := round8 dlat, location_lng := round8 dlng,
                 location_address := addr, description := jsTrim d,
                 photo_url := photoUrlOf E accepted, status := "pending",
                 created_at := E.now, updated_at := E.now }],
            nextComplaintId := st.nextComplaintId + 1 },
          some { id := st.nextComplaintId, user_id := u.id, name := jsTrim n,
                 location_lat := round8 dlat, location_lng := round8 dlng,
                 location_address := addr, description := jsTrim d,
                 photo_url := photoUrlOf E accepted, status := "pending",
                 created_at := E.now, updated_at := E.now }) := by
      unfold insertComplaint
      simp only [hvn, hsla, hslo, hvs]
      have hcs : "pending" ∈ validStatuses := by decide
      simp [hcs, hfk, hpk]
    rw [hdlat] at n1 b1 b2
    rw [hdlng] at n2 b3 b4
    simp only [handle, postComplaint, withAuth, hauth, hfiles]
    simp only [t1, t2, t3, t4, hdlat, hdlng, n1, n2, b1, b2, b3, b4, Bool.not_true,
      Bool.or_self, Bool.false_eq_true, if_false]
    subst hn hd
    simp only [JsVal.trim, haddr, hins]

theorem createComplaint_outcome_witness :
    ((handle sampleEnv sampleStore
      (.createComplaint (some "Bearer tok-user") (.str "Иван") (.str "Мутная вода")
        (.str "12.5") (.str "76.0") .undefined [])).1 = sampleStore ∧
     (handle sampleEnv sampleStore
      (.createComplaint (some "Bearer tok-user") (.str "Иван") (.str "Мутная вода")
        (.str "12.5") (.str "76.0") .undefined [])).2.status = 400) ∧
    (handle sampleEnv sampleStore
      (.createComplaint (some "Bearer tok-user") (.str "Иван") (.str "Мутная вода")
        (.str "43.0") (.str "76.0") .undefined [])).2 =
      { status := 201, body := .created "Жалоба успешно отправлена" 3 1000000 } := by
  refine ⟨(createComplaint_outcome sampleEnv sampleStore (some "Bearer tok-user")
    sampleUser.toAuthUser (.str "Иван") (.str "Мутная вода") (.str "12.5") (.str "76.0")
    .undefined [] [] (by decide) rfl).1 (by decide), ?_⟩
  obtain ⟨dlat, dlng, _, _, h, _⟩ :=
    (createComplaint_outcome sampleEnv sampleStore (some "Bearer tok-user")
      sampleUser.toAuthUser (.str "Иван") (.str "Мутная вода") (.str "43.0") (.str "76.0")
      .undefined [] [] (by decide) rfl).2 (by decide) "Иван" "Мутная вода" none rfl rfl rfl
      (by decide) (by decide)
  rw [h]
  rfl

/-! ### C13: updating a complaint -/

theorem numberedFields_append (l : List (String × SqlParam)) (f : String × SqlParam) :
    ∀ k, numberedFields k (l ++ [f]) =
      numberedFields k l ++ [f.1 ++ " = $" ++ toString (k + l.length)] := by
  induction l with
  | nil => intro k; simp [numberedFields]
  | cons x xs ih =>
    intro k
    have h := ih (k + 1)
    rw [show k + 1 + xs.length = k + (xs.length + 1) by omega] at h
    simp only [List.cons_append, numberedFields, List.length_cons]
    exact congrArg _ h

theorem push_ofFields (l : List (String × SqlParam)) (column : String) (v : SqlParam) :
    (UpdateBuild.ofFields l).push column v = UpdateBuild.ofFields (l ++ [(column, v)]) := by
  simp only [UpdateBuild.push, UpdateBuild.ofFields, numberedFields_append, List.map_append,
    List.map_cons, List.map_nil, List.length_append, List.length_cons, List.length_nil]
  rw [Nat.add_comm 1 l.length]

theorem pushTrimmed_ofFields (l : List (String × SqlParam)) (column : String) (v : JsVal)
    (h : v.truthy = true → ∃ s, v = .str s) :
    (UpdateBuild.ofFields l).pushTrimmed column v =
      some (UpdateBuild.ofFields (l ++
        (match v.suppliedText with
         | some s => [(column, SqlParam.text s)]
         | none => []))) := by
  unfold UpdateBuild.pushTrimmed
  cases v with
  | undefined => simp [JsVal.truthy, JsVal.suppliedText]
  | null => simp [JsVal.truthy, JsVal.suppliedText]
  | bool b =>
    cases b
    · simp [JsVal.truthy, JsVal.suppliedText]
    · obtain ⟨s, hs⟩ := h rfl
      cases hs
  | num n =>
    by_cases hn : n = 0
    · simp [JsVal.truthy, JsVal.suppliedText, hn]
    · have : (JsVal.num n).truthy = true := by simp [JsVal.truthy, hn]
      obtain ⟨s, hs⟩ := h this
      cases hs
  | str s =>
    by_cases hs : s = ""
    · subst hs
      have : jsTrim "" = "" := by decide
      simp [JsVal.truthy, JsVal.suppliedText, this]
    · by_cases ht : jsTrim s = ""
      · simp [JsVal.truthy, JsVal.suppliedText, hs, ht]
      · simp [JsVal.truthy, JsVal.suppliedText, hs, ht, push_ofFields]

theorem trimOrNull_suppliedText (v : JsVal) (a : Option String)
    (h : v.trimOrNull = some a) : a = v.suppliedText := by
  cases v with
  | undefined => simp [JsVal.trimOrNull] at h; simp [JsVal.suppliedText, ← h]
  | null => simp [JsVal.trimOrNull] at h; simp [JsVal.suppliedText, ← h]
  | bool b => simp [JsVal.trimOrNull] at h
  | num n => simp [JsVal.trimOrNull] at h
  | str s =>
    simp only [JsVal.trimOrNull, Option.some.injEq] at h
    rw [← h]
    rfl

theorem pushAddress_ofFields (l : List (String × SqlParam)) (v : JsVal)
    (h : v.trimOrNull ≠ none) :
    (UpdateBuild.ofFields l).pushAddress v =
      some (UpdateBuild.ofFields (l ++
        (if v = .undefined then []
         else [("location_address", SqlParam.ofOption v.suppliedText)]))) := by
  unfold UpdateBuild.pushAddress
  by_cases hu : v = .undefined
  · simp [hu]
  · cases ha : v.trimOrNull with
    | none => exact absurd ha h
    | some a =>
      have := trimOrNull_suppliedText v a ha
      subst this
      simp [hu, push_ofFields]

theorem pushPhoto_ofFields (l : List (String × SqlParam)) (photoUrl : Option String) :
    (UpdateBuild.ofFields l).pushPhoto photoUrl =
      UpdateBuild.ofFields (l ++
        (match photoUrl with
         | some url => [("photo_url", SqlParam.text url)]
         | none => [])) := by
  unfold UpdateBuild.pushPhoto
  cases photoUrl with
  | none => simp
  | some url => simp [push_ofFields]

theorem suppliedAssigns_bound (name description location_address : JsVal)
    (photoUrl : Option String) :
    (suppliedAssigns name description location_address photoUrl).filterMap
        ComplaintAssign.bound =
      (match name.suppliedText with
       | some s => [("name", SqlParam.text s)]
       | none => []) ++
      (match description.suppliedText with
       | some s => [("description", SqlParam.text s)]
       | none => []) ++
      (if location_address = .undefined then []
       else [("location_address", SqlParam.ofOption location_address.suppliedText)]) ++
      (match photoUrl with
       | some url => [("photo_url", SqlParam.text url)]
       | none => []) ∧
    ((suppliedAssigns name description location_address photoUrl).filterMap
        ComplaintAssign.bound).length =
      (suppliedAssigns name description location_address photoUrl).length ∧
    (suppliedAssigns name description location_address photoUrl).length ≤ 4 := by
  unfold suppliedAssigns
  cases name.suppliedText <;> cases description.suppliedText <;> cases photoUrl <;>
    by_cases hu : location_address = .undefined <;>
    simp [hu, ComplaintAssign.bound]

theorem complaintUpdateBuild_supplied (name description location_address : JsVal)
    (photoUrl : Option String)
    (hname : name.truthy = true → ∃ s, name = .str s)
    (hdesc : description.truthy = true → ∃ s, description = .str s)
    (haddr : location_address.trimOrNull ≠ none) :
    complaintUpdateBuild name description location_address photoUrl =
      some (UpdateBuild.ofFields
        ((suppliedAssigns name description location_address photoUrl).filterMap
          ComplaintAssign.bound)) := by
  have h0 : ({ updateFields := [], updateValues := [], paramIndex := 1 } : UpdateBuild) =
      UpdateBuild.ofFields [] := rfl
  unfold complaintUpdateBuild
  rw [h0, pushTrimmed_ofFields [] "name" name hname]
  dsimp only
  rw [pushTrimmed_ofFields _ "description" description hdesc]
  dsimp only
  rw [pushAddress_ofFields _ location_address haddr]
  dsimp only
  rw [pushPhoto_ofFields, (suppliedAssigns_bound name description location_address photoUrl).1]
  simp only [List.nil_append, List.append_assoc]

theorem trimmedAssign_supplied {α : Type} (v : JsVal) (mk : String → α)
    (h : v.truthy = true → ∃ s, v = .str s) :
    trimmedAssign v mk =
      some (match v.suppliedText with
            | some s => [mk s]
            | none => []) := by
  unfold trimmedAssign
  cases v with
  | undefined => simp [JsVal.truthy, JsVal.suppliedText]
  | null => simp [JsVal.truthy, JsVal.suppliedText]
  | bool b =>
    cases b
    · simp [JsVal.truthy, JsVal.suppliedText]
    · obtain ⟨s, hs⟩ := h rfl
      cases hs
  | num n =>
    by_cases hn : n = 0
    · simp [JsVal.truthy, JsVal.suppliedText, hn]
    · have : (JsVal.num n).truthy = true := by simp [JsVal.truthy, hn]
      obtain ⟨s, hs⟩ := h this
      cases hs
  | str s =>
    by_cases hs : s = ""
    · subst hs
      have : jsTrim "" = "" := by decide
      simp [JsVal.truthy, JsVal.suppliedText, this]
    · by_cases ht : jsTrim s = ""
      · simp [JsVal.truthy, JsVal.suppliedText, hs, ht]
      · simp [JsVal.truthy, JsVal.suppliedText, hs, ht]

theorem complaintAssigns_supplied (name description location_address : JsVal)
    (photoUrl : Option String)
    (hname : name.truthy = true → ∃ s, name = .str s)
    (hdesc : description.truthy = true → ∃ s, description = .str s)
    (haddr : location_address.trimOrNull ≠ none) :
    complaintAssigns name description location_address photoUrl =
      some (suppliedAssigns name description location_address photoUrl) := by
  unfold complaintAssigns suppliedAssigns
  rw [trimmedAssign_supplied name _ hname, trimmedAssign_supplied description _ hdesc]
  have ha : addressAssign location_address =
      some (if location_address = .undefined then []
            else [ComplaintAssign.location_address location_address.suppliedText]) := by
    unfold addressAssign
    by_cases hu : location_address = .undefined
    · simp [hu]
    · cases hat : location_address.trimOrNull with
      | none => exact absurd hat haddr
      | some a =>
        have := trimOrNull_suppliedText location_address a hat
        subst this
        simp [hu]
  rw [ha]
  dsimp only
  cases photoUrl <;> rfl

set_option maxRecDepth 100000 in
theorem placeholders_numberedFields (l : List (String × SqlParam))
    (hcol : ∀ f ∈ l, f.1 ∈ ["name", "description", "location_address", "photo_url"]) :
    ∀ k, k + l.length ≤ 5 →
      (numberedFields k l).flatMap placeholders = List.range' k l.length := by
  induction l with
  | nil => intro k _; rfl
  | cons f rest ih =>
    intro k hk
    simp only [List.length_cons] at hk
    have hrest := ih (fun g hg => hcol g (List.mem_cons_of_mem _ hg)) (k + 1) (by omega)
    have hf := hcol f (List.mem_cons_self _ _)
    simp only [numberedFields, List.flatMap_cons, hrest, List.length_cons, List.range'_succ]
    have hk4 : k ≤ 4 := by omega
    have hone : placeholders (f.1 ++ " = $" ++ toString k) = [k] := by
      simp only [List.mem_cons, List.mem_singleton, List.not_mem_nil, or_false] at hf
      interval_cases k <;> rcases hf with h | h | h | h <;> rw [h] <;> decide
    rw [hone]
    rfl

theorem suppliedAssigns_columns (name description location_address : JsVal)
    (photoUrl : Option String) :
    ∀ f ∈ (suppliedAssigns name description location_address photoUrl).filterMap
        ComplaintAssign.bound,
      f.1 ∈ ["name", "description", "location_address", "photo_url"] := by
  rw [(suppliedAssigns_bound name description location_address photoUrl).1]
  intro f hf
  simp only [List.mem_append] at hf
  rcases hf with ((hf | hf) | hf) | hf
  · split at hf
    · simp only [List.mem_singleton] at hf; subst hf; simp
    · simp at hf
  · split at hf
    · simp only [List.mem_singleton] at hf; subst hf; simp
    · simp at hf
  · split at hf
    · simp at hf
    · simp only [List.mem_singleton] at hf; subst hf; simp
  · split at hf
    · simp only [List.mem_singleton] at hf; subst hf; simp
    · simp at hf

/-- C13, as stated, fails.  On the sample store the owner of complaint 1 sends
`PUT /complaints/1` with a name: with a photo of 11 MB the upload middleware
rejects the request and the final error handler answers 400 without an
`UPDATE`, although a field is supplied; with the number 5 as name,
`name.trim()` throws and the handler answers 500 without building an
`UPDATE`. -/
theorem updateComplaint_400_with_fields :
    handle sampleEnv sampleStore
      (.updateComplaint (some "Bearer tok-user") "1" (.str "Новое имя") .undefined .undefined
        [samplePhotoLarge]) =
      (sampleStore, errorResponse 400 "Файл слишком большой. Максимальный размер: 10MB") ∧
    suppliedAssigns (.str "Новое имя") .undefined .undefined none = [.name "Новое имя"] ∧
    handle sampleEnv sampleStore
      (.updateComplaint (some "Bearer tok-user") "1" (.num 5) .undefined .undefined []) =
      (sampleStore, errorResponse 500 "Ошибка при обновлении жалобы") ∧
    complaintUpdateBuild (.num 5) .undefined .undefined none = none := by
  decide

/-- C13, amended: for a `PUT /complaints/:id` that passes `authenticateToken`
and `requireOwnership`, whose file part, if any, the upload middleware accepts,
and whose name and description are strings or absent (falsy) and whose address
is a string, `null` or absent.  With `supplied` the list of assignments the
specification names (trimmed name, trimmed description, trimmed address or
`null`, new photo path, each when supplied) and `k` its length: the handler's
`SET` items are those assignments in that order with placeholders `$1..$k`,
its values are their `k` values, and the query is `UPDATE complaints SET` of
those items followed by `updated_at = CURRENT_TIMESTAMP`, `WHERE id = $(k+1)`,
with the `k + 1` parameters ending in the complaint id.  The response is 400
exactly when nothing is supplied, and then the store is unchanged; otherwise
the `UPDATE` with the supplied assignments is run and the response is 200, or
500 when the statement fails. -/
theorem updateComplaint_query (E : Env) (st : Store) (a : Option String) (id : String)
    (name description location_address : JsVal) (files accepted : List UploadFile)
    (u v : AuthUser)
    (hauth : authenticateToken E st a = .next u)
    (hown : requireOwnership E st u id = .next v)
    (hfiles : photoUpload.run files = .ok accepted)
    (hname : name.truthy = true → ∃ s, name = .str s)
    (hdesc : description.truthy = true → ∃ s, description = .str s)
    (haddr : location_address.trimOrNull ≠ none) :
    (∃ b, complaintUpdateBuild name description location_address (photoUrlOf E accepted) =
        some b ∧
      b.updateFields = numberedFields 1
        ((suppliedAssigns name description location_address (photoUrlOf E accepted)).filterMap
          ComplaintAssign.bound) ∧
      b.updateValues =
        ((suppliedAssigns name description location_address (photoUrlOf E accepted)).filterMap
          ComplaintAssign.bound).map (fun f => f.2) ∧
      b.updateFields.length =
        (suppliedAssigns name description location_address (photoUrlOf E accepted)).length ∧
      b.updateFields.flatMap placeholders = List.range' 1
        (suppliedAssigns name description location_address (photoUrlOf E accepted)).length ∧
      (complaintUpdateQuery b (parseInt id)).text =
        "\n      UPDATE complaints \n      SET " ++
          ", ".intercalate (b.updateFields ++ ["updated_at = CURRENT_TIMESTAMP"]) ++
          "\n      WHERE id = $" ++
          toString ((suppliedAssigns name description location_address
            (photoUrlOf E accepted)).length + 1) ++
          "\n      RETURNING *\n    " ∧
      (complaintUpdateQuery b (parseInt id)).params.length =
        (suppliedAssigns name description location_address (photoUrlOf E accepted)).length + 1 ∧
      (complaintUpdateQuery b (parseInt id)).params.getLast? =
        some (.number (parseInt id))) ∧
    complaintAssigns name description location_address (photoUrlOf E accepted) =
      some (suppliedAssigns name description location_address (photoUrlOf E accepted)) ∧
    (suppliedAssigns name description location_address (photoUrlOf E accepted) = [] →
      handle E st (.updateComplaint a id name description location_address files) =
        (st, errorResponse 400 "Нет данных для обновления")) ∧
    (suppliedAssigns name description location_address (photoUrlOf E accepted) ≠ [] →
      handle E st (.updateComplaint a id name description location_address files) =
        match updateComplaint E st (parseInt id)
          (suppliedAssigns name description location_address (photoUrlOf E accepted)) with
        | none => (st, errorResponse 500 "Ошибка при обновлении жалобы")
        | some (st1, rows) =>
          (st1, { status := 200, body := .updated "Жалоба успешно обновлена" rows.head? })) ∧
    ((handle E st (.updateComplaint a id name description location_address files)).2.status =
        400 ↔
      suppliedAssigns name description location_address (photoUrlOf E accepted) = []) := by
  have hb := complaintUpdateBuild_supplied name description location_address
    (photoUrlOf E accepted) hname hdesc haddr
  have hs := complaintAssigns_supplied name description location_address
    (photoUrlOf E accepted) hname hdesc haddr
  obtain ⟨_, hlen, hle⟩ := suppliedAssigns_bound name description location_address
    (photoUrlOf E accepted)
  have hcol := suppliedAssigns_columns name description location_address (photoUrlOf E accepted)
  have hnum : ∀ (l : List (String × SqlParam)) k, (numberedFields k l).length = l.length := by
    intro l
    induction l with
    | nil => intro k; rfl
    | cons f rest ih => intro k; simp [numberedFields, ih]
  have hempty : suppliedAssigns name description location_address (photoUrlOf E accepted) =
      [] →
      handle E st (.updateComplaint a id name description location_address files) =
        (st, errorResponse 400 "Нет данных для обновления") := by
    intro he
    simp only [handle, putComplaint, withOwnership, withAuth, hauth, hown, hfiles, hs, he]
  have hfull : suppliedAssigns name description location_address (photoUrlOf E accepted) ≠
      [] →
      handle E st (.updateComplaint a id name description location_address files) =
        match updateComplaint E st (parseInt id)
          (suppliedAssigns name description location_address (photoUrlOf E accepted)) with
        | none => (st, errorResponse 500 "Ошибка при обновлении жалобы")
        | some (st1, rows) =>
          (st1, { status := 200, body := .updated "Жалоба успешно обновлена" rows.head? }) := by
    intro hne
    cases hsup : suppliedAssigns name description location_address (photoUrlOf E accepted) with
    | nil => exact absurd hsup hne
    | cons x xs =>
      rw [hsup] at hs
      simp only [handle, putComplaint, withOwnership, withAuth, hauth, hown, hfiles, hs]
  refine ⟨⟨_, hb, rfl, rfl, ?_, ?_, ?_, ?_, ?_⟩, hs, hempty, hfull, ?_⟩
  · simp only [UpdateBuild.ofFields, hnum, hlen]
  · simp only [UpdateBuild.ofFields]
    rw [placeholders_numberedFields _ hcol 1 (by omega), hlen]
  · simp only [complaintUpdateQuery, UpdateBuild.ofFields, hlen]
  · simp only [complaintUpdateQuery, UpdateBuild.ofFields, List.length_append, List.length_map,
      hlen, List.length_cons, List.length_nil]
  · simp only [complaintUpdateQuery, List.getLast?_append, List.getLast?_singleton]
    rfl
  · constructor
    · intro h400
      by_contra hne
      rw [hfull hne] at h400
      split at h400 <;> simp [errorResponse] at h400
    · intro he
      rw [hempty he]
      rfl

theorem updateComplaint_query_witness :
    handle sampleEnv sampleStore
      (.updateComplaint (some "Bearer tok-user") "1" .undefined (.str "   ") .undefined []) =
      (sampleStore, errorResponse 400 "Нет данных для обновления") ∧
    (∃ b, complaintUpdateBuild (.str " Новое имя ") .undefined (.str "") none = some b ∧
      b.updateFields = ["name = $1", "location_address = $2"] ∧
      b.updateValues = [.text "Новое имя", .null]) := by
  have h := updateComplaint_query sampleEnv sampleStore (some "Bearer tok-user") "1" .undefined
    (.str "   ") .undefined [] [] sampleUser.toAuthUser sampleUser.toAuthUser (by decide)
    (by decide) rfl (fun h => absurd h (by decide)) (fun _ => ⟨_, rfl⟩) (by decide)
  have h2 := updateComplaint_query sampleEnv sampleStore (some "Bearer tok-user") "1"
    (.str " Новое имя ") .undefined (.str "") [] [] sampleUser.toAuthUser sampleUser.toAuthUser
    (by decide) (by decide) rfl (fun _ => ⟨_, rfl⟩) (fun h => absurd h (by decide)) (by decide)
  refine ⟨h.2.2.1 (by decide), ?_⟩
  obtain ⟨b, hb, hf, hv, _⟩ := h2.1
  exact ⟨b, hb, by rw [hf]; decide, by rw [hv]; decide⟩

/-! ### The sequence of complaint ids -/

theorem insertUser_nextComplaintId (E : Env) (st : Store) (n e p : String)
    (ph av : Option String) (role : String) :
    (insertUser E st n e p ph av role).1.nextComplaintId = st.nextComplaintId := by
  unfold insertUser
  repeat' split
  all_goals rfl

theorem updateUser_nextComplaintId (E : Env) (st st1 : Store) (id : Int) (set : List UserAssign)
    (rows : List User) (h : updateUser E st id set = some (st1, rows)) :
    st1.nextComplaintId = st.nextComplaintId := by
  unfold updateUser at h
  split at h
  · simp at h
  · split at h
    · simp at h
    · simp only [Option.some.injEq, Prod.mk.injEq] at h
      rw [← h.1]

theorem updateComplaint_nextComplaintId (E : Env) (st st1 : Store) (id : Option Int)
    (set : List ComplaintAssign) (rows : List Complaint)
    (h : updateComplaint E st id set = some (st1, rows)) :
    st1.nextComplaintId = st.nextComplaintId := by
  unfold updateComplaint at h
  split at h
  · simp at h
  · split at h
    · simp at h
    · simp only [Option.some.injEq, Prod.mk.injEq] at h
      rw [← h.1]

theorem deleteComplaint_nextComplaintId (st st1 : Store) (id : Option Int)
    (rows : List Complaint) (h : deleteComplaint st id = some (st1, rows)) :
    st1.nextComplaintId = st.nextComplaintId := by
  obtain ⟨k, _, _, h3, _⟩ := deleteComplaint_spec _ _ _ _ h
  subst h3
  rfl

theorem insertComplaint_nextComplaintId (E : Env) (st : Store) (uid : Int) (n : String)
    (la lo : JsNum) (a : Option String) (d : String) (p : Option String) (s : String) :
    (insertComplaint E st uid n la lo a d p s).1.nextComplaintId = st.nextComplaintId + 1 := by
  unfold insertComplaint
  dsimp only
  repeat' split
  all_goals rfl

theorem postComplaint_nextComplaintId (E : Env) (st : Store) (a : Option String)
    (n d la lo ad : JsVal) (fs : List UploadFile) :
    (postComplaint E st a n d la lo ad fs).1 = st ∨
      (postComplaint E st a n d la lo ad fs).1.nextComplaintId = st.nextComplaintId + 1 := by
  unfold postComplaint
  apply withAuth_cases E st a _
    (fun p => p.1 = st ∨ p.1.nextComplaintId = st.nextComplaintId + 1)
  · intro r _; exact Or.inl rfl
  · intro u _
    repeat' first | split | (dsimp only; split)
    all_goals try exact Or.inl rfl
    all_goals
      rename_i h
      have h2 := congrArg (fun p => p.1.nextComplaintId) h
      simp only [insertComplaint_nextComplaintId] at h2
      exact Or.inr h2.symm

theorem handle_nextComplaintId (E : Env) (st : Store) (r : Request)
    (hr : r.isCreateComplaint = false) :
    (handle E st r).1.nextComplaintId = st.nextComplaintId := by
  cases r with
  | register n e p ph fs =>
    simp only [handle]
    unfold postRegister
    repeat' first | split | (dsimp only; split)
    all_goals try rfl
    all_goals
      rename_i h
      have h2 := congrArg (fun p => p.1.nextComplaintId) h
      simp only [insertUser_nextComplaintId] at h2
      exact h2.symm
  | login e p => exact congrArg Store.nextComplaintId (postLogin_store E st e p)
  | me a => exact congrArg Store.nextComplaintId (getMe_store E st a)
  | profile a n ph fs =>
    simp only [handle]
    unfold putProfile
    apply withAuth_cases E st a _ (fun p => p.1.nextComplaintId = st.nextComplaintId)
    · intro r _; rfl
    · intro u _
      repeat' first | split | (dsimp only; split)
      all_goals first
        | rfl
        | (rename_i h; exact updateUser_nextComplaintId E st _ _ _ _ h)
  | changePassword a c n =>
    simp only [handle]
    unfold postChangePassword
    apply withAuth_cases E st a _ (fun p => p.1.nextComplaintId = st.nextComplaintId)
    · intro r _; rfl
    · intro u _
      repeat' split
      all_goals first
        | rfl
        | (rename_i h; exact updateUser_nextComplaintId E st _ _ _ _ h)
  | createComplaint a n d la lo ad fs => simp [Request.isCreateComplaint] at hr
  | publicComplaints s l o =>
    exact congrArg Store.nextComplaintId (getPublicComplaints_store st s l o)
  | myComplaints a s l o =>
    exact congrArg Store.nextComplaintId (getMyComplaints_store E st a s l o)
  | complaint id => exact congrArg Store.nextComplaintId (getComplaint_store st id)
  | updateComplaint a id n d ad fs =>
    simp only [handle]
    unfold putComplaint
    apply withOwnership_cases E st a id _ (fun p => p.1.nextComplaintId = st.nextComplaintId)
    · intro r; rfl
    · intro u v _ _
      repeat' split
      all_goals try rfl
      rename_i h
      exact updateComplaint_nextComplaintId _ _ _ _ _ _ h
  | deleteComplaint a id =>
    simp only [handle]
    unfold deleteOwnComplaint
    apply withOwnership_cases E st a id _ (fun p => p.1.nextComplaintId = st.nextComplaintId)
    · intro r; rfl
    · intro u v _ _
      repeat' split
      all_goals try rfl
      rename_i h
      exact deleteComplaint_nextComplaintId _ _ _ _ h
  | adminComplaints a s l o q =>
    exact congrArg Store.nextComplaintId (getAdminComplaints_store E st a s l o q)
  | adminSetStatus a id s =>
    simp only [handle]
    unfold patchComplaintStatus
    apply withAdmin_cases E st a _ (fun p => p.1.nextComplaintId = st.nextComplaintId)
    · intro r _; rfl
    · intro u _
      repeat' split
      all_goals try rfl
      rename_i h
      exact updateComplaint_nextComplaintId _ _ _ _ _ _ h
  | adminDeleteComplaint a id =>
    simp only [handle]
    unfold deleteAdminComplaint
    apply withAdmin_cases E st a _ (fun p => p.1.nextComplaintId = st.nextComplaintId)
    · intro r _; rfl
    · intro u _
      repeat' split
      all_goals try rfl
      rename_i h
      exact deleteComplaint_nextComplaintId _ _ _ _ h
  | adminDashboard a => exact congrArg Store.nextComplaintId (getDashboard_store E st a)
  | adminUsers a l o q =>
    exact congrArg Store.nextComplaintId (getAdminUsers_store E st a l o q)
  | adminOther a m p =>
    simp only [handle]
    unfold withAdmin
    split <;> rfl
  | upload a t fs => exact congrArg Store.nextComplaintId (postUpload_store E st a t fs)
  | uploadMultiple a t fs =>
    exact congrArg Store.nextComplaintId (postUploadMultiple_store E st a t fs)
  | apiInfo => rfl
  | health => rfl
  | other m p => rfl

theorem updateComplaintRows_ids (now : Nat) (k : Int) (set : List ComplaintAssign)
    (cs cs1 : List Complaint) (h : updateComplaintRows now k set cs = some cs1) :
    ∀ c1 ∈ cs1, ∃ c ∈ cs, c1.id = c.id := by
  intro c1 hc1
  obtain ⟨c, hc, hr⟩ := forall₂_exists_left _ _ _ (updateComplaintRows_spec now k set cs cs1 h)
    c1 hc1
  refine ⟨c, hc, ?_⟩
  rcases hr with rfl | ⟨_, happ⟩
  · rfl
  · exact (applyComplaintAssigns_spec now set c c1 happ).1

/-- The sequence invariant is kept by every request: no route stores a
complaint with an id at or above the next value of the sequence, and the one
route that inserts a complaint draws that value and advances the sequence. -/
theorem handle_complaintIdsFresh (E : Env) (st : Store) (r : Request)
    (h : ComplaintIdsFresh st) : ComplaintIdsFresh (handle E st r).1 := by
  by_cases hr : r.isCreateComplaint = true
  · cases r with
    | createComplaint a n d la lo ad fs =>
      have hch := postComplaint_change E st a n d la lo ad fs
      rcases postComplaint_nextComplaintId E st a n d la lo ad fs with hsame | hnext
      · simp only [handle]
        rw [hsame]
        exact h
      · intro c hc
        simp only [handle] at hc ⊢
        rw [hnext]
        cases hch with
        | same hs => rw [hs] at hc; have := h c hc; omega
        | created c0 hs _ hid _ _ =>
          rw [hs] at hc
          rcases List.mem_append.mp hc with hc | hc
          · have := h c hc; omega
          · simp only [List.mem_singleton] at hc
            subst hc
            omega
        | deleted k hs hr2 => simp [Request.isDeleteComplaint] at hr2
        | updated k set hs _ hr2 => simp [Request.isUpdateComplaint] at hr2
        | statusSet k s u hs _ hr2 _ =>
          obtain ⟨a2, id2, heq⟩ := hr2
          cases heq
    | _ => simp [Request.isCreateComplaint] at hr
  · have hr' : r.isCreateComplaint = false := by simpa using hr
    have hnext := handle_nextComplaintId E st r hr'
    intro c hc
    rw [hnext]
    cases handle_change E st r with
    | same hs => rw [hs] at hc; exact h c hc
    | created c0 hs _ _ _ hr2 => exact absurd hr2 hr
    | deleted k hs _ =>
      rw [hs] at hc
      exact h c (List.mem_of_mem_filter hc)
    | updated k set hs _ _ =>
      obtain ⟨c0, hc0, hid⟩ := updateComplaintRows_ids _ _ _ _ _ hs c hc
      rw [hid]
      exact h c0 hc0
    | statusSet k s u hs _ _ _ =>
      obtain ⟨c0, hc0, hid⟩ := updateComplaintRows_ids _ _ _ _ _ hs c hc
      rw [hid]
      exact h c0 hc0

theorem run_complaintIdsFresh (reqs : List (Env × Request)) :
    ∀ st, ComplaintIdsFresh st → ComplaintIdsFresh (run st reqs) := by
  induction reqs with
  | nil => intro st h; exact h
  | cons x rest ih =>
    intro st h
    obtain ⟨E, r⟩ := x
    exact ih _ (handle_complaintIdsFresh E st r h)

/-- In every state reached from the empty database or from the sample store by
any sequence of requests, the next id of the complaint sequence is unused: no
stored complaint has it. -/
theorem next_complaint_id_unused (reqs : List (Env × Request)) :
    (∀ c ∈ (run emptyStore reqs).complaints, c.id ≠ (run emptyStore reqs).nextComplaintId) ∧
    (∀ c ∈ (run sampleStore reqs).complaints, c.id ≠ (run sampleStore reqs).nextComplaintId) := by
  have h1 : ComplaintIdsFresh emptyStore := by
    intro c hc
    simp [emptyStore] at hc
  have h2 : ComplaintIdsFresh sampleStore := by
    intro c hc
    simp only [sampleStore, List.mem_cons, List.mem_singleton, List.not_mem_nil, or_false] at hc
    rcases hc with rfl | rfl <;> decide
  constructor
  · intro c hc
    exact ne_of_lt (run_complaintIdsFresh reqs _ h1 c hc)
  · intro c hc
    exact ne_of_lt (run_complaintIdsFresh reqs _ h2 c hc)

/-! ### Login with a field that is not a string -/

theorem login_non_string (E : Env) (st : Store) (n : Int) (password : JsVal)
    (hn : n ≠ 0) (hp : password.truthy = true) :
    handle E st (.login (.num n) password) =
      (st, errorResponse 500 "Ошибка при входе в систему") := by
  have hte : (JsVal.num n).truthy = true := by simp [JsVal.truthy, hn]
  simp [handle, postLogin, hte, hp]

end Taza
